import Mathlib

/-!
# Pickup-point service: receptions and products

A shallow embedding of the reception and product services
(`internal/services/reception-service.go`, `internal/services/product-service.go`)
and of the SQL repositories they call
(`internal/repository/reception-repository.go`,
`internal/repository/product-repository.go`).

The database is a pair of tables (lists of rows, in insertion order).  Every
repository method is a function from a database to a result and a database.
What the Go code reads from outside the program is an explicit argument, `Env`:
the UUIDs and clock readings it obtains, the error (if any) the SQL driver
returns for each statement, and the row the database picks among rows of equal
`dateTime` for `ORDER BY dateTime DESC LIMIT 1`.

The field `calls` of `DB` is a ghost log of the repository methods invoked; it
is not read by any function and only serves to state "never calls".
-/

namespace PVZ

/-- Values of Go's `error` that can reach the services: the package-level
variables of `internalErrors`, and `other msg` for every other error value
(driver errors, `errors.New("no reception updated")`, ...). -/
inductive Error where
  | ErrProductNotFound
  | ErrInvalidCity
  | ErrActiveReceptionExists
  | ErrNoActiveReception
  | ErrEmailExists
  | ErrInvalidCredentials
  | ErrInvalidProductType
  | ErrUserNotFound
  | other (msg : String)
  deriving DecidableEq, Repr

/-- Type `models.Reception`.  `DateTime` is an instant counted from the zero
`time.Time`, so `IsZero` is `DateTime = 0`. -/
structure Reception where
  ID : String
  DateTime : Int
  PvzID : String
  Status : String
  deriving DecidableEq, Repr

/-- Type `models.Product`; the Go field `Type` is spelled `Type_`. -/
structure Product where
  ID : String
  DateTime : Int
  Type_ : String
  ReceptionID : String
  deriving DecidableEq, Repr

/-- Type `productDto.CreateProductRequest`, with the two fields the service reads. -/
structure CreateProductRequest where
  Type_ : String
  PvzID : String
  deriving DecidableEq, Repr

/-- One invocation of a repository method, with its argument. -/
inductive Call where
  | GetActiveReception (pvzId : String)
  | CreateReception (reception : Reception)
  | CloseReception (receptionID : String)
  | AddProduct (product : Product)
  | GetLastProduct (receptionID : String)
  | DeleteProduct (productID : String)
  deriving DecidableEq, Repr

/-- The database: tables `receptions` and `products`, and the ghost log of
repository calls. -/
structure DB where
  receptions : List Reception
  products : List Product
  calls : List Call
  deriving DecidableEq, Repr

/-- What one service call reads from outside the program. -/
structure Env where
  /-- result of `uuid.New().String()` in the service -/
  uuid : String
  /-- result of `time.Now()` in the service -/
  now : Int
  /-- result of `uuid.New().String()` in `ProductRepository.AddProduct` -/
  repoUuid : String
  /-- result of `time.Now()` in `ProductRepository.AddProduct` -/
  repoNow : Int
  /-- error of `QueryRow(..).Scan` in `GetActiveReception` other than `sql.ErrNoRows` -/
  getActiveErr : Option String
  /-- error of `db.Exec` for the `INSERT INTO receptions` -/
  createErr : Option String
  /-- error of `db.Exec` for the `UPDATE receptions` -/
  closeErr : Option String
  /-- error of `RowsAffected` after the `UPDATE receptions` -/
  closeRowsErr : Option String
  /-- error of `db.Exec` for the `INSERT INTO products` -/
  addErr : Option String
  /-- error of `QueryRow(..).Scan` in `GetLastProduct` other than `sql.ErrNoRows` -/
  getLastErr : Option String
  /-- error of `db.Exec` for the `DELETE FROM products` -/
  deleteErr : Option String
  /-- error of `RowsAffected` after the `DELETE FROM products` -/
  deleteRowsErr : Option String
  /-- which of the receptions with the greatest `dateTime` the database returns -/
  tieReception : Nat
  /-- which of the products with the greatest `dateTime` the database returns -/
  tieProduct : Nat
  deriving Repr

/-- An environment in which no statement fails. -/
def Env.quiet (uuid : String) (now : Int) : Env :=
  { uuid := uuid, now := now, repoUuid := uuid, repoNow := now,
    getActiveErr := none, createErr := none, closeErr := none, closeRowsErr := none,
    addErr := none, getLastErr := none, deleteErr := none, deleteRowsErr := none,
    tieReception := 0, tieProduct := 0 }

/-- Appends a call to the ghost log. -/
def DB.log (db : DB) (c : Call) : DB :=
  { db with calls := db.calls ++ [c] }

/-- SQL `ORDER BY dateTime DESC LIMIT 1` over the selected rows: a row whose
`dateTime` is greatest; among several such rows the database is free to pick,
which `tie` decides. -/
def orderByDescLimit1 {α : Type} (key : α → Int) (tie : Nat) (rows : List α) : Option α :=
  let top := rows.filter (fun r => rows.all (fun q => decide (key q ≤ key r)))
  top[tie % top.length]?

/-- Rows of `receptions` matching `WHERE pvzId = $1 AND status = 'in_progress'`. -/
def activeRows (pvzId : String) (db : DB) : List Reception :=
  db.receptions.filter (fun r => decide (r.PvzID = pvzId ∧ r.Status = "in_progress"))

/-- Rows of `products` matching `WHERE receptionId = $1`. -/
def productRows (receptionID : String) (db : DB) : List Product :=
  db.products.filter (fun p => decide (p.ReceptionID = receptionID))

/-- Effect of `UPDATE receptions SET status = 'close' WHERE id = $1` on the rows. -/
def closeRows (receptionID : String) (rows : List Reception) : List Reception :=
  rows.map (fun r => if r.ID = receptionID then { r with Status := "close" } else r)

/-- Effect of `DELETE FROM products WHERE id = $1` on the rows. -/
def deleteRows (productID : String) (rows : List Product) : List Product :=
  rows.filter (fun p => decide (p.ID ≠ productID))

/-! ## `ReceptionRepository` -/

/-- `ReceptionRepository.CreateReception`: `INSERT INTO receptions`. -/
def ReceptionRepository.CreateReception (env : Env) (reception : Reception) (db : DB) :
    Option Error × DB :=
  let db := db.log (Call.CreateReception reception)
  match env.createErr with
  | some msg => (some (Error.other msg), db)
  | none => (none, { db with receptions := db.receptions ++ [reception] })

/-- `ReceptionRepository.GetActiveReception`: the in-progress reception of the
pickup point with the latest `dateTime`, `ErrNoActiveReception` when the query
has no row, the driver's error otherwise. -/
def ReceptionRepository.GetActiveReception (env : Env) (pvzId : String) (db : DB) :
    Except Error Reception × DB :=
  let db := db.log (Call.GetActiveReception pvzId)
  match env.getActiveErr with
  | some msg => (Except.error (Error.other msg), db)
  | none =>
    match orderByDescLimit1 Reception.DateTime env.tieReception (activeRows pvzId db) with
    | none => (Except.error Error.ErrNoActiveReception, db)
    | some reception => (Except.ok reception, db)

/-- `ReceptionRepository.CloseReception`: `UPDATE receptions SET status = 'close'
WHERE id = $1`, an error when no row was updated. -/
def ReceptionRepository.CloseReception (env : Env) (receptionID : String) (db : DB) :
    Option Error × DB :=
  let db := db.log (Call.CloseReception receptionID)
  match env.closeErr with
  | some msg => (some (Error.other msg), db)
  | none =>
    let rowsAffected := (db.receptions.filter (fun r => decide (r.ID = receptionID))).length
    let db := { db with receptions := closeRows receptionID db.receptions }
    match env.closeRowsErr with
    | some msg => (some (Error.other msg), db)
    | none =>
      if rowsAffected = 0 then (some (Error.other "no reception updated"), db)
      else (none, db)

/-! ## `ProductRepository` -/

/-- `ProductRepository.AddProduct`: fills an empty ID and a zero time, then
`INSERT INTO products`.  The product is passed by pointer, so the filled-in
product is returned as well. -/
def ProductRepository.AddProduct (env : Env) (product : Product) (db : DB) :
    Option Error × Product × DB :=
  let db := db.log (Call.AddProduct product)
  let product := if product.ID = "" then { product with ID := env.repoUuid } else product
  let product := if product.DateTime = 0 then { product with DateTime := env.repoNow } else product
  match env.addErr with
  | some msg => (some (Error.other msg), product, db)
  | none => (none, product, { db with products := db.products ++ [product] })

/-- `ProductRepository.GetLastProduct`: the product of the reception with the
latest `dateTime`, `ErrProductNotFound` when the query has no row. -/
def ProductRepository.GetLastProduct (env : Env) (receptionID : String) (db : DB) :
    Except Error Product × DB :=
  let db := db.log (Call.GetLastProduct receptionID)
  match env.getLastErr with
  | some msg => (Except.error (Error.other msg), db)
  | none =>
    match orderByDescLimit1 Product.DateTime env.tieProduct (productRows receptionID db) with
    | none => (Except.error Error.ErrProductNotFound, db)
    | some product => (Except.ok product, db)

/-- `ProductRepository.DeleteProduct`: `DELETE FROM products WHERE id = $1`, an
error when no row was deleted. -/
def ProductRepository.DeleteProduct (env : Env) (productID : String) (db : DB) :
    Option Error × DB :=
  let db := db.log (Call.DeleteProduct productID)
  match env.deleteErr with
  | some msg => (some (Error.other msg), db)
  | none =>
    let rowsAffected := (db.products.filter (fun p => decide (p.ID = productID))).length
    let db := { db with products := deleteRows productID db.products }
    match env.deleteRowsErr with
    | some msg => (some (Error.other msg), db)
    | none =>
      if rowsAffected = 0 then (some (Error.other "no product deleted"), db)
      else (none, db)

/-! ## `ReceptionService` -/

/-- `ReceptionService.CreateReception`.  The reception is passed by pointer, so
the reception as the caller sees it afterwards is returned with the error. -/
def ReceptionService.CreateReception (env : Env) (reception : Reception) (db : DB) :
    Option Error × Reception × DB :=
  -- activeReception, _ := s.getActiveReception(reception.PvzID)
  let (activeReception, db) := ReceptionRepository.GetActiveReception env reception.PvzID db
  match activeReception with
  | Except.ok _ => (some Error.ErrActiveReceptionExists, reception, db)
  | Except.error _ =>
    let reception := if reception.ID = "" then { reception with ID := env.uuid } else reception
    let reception :=
      if reception.DateTime = 0 then { reception with DateTime := env.now } else reception
    let (err, db) := ReceptionRepository.CreateReception env reception db
    (err, reception, db)

/-- `ReceptionService.CloseLastReception`, returning Go's pair
`(*models.Reception, error)`. -/
def ReceptionService.CloseLastReception (env : Env) (pvzID : String) (db : DB) :
    (Option Reception × Option Error) × DB :=
  let (res, db) := ReceptionRepository.GetActiveReception env pvzID db
  match res with
  | Except.error _ => ((none, some Error.ErrNoActiveReception), db)
  | Except.ok reception =>
    let (err, db) := ReceptionRepository.CloseReception env reception.ID db
    match err with
    | some e => ((none, some e), db)
    | none => ((some { reception with Status := "close" }, none), db)

/-! ## `ProductService` -/

/-- Function `checkProductType`: membership in the map of valid types. -/
def checkProductType (productType : String) : Option Error :=
  if productType = "электроника" ∨ productType = "одежда" ∨ productType = "обувь" then none
  else some Error.ErrInvalidProductType

/-- `ProductService.AddProduct`, returning Go's pair `(*models.Product, error)`. -/
def ProductService.AddProduct (env : Env) (req : CreateProductRequest) (db : DB) :
    (Option Product × Option Error) × DB :=
  let (res, db) := ReceptionRepository.GetActiveReception env req.PvzID db
  match res with
  | Except.error err => ((none, some err), db)
  | Except.ok reception =>
    match checkProductType req.Type_ with
    | some err => ((none, some err), db)
    | none =>
      let product : Product :=
        { ID := env.uuid, DateTime := env.now, Type_ := req.Type_, ReceptionID := reception.ID }
      let (err, product, db) := ProductRepository.AddProduct env product db
      match err with
      | some e => ((none, some e), db)
      | none => ((some product, none), db)

/-- `ProductService.DeleteLastProduct`. -/
def ProductService.DeleteLastProduct (env : Env) (pvzId : String) (db : DB) :
    Option Error × DB :=
  let (res, db) := ReceptionRepository.GetActiveReception env pvzId db
  match res with
  | Except.error err => (some err, db)
  | Except.ok reception =>
    let (res, db) := ProductRepository.GetLastProduct env reception.ID db
    match res with
    | Except.error err => (some err, db)
    | Except.ok product => ProductRepository.DeleteProduct env product.ID db

/-- The reception the create-reception handler builds from a request and hands
to `ReceptionService.CreateReception`: only `PvzID` and `Status` are set. -/
def handlerReception (pvzId : String) : Reception :=
  { ID := "", DateTime := 0, PvzID := pvzId, Status := "in_progress" }

/-- The reception `ReceptionService.CreateReception` passes to the repository:
the argument after its two defaulting assignments. -/
def handedReception (env : Env) (reception : Reception) : Reception :=
  { ID := if reception.ID = "" then env.uuid else reception.ID,
    DateTime := if reception.DateTime = 0 then env.now else reception.DateTime,
    PvzID := reception.PvzID,
    Status := reception.Status }

/-! ## Sequences of service calls -/

/-- One call of a service operation, with its argument. -/
inductive Op where
  | createReception (reception : Reception)
  | closeLastReception (pvzID : String)
  | addProduct (req : CreateProductRequest)
  | deleteLastProduct (pvzId : String)
  deriving DecidableEq, Repr

/-- The database after one service call. -/
def Op.exec (env : Env) : Op → DB → DB
  | Op.createReception reception, db => (ReceptionService.CreateReception env reception db).2.2
  | Op.closeLastReception pvzID, db => (ReceptionService.CloseLastReception env pvzID db).2
  | Op.addProduct req, db => (ProductService.AddProduct env req db).2
  | Op.deleteLastProduct pvzId, db => (ProductService.DeleteLastProduct env pvzId db).2

/-- The database after a sequence of service calls, each with its environment. -/
def run : List (Env × Op) → DB → DB
  | [], db => db
  | (env, op) :: rest, db => run rest (op.exec env db)

/-! ## Predicates on databases and runs -/

/-- At most one reception with status `in_progress` for every pickup point. -/
def OneActive (db : DB) : Prop :=
  ∀ pvzId : String, (activeRows pvzId db).length ≤ 1

/-- The two status values the handlers and the repository write. -/
def StatusOK (status : String) : Prop :=
  status = "in_progress" ∨ status = "close"

/-- Every `CreateReception` of the run is called as the handler calls it, with
`Status = "in_progress"`. -/
def HandlerCalls (ops : List (Env × Op)) : Prop :=
  ∀ eo ∈ ops, ∀ reception, eo.2 = Op.createReception reception →
    reception.Status = "in_progress"

/-- No `CreateReception` of the run has its reception lookup fail with a driver
error. -/
def LookupsComplete (ops : List (Env × Op)) : Prop :=
  ∀ eo ∈ ops, ∀ reception, eo.2 = Op.createReception reception → eo.1.getActiveErr = none

/-- Identifiers are keys: no two rows of a table have the same `id`. -/
def Keys (db : DB) : Prop :=
  (db.receptions.map Reception.ID).Nodup ∧ (db.products.map Product.ID).Nodup

/-- Identifiers are keys in every database the run goes through. -/
def KeysAlong : List (Env × Op) → DB → Prop
  | [], db => Keys db
  | (env, op) :: rest, db => Keys db ∧ KeysAlong rest (op.exec env db)

instance Keys.decidable (db : DB) : Decidable (Keys db) := by
  unfold Keys
  infer_instance

instance KeysAlong.decidable : (ops : List (Env × Op)) → (db : DB) → Decidable (KeysAlong ops db)
  | [], db => Keys.decidable db
  | (env, op) :: rest, db =>
    @instDecidableAnd _ _ (Keys.decidable db) (KeysAlong.decidable rest (op.exec env db))

/-! ## Example data -/

/-- A database with one open reception `rec-1` of pickup point `pvz-1`. -/
def Example.dbOpen : DB :=
  { receptions := [{ ID := "rec-1", DateTime := 5, PvzID := "pvz-1", Status := "in_progress" }],
    products := [], calls := [] }

/-- A database without rows. -/
def Example.dbEmpty : DB :=
  { receptions := [], products := [], calls := [] }

/-- An environment whose reception lookup fails with a driver error while every
other statement is executed. -/
def Example.envLookupFails : Env :=
  { Env.quiet "uuid-2" 9 with getActiveErr := some "driver: bad connection" }

/-- An open, an add, a close and a second open on an empty store. -/
def Example.opsOpenAddClose : List (Env × Op) :=
  [(Env.quiet "uuid-1" 7, Op.createReception (handlerReception "pvz-1")),
   (Env.quiet "uuid-2" 8, Op.addProduct { Type_ := "обувь", PvzID := "pvz-1" }),
   (Env.quiet "uuid-3" 9, Op.closeLastReception "pvz-1"),
   (Env.quiet "uuid-4" 10, Op.createReception (handlerReception "pvz-1"))]

/-- A database with one closed reception `rec-1` that owns one product. -/
def Example.dbClosed : DB :=
  { receptions := [{ ID := "rec-1", DateTime := 5, PvzID := "pvz-1", Status := "close" }],
    products := [{ ID := "prod-1", DateTime := 6, Type_ := "обувь", ReceptionID := "rec-1" }],
    calls := [] }

/-- An open, two adds, a delete and a close on the pickup point of
`Example.dbClosed`. -/
def Example.opsAfterClose : List (Env × Op) :=
  [(Env.quiet "uuid-4" 10, Op.createReception (handlerReception "pvz-1")),
   (Env.quiet "uuid-5" 11, Op.addProduct { Type_ := "одежда", PvzID := "pvz-1" }),
   (Env.quiet "uuid-6" 12, Op.addProduct { Type_ := "обувь", PvzID := "pvz-1" }),
   (Env.quiet "uuid-7" 13, Op.deleteLastProduct "pvz-1"),
   (Env.quiet "uuid-8" 14, Op.closeLastReception "pvz-1")]

/-! ## Further definitions for the product service -/

/-- The product `ProductService.AddProduct` builds for the repository. -/
def builtProduct (env : Env) (req : CreateProductRequest) (reception : Reception) : Product :=
  { ID := env.uuid, DateTime := env.now, Type_ := req.Type_, ReceptionID := reception.ID }

/-- The product after the two defaulting assignments of
`ProductRepository.AddProduct`. -/
def filledProduct (env : Env) (product : Product) : Product :=
  { ID := if product.ID = "" then env.repoUuid else product.ID,
    DateTime := if product.DateTime = 0 then env.repoNow else product.DateTime,
    Type_ := product.Type_,
    ReceptionID := product.ReceptionID }

/-- The error a service call returns to its caller. -/
def Op.error (env : Env) : Op → DB → Option Error
  | Op.createReception reception, db => (ReceptionService.CreateReception env reception db).1
  | Op.closeLastReception pvzID, db => (ReceptionService.CloseLastReception env pvzID db).1.2
  | Op.addProduct req, db => (ProductService.AddProduct env req db).1.2
  | Op.deleteLastProduct pvzId, db => (ProductService.DeleteLastProduct env pvzId db).1

/-- The errors returned by the calls of a run, in order. -/
def runErrors : List (Env × Op) → DB → List (Option Error)
  | [], _ => []
  | (env, op) :: rest, db => op.error env db :: runErrors rest (op.exec env db)

/-- Consecutive `DeleteLastProduct` calls on one pickup point, one per
environment. -/
def deleteCalls (envs : List Env) (pvzId : String) : List (Env × Op) :=
  envs.map (fun env => (env, Op.deleteLastProduct pvzId))

/-- The rows ordered by `dateTime`, latest first. -/
def lastFirst (rows : List Product) : List Product :=
  rows.insertionSort (fun a b => b.DateTime ≤ a.DateTime)

/-- The driver executes the three statements of a `DeleteLastProduct`. -/
def Env.ExecutesDelete (env : Env) : Prop :=
  env.getActiveErr = none ∧ env.getLastErr = none ∧ env.deleteErr = none ∧
    env.deleteRowsErr = none

instance Env.ExecutesDelete.decidable (env : Env) : Decidable env.ExecutesDelete := by
  unfold Env.ExecutesDelete
  infer_instance

/-- The status code the delete-last-product handler writes for the error that
`ProductService.DeleteLastProduct` returned (`errors.Is` on these error values
is equality). -/
def deleteLastProduct.statusOf (err : Option Error) : Nat :=
  match err with
  | none => 200
  | some e =>
    if e = Error.ErrNoActiveReception then 400
    else if e = Error.ErrProductNotFound then 400
    else 500

/-- A request with a product type outside the allow-list. -/
def Example.reqBadType : CreateProductRequest :=
  { Type_ := "мебель", PvzID := "pvz-1" }

/-- A request with an allow-listed product type. -/
def Example.reqShoes : CreateProductRequest :=
  { Type_ := "обувь", PvzID := "pvz-1" }

/-- An environment whose `INSERT INTO products` fails with a driver error. -/
def Example.envAddFails : Env :=
  { Env.quiet "uuid-2" 9 with addErr := some "driver: bad connection" }

/-- An environment whose `UPDATE receptions` fails with a driver error. -/
def Example.envCloseFails : Env :=
  { Env.quiet "uuid-2" 9 with closeErr := some "driver: bad connection" }

/-- The open reception of `Example.dbOpen` with three products, added at times
6, 7 and 8. -/
def Example.dbThree : DB :=
  { receptions := [{ ID := "rec-1", DateTime := 5, PvzID := "pvz-1", Status := "in_progress" }],
    products :=
      [{ ID := "prod-1", DateTime := 6, Type_ := "электроника", ReceptionID := "rec-1" },
       { ID := "prod-2", DateTime := 7, Type_ := "одежда", ReceptionID := "rec-1" },
       { ID := "prod-3", DateTime := 8, Type_ := "обувь", ReceptionID := "rec-1" }],
    calls := [] }

/-- The open reception of `Example.dbOpen` holding a product whose timestamp,
20, is later than the clock readings of the calls that follow. -/
def Example.dbLate : DB :=
  { receptions := [{ ID := "rec-1", DateTime := 5, PvzID := "pvz-1", Status := "in_progress" }],
    products := [{ ID := "prod-1", DateTime := 20, Type_ := "одежда", ReceptionID := "rec-1" }],
    calls := [] }

/-- Three environments in which every statement is executed. -/
def Example.envsThree : List Env :=
  [Env.quiet "uuid-5" 11, Env.quiet "uuid-6" 12, Env.quiet "uuid-7" 13]

/-! ## Pickup points: `models.PVZ`, `PVZRepository`, `PVZService` -/

/-- Type `models.PVZ`; `RegistrationDate` is an instant counted from the zero
`time.Time`. -/
structure PVZ where
  ID : String
  RegistrationDate : Int
  City : String
  deriving DecidableEq, Repr

/-- One invocation of a method of `PVZRepository`, with its arguments. -/
inductive PvzCall where
  | CreatePVZ (pvz : PVZ)
  | ListPVZ (limit offset : Int) (startDate endDate : Option Int)
  deriving DecidableEq, Repr

/-- The table `pvz` and the ghost log of the calls of `PVZRepository`. -/
structure PvzDB where
  pvzs : List PVZ
  calls : List PvzCall
  deriving DecidableEq, Repr

/-- What one call of `PVZService` reads from outside the program. -/
structure PvzEnv where
  /-- result of `uuid.New().String()` -/
  uuid : String
  /-- result of `time.Now()` -/
  now : Int
  /-- error of `db.Exec` for the `INSERT INTO pvz` -/
  createPvzErr : Option String
  /-- error of `db.Query` for the `SELECT ... FROM pvz` -/
  listErr : Option String
  /-- result of `time.Parse` with the layout `2006-01-02T15:04:05`, `none` on error -/
  parseTime : String → Option Int

/-- An environment in which no statement fails and no date parses. -/
def PvzEnv.quiet (uuid : String) (now : Int) : PvzEnv :=
  { uuid := uuid, now := now, createPvzErr := none, listErr := none,
    parseTime := fun _ => none }

/-- Appends a call to the ghost log. -/
def PvzDB.log (db : PvzDB) (c : PvzCall) : PvzDB :=
  { db with calls := db.calls ++ [c] }

/-- Greatest value of Go's `int` on a 64-bit platform. -/
def maxInt64 : Int := 9223372036854775807

/-- Least value of Go's `int` on a 64-bit platform. -/
def minInt64 : Int := -9223372036854775808

/-- Greatest value of `uint64`. -/
def maxUint64 : Nat := 18446744073709551615

/-- A mathematical integer as the 64-bit two's complement `int` holding it
(the result of a wrapping machine operation). -/
def wrapInt64 (x : Int) : Int :=
  (x + 9223372036854775808) % 18446744073709551616 - 9223372036854775808

/-- Conversion `uint64(x)` of an `int`. -/
def toUint64 (x : Int) : Nat :=
  (x % 18446744073709551616).toNat

/-- Outcome of `strconv.ParseUint`: a value, a syntax error, or a range error. -/
inductive NumResult where
  | value (n : Nat)
  | syntaxError
  | rangeError
  deriving DecidableEq, Repr

/-- Digit loop of `strconv.ParseUint(s, 10, 64)` (Go standard library): a
character that is not a decimal digit is a syntax error; as soon as the value
would exceed `uint64` the loop returns a range error, without reading on. -/
def strconv.ParseUint.loop (n : Nat) : List Char → NumResult
  | [] => NumResult.value n
  | c :: cs =>
    if c.isDigit then
      if n ≥ maxUint64 / 10 + 1 then NumResult.rangeError
      else if n * 10 + (c.toNat - 48) > maxUint64 then NumResult.rangeError
      else strconv.ParseUint.loop (n * 10 + (c.toNat - 48)) cs
    else NumResult.syntaxError

/-- Function `strconv.ParseUint(s, 10, 64)`. -/
def strconv.ParseUint (s : List Char) : NumResult :=
  match s with
  | [] => NumResult.syntaxError
  | _ => strconv.ParseUint.loop 0 s

/-- The value `strconv.ParseInt(s, 10, 0)` returns next to its error: `0` on a
syntax error, the nearest bound of `int` on a range error. -/
def strconv.ParseInt (s : List Char) : Int :=
  match s with
  | [] => 0
  | c :: cs =>
    let neg := decide (c = '-')
    let digits := if c = '+' ∨ c = '-' then cs else c :: cs
    match strconv.ParseUint digits with
    | NumResult.syntaxError => 0
    | NumResult.rangeError => if neg then minInt64 else maxInt64
    | NumResult.value un =>
      if ¬ neg ∧ un ≥ 9223372036854775808 then maxInt64
      else if neg ∧ un > 9223372036854775808 then minInt64
      else if neg then -(un : Int) else (un : Int)

/-- The value `strconv.Atoi(s)` returns next to its error, which `ListPVZ`
discards: on every string it is the value of `ParseInt(s, 10, 0)` (the fast
path of `Atoi` for short strings computes the same value). -/
def strconv.Atoi (s : String) : Int :=
  strconv.ParseInt s.toList

/-- Function `checkCity`: membership in the map of allowed cities. -/
def checkCity (city : String) : Option Error :=
  if city = "Москва" ∨ city = "Санкт-Петербург" ∨ city = "Казань" then none
  else some Error.ErrInvalidCity

/-- `PVZRepository.CreatePVZ`: `INSERT INTO pvz`. -/
def PVZRepository.CreatePVZ (env : PvzEnv) (pvz : PVZ) (db : PvzDB) : Option Error × PvzDB :=
  let db := db.log (PvzCall.CreatePVZ pvz)
  match env.createPvzErr with
  | some msg => (some (Error.other msg), db)
  | none => (none, { db with pvzs := db.pvzs ++ [pvz] })

/-- `PVZRepository.ListPVZ`: the rows within the date bounds, after `OFFSET
uint64(offset)` and `LIMIT uint64(limit)`.  The query has no `ORDER BY`; the
rows are taken in table order. -/
def PVZRepository.ListPVZ (env : PvzEnv) (limit offset : Int) (startDate endDate : Option Int)
    (db : PvzDB) : (Option (List PVZ) × Option Error) × PvzDB :=
  let db := db.log (PvzCall.ListPVZ limit offset startDate endDate)
  match env.listErr with
  | some msg => ((none, some (Error.other msg)), db)
  | none =>
    let rows := db.pvzs.filter (fun p =>
      (match startDate with
        | some t => decide (t ≤ p.RegistrationDate)
        | none => true) &&
      (match endDate with
        | some t => decide (p.RegistrationDate ≤ t)
        | none => true))
    ((some ((rows.drop (toUint64 offset)).take (toUint64 limit)), none), db)

/-- `PVZService.CreatePVZ`.  The pickup point is passed by pointer, so the
pickup point as the caller sees it afterwards is returned with the error. -/
def PVZService.CreatePVZ (env : PvzEnv) (pvz : PVZ) (db : PvzDB) :
    Option Error × PVZ × PvzDB :=
  match checkCity pvz.City with
  | some err => (some err, pvz, db)
  | none =>
    let pvz := if pvz.ID = "" then { pvz with ID := env.uuid } else pvz
    let pvz :=
      if pvz.RegistrationDate = 0 then { pvz with RegistrationDate := env.now } else pvz
    let (err, db) := PVZRepository.CreatePVZ env pvz db
    (err, pvz, db)

/-- The page `PVZService.ListPVZ` uses. -/
def ListPVZ.page (pageStr : String) : Int :=
  if strconv.Atoi pageStr < 1 then 1 else strconv.Atoi pageStr

/-- The limit `PVZService.ListPVZ` passes to the repository. -/
def ListPVZ.limit (limitStr : String) : Int :=
  if strconv.Atoi limitStr < 1 ∨ strconv.Atoi limitStr > 30 then 10 else strconv.Atoi limitStr

/-- The offset `PVZService.ListPVZ` passes to the repository: `(page - 1) *
limit` in 64-bit `int` arithmetic. -/
def ListPVZ.offset (limitStr pageStr : String) : Int :=
  wrapInt64 ((ListPVZ.page pageStr - 1) * ListPVZ.limit limitStr)

/-- `PVZService.ListPVZ`. -/
def PVZService.ListPVZ (env : PvzEnv) (limitStr pageStr startDateStr endDateStr : String)
    (db : PvzDB) : (Option (List PVZ) × Option Error) × PvzDB :=
  let page := strconv.Atoi pageStr
  let page := if page < 1 then 1 else page
  let limit := strconv.Atoi limitStr
  let limit := if limit < 1 ∨ limit > 30 then 10 else limit
  let offset := wrapInt64 ((page - 1) * limit)
  let startDate := if startDateStr ≠ "" then env.parseTime startDateStr else none
  let endDate := if endDateStr ≠ "" then env.parseTime endDateStr else none
  PVZRepository.ListPVZ env limit offset startDate endDate db

/-- The number denoted by a string of decimal digits read after the digits
that denote `n`: the mathematical value, without any bound.  It is the
reference against which `strconv.Atoi` is compared, not a translation of the
code. -/
def Spec.decimalValueFrom (n : Nat) : List Char → Nat
  | [] => n
  | c :: cs => Spec.decimalValueFrom (n * 10 + (c.toNat - 48)) cs

/-- The number denoted by a string of decimal digits. -/
def Spec.decimalValue (cs : List Char) : Nat :=
  Spec.decimalValueFrom 0 cs

/-- A database without pickup points. -/
def Example.pvzEmpty : PvzDB :=
  { pvzs := [], calls := [] }

/-! ## Users: `models.User`, `UserRepository`, `AuthService` -/

/-- Type `models.User`. -/
structure User where
  ID : String
  Email : String
  Role : String
  Password : String
  deriving DecidableEq, Repr

/-- Type `authDto.RegisterRequest`, with the fields the service reads. -/
structure RegisterRequest where
  Email : String
  Password : String
  Role : String
  deriving DecidableEq, Repr

/-- Type `authDto.LoginRequest`, with the fields the service reads. -/
structure LoginRequest where
  Email : String
  Password : String
  deriving DecidableEq, Repr

/-- One invocation of a method of `UserRepository`, or of `utils.GenerateJWT`,
with its arguments. -/
inductive UserCall where
  | CreateUser (user : User)
  | GetUserByEmail (email : String)
  | GenerateJWT (userID role : String)
  deriving DecidableEq, Repr

/-- The table `users` and the ghost log of calls. -/
structure UserDB where
  users : List User
  calls : List UserCall
  deriving DecidableEq, Repr

/-- What one call of `AuthService` reads from outside the program. -/
structure AuthEnv where
  /-- result of `uuid.New().String()` -/
  uuid : String
  /-- error of `QueryRow(..).Scan` in `GetUserByEmail` other than `sql.ErrNoRows` -/
  getUserErr : Option String
  /-- error of `db.Exec` for the `INSERT INTO users` -/
  createUserErr : Option String
  /-- which of the rows with the email the database returns first -/
  tieUser : Nat
  /-- result of `utils.GenerateJWT(userID, role)` -/
  generateJWT : String → String → String × Option Error

/-- An environment in which no statement fails and tokens are issued. -/
def AuthEnv.quiet (uuid : String) : AuthEnv :=
  { uuid := uuid, getUserErr := none, createUserErr := none, tieUser := 0,
    generateJWT := fun userID role => ("token:" ++ userID ++ ":" ++ role, none) }

/-- Appends a call to the ghost log. -/
def UserDB.log (db : UserDB) (c : UserCall) : UserDB :=
  { db with calls := db.calls ++ [c] }

/-- Function `utils.HashPassword`: the hexadecimal SHA-256 digest of the
password; the digest function of the standard library is the parameter
`sha256Hex`. -/
def utils.HashPassword (sha256Hex : String → String) (password : String) : String :=
  sha256Hex password

/-- `UserRepository.CreateUser`: `INSERT INTO users`. -/
def UserRepository.CreateUser (env : AuthEnv) (user : User) (db : UserDB) :
    Option Error × UserDB :=
  let db := db.log (UserCall.CreateUser user)
  match env.createUserErr with
  | some msg => (some (Error.other msg), db)
  | none => (none, { db with users := db.users ++ [user] })

/-- `UserRepository.GetUserByEmail`: the first row of `SELECT ... WHERE email =
$1`, `ErrUserNotFound` when the query has no row, the driver's error
otherwise. -/
def UserRepository.GetUserByEmail (env : AuthEnv) (email : String) (db : UserDB) :
    Except Error User × UserDB :=
  let db := db.log (UserCall.GetUserByEmail email)
  match env.getUserErr with
  | some msg => (Except.error (Error.other msg), db)
  | none =>
    let rows := db.users.filter (fun u => decide (u.Email = email))
    match rows[env.tieUser % rows.length]? with
    | none => (Except.error Error.ErrUserNotFound, db)
    | some user => (Except.ok user, db)

/-- `AuthService.RegisterUser`, returning Go's pair `(*models.User, error)`. -/
def AuthService.RegisterUser (sha256Hex : String → String) (env : AuthEnv)
    (req : RegisterRequest) (db : UserDB) : (Option User × Option Error) × UserDB :=
  let (res, db) := UserRepository.GetUserByEmail env req.Email db
  match res with
  | Except.ok _ => ((none, some Error.ErrEmailExists), db)
  | Except.error err =>
    if err ≠ Error.ErrUserNotFound then ((none, some err), db)
    else
      let user : User :=
        { ID := env.uuid, Email := req.Email, Role := req.Role,
          Password := utils.HashPassword sha256Hex req.Password }
      let (err, db) := UserRepository.CreateUser env user db
      -- return user, err
      ((some user, err), db)

/-- `AuthService.validateCredentials`. -/
def AuthService.validateCredentials (sha256Hex : String → String) (env : AuthEnv)
    (email password : String) (db : UserDB) : Except Error User × UserDB :=
  let (res, db) := UserRepository.GetUserByEmail env email db
  match res with
  | Except.error _ => (Except.error Error.ErrInvalidCredentials, db)
  | Except.ok user =>
    if user.Password ≠ utils.HashPassword sha256Hex password then
      (Except.error Error.ErrInvalidCredentials, db)
    else (Except.ok user, db)

/-- `AuthService.AuthenticateUser`, returning Go's pair `(string, error)`. -/
def AuthService.AuthenticateUser (sha256Hex : String → String) (env : AuthEnv)
    (req : LoginRequest) (db : UserDB) : (String × Option Error) × UserDB :=
  let (res, db) := AuthService.validateCredentials sha256Hex env req.Email req.Password db
  match res with
  | Except.error err => (("", some err), db)
  | Except.ok user =>
    (env.generateJWT user.ID user.Role, db.log (UserCall.GenerateJWT user.ID user.Role))

/-- The store after a sequence of `RegisterUser` calls, each with its
environment. -/
def registerRun (sha256Hex : String → String) :
    List (AuthEnv × RegisterRequest) → UserDB → UserDB
  | [], db => db
  | (env, req) :: rest, db =>
    registerRun sha256Hex rest (AuthService.RegisterUser sha256Hex env req db).2

/-- A stand-in for the digest function in the examples. -/
def Example.digest (password : String) : String :=
  "digest(" ++ password ++ ")"

/-- A store without users. -/
def Example.usersEmpty : UserDB :=
  { users := [], calls := [] }

/-- A store with one moderator. -/
def Example.usersOne : UserDB :=
  { users := [{ ID := "user-1", Email := "mod@test.com", Role := "moderator",
                Password := "digest(secret)" }],
    calls := [] }

/-- A registration request for an employee. -/
def Example.reqRegister : RegisterRequest :=
  { Email := "emp@test.com", Password := "password", Role := "employee" }

/-- An environment whose `INSERT INTO users` fails with a driver error. -/
def Example.envCreateUserFails : AuthEnv :=
  { AuthEnv.quiet "uuid-1" with createUserErr := some "driver: bad connection" }

/-- An environment whose user lookup fails with a driver error. -/
def Example.envGetUserFails : AuthEnv :=
  { AuthEnv.quiet "uuid-1" with getUserErr := some "driver: bad connection" }

/-! ## The role gate and the handlers behind it -/

/-- `middleware.GetUserFromContext`.  The context is the value stored under
`UserCtxKey`: `some user` when it is a `models.User`, `none` otherwise. -/
def middleware.GetUserFromContext (ctx : Option User) : Except Error User :=
  match ctx with
  | some user => Except.ok user
  | none => Except.error (Error.other "user not found in context")

/-- `middleware.RequireRole`. -/
def middleware.RequireRole (ctx : Option User) (required : String) : Option Error :=
  match middleware.GetUserFromContext ctx with
  | Except.error err => some err
  | Except.ok user =>
    if user.Role ≠ required then some (Error.other "access denied") else none

/-- What a handler writes: the status code and, for an error, the message of
the `response.ErrorResponse`. -/
structure Response where
  status : Nat
  message : Option String
  deriving DecidableEq, Repr

/-- Type `receptionDto.CreateReceptionRequest`, with the field the handler
reads. -/
structure CreateReceptionRequest where
  PVzID : String
  deriving DecidableEq, Repr

/-- The handler returned by `createReception.New`, applied to a request whose
context is `ctx` and whose body decodes to `req` (`none` when decoding fails). -/
def createReception.ServeHTTP (ctx : Option User) (env : Env)
    (req : Option CreateReceptionRequest) (db : DB) : Response × DB :=
  match middleware.RequireRole ctx "employee" with
  | some _ => ({ status := 403, message := some "Access denied" }, db)
  | none =>
    match req with
    | none => ({ status := 400, message := some "Invalid request" }, db)
    | some req =>
      if req.PVzID = "" then ({ status := 400, message := some "Invalid request" }, db)
      else
        let (err, _, db) := ReceptionService.CreateReception env (handlerReception req.PVzID) db
        match err with
        | some e =>
          if e = Error.ErrActiveReceptionExists then
            ({ status := 400, message := some "Active reception exists" }, db)
          else ({ status := 500, message := some "Internal server error" }, db)
        | none => ({ status := 201, message := none }, db)

/-- The handler returned by `closeReception.New`, applied to a request whose
context is `ctx` and whose URL parameter is `pvzId`. -/
def closeReception.ServeHTTP (ctx : Option User) (env : Env) (pvzId : String) (db : DB) :
    Response × DB :=
  match middleware.RequireRole ctx "employee" with
  | some _ => ({ status := 403, message := some "Access denied" }, db)
  | none =>
    let (res, db) := ReceptionService.CloseLastReception env pvzId db
    match res.2 with
    | some e =>
      if e = Error.ErrNoActiveReception then
        ({ status := 400, message := some "No active reception" }, db)
      else ({ status := 500, message := some "Internal server error" }, db)
    | none => ({ status := 200, message := none }, db)

/-- The handler returned by `createProduct.New`, applied to a request whose
context is `ctx` and whose body decodes to `req` (`none` when decoding fails). -/
def createProduct.ServeHTTP (ctx : Option User) (env : Env)
    (req : Option CreateProductRequest) (db : DB) : Response × DB :=
  match middleware.RequireRole ctx "employee" with
  | some _ => ({ status := 403, message := some "Access denied" }, db)
  | none =>
    match req with
    | none => ({ status := 400, message := some "Invalid request" }, db)
    | some req =>
      if req.PvzID = "" then ({ status := 400, message := some "Invalid request" }, db)
      else
        let (res, db) := ProductService.AddProduct env req db
        match res.2 with
        | some e =>
          if e = Error.ErrNoActiveReception then
            ({ status := 400, message := some "No active reception" }, db)
          else if e = Error.ErrInvalidProductType then
            ({ status := 400, message := some "Invalid product type" }, db)
          else ({ status := 500, message := some "Invalid product type" }, db)
        | none => ({ status := 201, message := none }, db)

/-- The message the delete-last-product handler writes for the error that
`ProductService.DeleteLastProduct` returned. -/
def deleteLastProduct.messageOf (err : Option Error) : Option String :=
  match err with
  | none => none
  | some e =>
    if e = Error.ErrNoActiveReception then some "No active reception"
    else if e = Error.ErrProductNotFound then some "No products in reception"
    else some "Internal server error"

/-- The handler returned by `deleteLastProduct.New`, applied to a request whose
context is `ctx` and whose URL parameter is `pvzId`. -/
def deleteLastProduct.ServeHTTP (ctx : Option User) (env : Env) (pvzId : String) (db : DB) :
    Response × DB :=
  match middleware.RequireRole ctx "employee" with
  | some _ => ({ status := 403, message := some "Access denied" }, db)
  | none =>
    let (err, db) := ProductService.DeleteLastProduct env pvzId db
    ({ status := deleteLastProduct.statusOf err, message := deleteLastProduct.messageOf err }, db)

/-- The handler returned by `createPvz.New`, applied to a request whose context
is `ctx` and whose body decodes to `req` (`none` when decoding fails). -/
def createPvz.ServeHTTP (ctx : Option User) (env : PvzEnv) (req : Option PVZ) (db : PvzDB) :
    Response × PvzDB :=
  match middleware.RequireRole ctx "moderator" with
  | some _ => ({ status := 403, message := some "Access denied" }, db)
  | none =>
    match req with
    | none => ({ status := 400, message := some "Invalid request" }, db)
    | some req =>
      let (err, _, db) := PVZService.CreatePVZ env req db
      match err with
      | some e =>
        if e = Error.ErrInvalidCity then
          ({ status := 400, message := some "City not allowed" }, db)
        else ({ status := 500, message := some "Internal server error" }, db)
      | none => ({ status := 201, message := none }, db)

/-- The context of a request authenticated as a moderator. -/
def Example.ctxModerator : Option User :=
  some { ID := "user-1", Email := "", Role := "moderator", Password := "" }

/-- The context of a request authenticated as an employee. -/
def Example.ctxEmployee : Option User :=
  some { ID := "user-2", Email := "", Role := "employee", Password := "" }

/-! ## Two `CreateReception` calls whose repository calls interleave -/

/-- The statements of `ReceptionService.CreateReception` that follow its
lookup, given what the lookup returned. -/
def ReceptionService.CreateReception.afterLookup (env : Env) (reception : Reception)
    (activeReception : Except Error Reception) (db : DB) : Option Error × Reception × DB :=
  match activeReception with
  | Except.ok _ => (some Error.ErrActiveReceptionExists, reception, db)
  | Except.error _ =>
    let reception := if reception.ID = "" then { reception with ID := env.uuid } else reception
    let reception :=
      if reception.DateTime = 0 then { reception with DateTime := env.now } else reception
    let (err, db) := ReceptionRepository.CreateReception env reception db
    (err, reception, db)

/-- Two requests run `ReceptionService.CreateReception` at the same time and
the database executes their statements in this order: the lookup of the first,
the lookup of the second, then the remaining statements of the first and of the
second.  The result is the pair of errors returned and the database. -/
def raceCreateReception (env1 env2 : Env) (reception1 reception2 : Reception) (db : DB) :
    (Option Error × Option Error) × DB :=
  let (active1, db) := ReceptionRepository.GetActiveReception env1 reception1.PvzID db
  let (active2, db) := ReceptionRepository.GetActiveReception env2 reception2.PvzID db
  let (err1, _, db) := ReceptionService.CreateReception.afterLookup env1 reception1 active1 db
  let (err2, _, db) := ReceptionService.CreateReception.afterLookup env2 reception2 active2 db
  ((err1, err2), db)

/-- Consecutive `CreateReception` calls on one pickup point, as the handler
makes them, one per environment. -/
def openCalls (envs : List Env) (pvzId : String) : List (Env × Op) :=
  envs.map (fun env => (env, Op.createReception (handlerReception pvzId)))

/-- The open reception of `Example.dbOpen` with two products stamped 6. -/
def Example.dbTie : DB :=
  { receptions := [{ ID := "rec-1", DateTime := 5, PvzID := "pvz-1", Status := "in_progress" }],
    products :=
      [{ ID := "prod-a", DateTime := 6, Type_ := "электроника", ReceptionID := "rec-1" },
       { ID := "prod-b", DateTime := 6, Type_ := "одежда", ReceptionID := "rec-1" }],
    calls := [] }

/-- An environment in which the database returns the second of the rows with
the greatest `dateTime`. -/
def Example.envSecond : Env :=
  { Env.quiet "uuid-1" 7 with tieProduct := 1 }

/-- An environment whose `INSERT INTO receptions` is rejected by the database. -/
def Example.envInsertRejected : Env :=
  { Env.quiet "uuid-2" 8 with createErr := some "pq: duplicate key value" }

/-! ## Lemmas on the repositories -/

@[simp] theorem DB.log_receptions (db : DB) (c : Call) :
    (db.log c).receptions = db.receptions := rfl

@[simp] theorem DB.log_products (db : DB) (c : Call) :
    (db.log c).products = db.products := rfl

@[simp] theorem DB.log_calls (db : DB) (c : Call) :
    (db.log c).calls = db.calls ++ [c] := rfl

@[simp] theorem activeRows_log (p : String) (db : DB) (c : Call) :
    activeRows p (db.log c) = activeRows p db := rfl

@[simp] theorem productRows_log (p : String) (db : DB) (c : Call) :
    productRows p (db.log c) = productRows p db := rfl

theorem orderByDescLimit1_mem {α : Type} (key : α → Int) (tie : Nat) (rows : List α) (r : α)
    (h : orderByDescLimit1 key tie rows = some r) : r ∈ rows := by
  unfold orderByDescLimit1 at h
  have hm := List.getElem?_mem h
  exact (List.mem_filter.mp hm).1

theorem orderByDescLimit1_max {α : Type} (key : α → Int) (tie : Nat) (rows : List α) (r : α)
    (h : orderByDescLimit1 key tie rows = some r) : ∀ q ∈ rows, key q ≤ key r := by
  unfold orderByDescLimit1 at h
  have hm := List.getElem?_mem h
  have h2 := (List.mem_filter.mp hm).2
  intro q hq
  simpa using (List.all_eq_true.mp h2) q hq

theorem exists_max_key {α : Type} (key : α → Int) :
    ∀ rows : List α, rows ≠ [] → ∃ r ∈ rows, ∀ q ∈ rows, key q ≤ key r := by
  intro rows
  induction rows with
  | nil => intro h; exact absurd rfl h
  | cons a t ih =>
    intro _
    by_cases ht : t = []
    · subst ht
      exact ⟨a, by simp, by simp⟩
    · obtain ⟨m, hm, hmax⟩ := ih ht
      by_cases hle : key m ≤ key a
      · refine ⟨a, by simp, ?_⟩
        intro q hq
        rcases List.mem_cons.mp hq with rfl | hq
        · exact le_refl _
        · exact le_trans (hmax q hq) hle
      · refine ⟨m, List.mem_cons_of_mem _ hm, ?_⟩
        intro q hq
        rcases List.mem_cons.mp hq with rfl | hq
        · omega
        · exact hmax q hq

theorem orderByDescLimit1_eq_none_iff {α : Type} (key : α → Int) (tie : Nat) (rows : List α) :
    orderByDescLimit1 key tie rows = none ↔ rows = [] := by
  constructor
  · intro h
    by_contra hne
    obtain ⟨m, hm, hmax⟩ := exists_max_key key rows hne
    unfold orderByDescLimit1 at h
    simp only at h
    have hmem : m ∈ rows.filter (fun r => rows.all (fun q => decide (key q ≤ key r))) := by
      rw [List.mem_filter]
      refine ⟨hm, ?_⟩
      rw [List.all_eq_true]
      intro q hq
      simpa using hmax q hq
    have hpos : 0 < (rows.filter (fun r => rows.all (fun q => decide (key q ≤ key r)))).length :=
      List.length_pos_of_mem hmem
    have hlt := Nat.mod_lt tie hpos
    rw [List.getElem?_eq_none_iff] at h
    omega
  · intro h
    subst h
    simp [orderByDescLimit1]

theorem orderByDescLimit1_singleton {α : Type} (key : α → Int) (tie : Nat) (r : α) :
    orderByDescLimit1 key tie [r] = some r := by
  cases h : orderByDescLimit1 key tie [r] with
  | none => simp [orderByDescLimit1_eq_none_iff] at h
  | some x =>
    have := orderByDescLimit1_mem key tie [r] x h
    simp at this
    rw [this]

theorem getActive_snd (env : Env) (p : String) (db : DB) :
    (ReceptionRepository.GetActiveReception env p db).2 = db.log (Call.GetActiveReception p) := by
  unfold ReceptionRepository.GetActiveReception
  simp only
  split
  · rfl
  · split <;> rfl

theorem getActive_ok (env : Env) (p : String) (db : DB) (r : Reception)
    (h : (ReceptionRepository.GetActiveReception env p db).1 = Except.ok r) :
    env.getActiveErr = none ∧ r ∈ activeRows p db := by
  unfold ReceptionRepository.GetActiveReception at h
  simp only at h
  split at h
  · simp at h
  · rename_i hf
    split at h
    · simp at h
    · rename_i x hx
      simp only [Except.ok.injEq] at h
      subst h
      exact ⟨hf, by simpa using orderByDescLimit1_mem _ _ _ _ hx⟩

theorem getActive_empty (env : Env) (p : String) (db : DB) (h : activeRows p db = []) :
    (ReceptionRepository.GetActiveReception env p db).1 =
      Except.error (match env.getActiveErr with
        | some msg => Error.other msg
        | none => Error.ErrNoActiveReception) := by
  unfold ReceptionRepository.GetActiveReception
  simp only [activeRows_log, h]
  cases env.getActiveErr with
  | some msg => rfl
  | none => simp [orderByDescLimit1]

theorem getActive_single (env : Env) (p : String) (db : DB) (R : Reception)
    (h : activeRows p db = [R]) (hf : env.getActiveErr = none) :
    (ReceptionRepository.GetActiveReception env p db).1 = Except.ok R := by
  unfold ReceptionRepository.GetActiveReception
  simp only [activeRows_log, h, hf, orderByDescLimit1_singleton]

theorem getActive_error_of_complete (env : Env) (p : String) (db : DB) (e : Error)
    (hf : env.getActiveErr = none)
    (h : (ReceptionRepository.GetActiveReception env p db).1 = Except.error e) :
    activeRows p db = [] := by
  unfold ReceptionRepository.GetActiveReception at h
  simp only [activeRows_log, hf] at h
  split at h
  · rename_i hn
    exact (orderByDescLimit1_eq_none_iff _ _ _).mp hn
  · simp at h

/-! ## Lemmas on `ReceptionService.CreateReception` -/

theorem createReception_of_ok (env : Env) (r : Reception) (db : DB) (a : Reception)
    (h : (ReceptionRepository.GetActiveReception env r.PvzID db).1 = Except.ok a) :
    ReceptionService.CreateReception env r db =
      (some Error.ErrActiveReceptionExists, r, db.log (Call.GetActiveReception r.PvzID)) := by
  have h2 := getActive_snd env r.PvzID db
  unfold ReceptionService.CreateReception
  rcases hq : ReceptionRepository.GetActiveReception env r.PvzID db with ⟨res, db1⟩
  rw [hq] at h h2
  simp only at h h2
  subst h h2
  rfl

theorem createReception_of_error (env : Env) (r : Reception) (db : DB) (e : Error)
    (h : (ReceptionRepository.GetActiveReception env r.PvzID db).1 = Except.error e) :
    ReceptionService.CreateReception env r db =
      ((ReceptionRepository.CreateReception env (handedReception env r)
          (db.log (Call.GetActiveReception r.PvzID))).1,
       handedReception env r,
       (ReceptionRepository.CreateReception env (handedReception env r)
          (db.log (Call.GetActiveReception r.PvzID))).2) := by
  have h2 := getActive_snd env r.PvzID db
  unfold ReceptionService.CreateReception handedReception
  rcases hq : ReceptionRepository.GetActiveReception env r.PvzID db with ⟨res, db1⟩
  rw [hq] at h h2
  simp only at h h2
  subst h h2
  simp only
  by_cases h1 : r.ID = "" <;> by_cases h2 : r.DateTime = 0 <;> simp [h1, h2]

theorem repoCreate_eq (env : Env) (r : Reception) (db : DB) :
    ReceptionRepository.CreateReception env r db =
      match env.createErr with
      | some msg => (some (Error.other msg), db.log (Call.CreateReception r))
      | none => (none, { db.log (Call.CreateReception r) with
                          receptions := db.receptions ++ [r] }) := by
  unfold ReceptionRepository.CreateReception
  cases env.createErr <;> rfl

/-- Every case of `CreateReception`: the tables are untouched, or one row, the
handed reception, is appended to `receptions` after a lookup that gave no
reception. -/
theorem createReception_cases (env : Env) (r : Reception) (db : DB) :
    (ReceptionService.CreateReception env r db).2.2.products = db.products ∧
    ((ReceptionService.CreateReception env r db).2.2.receptions = db.receptions ∨
      ((∃ e, (ReceptionRepository.GetActiveReception env r.PvzID db).1 = Except.error e) ∧
        (ReceptionService.CreateReception env r db).1 = none ∧
        (ReceptionService.CreateReception env r db).2.2.receptions =
          db.receptions ++ [handedReception env r])) := by
  cases hq : (ReceptionRepository.GetActiveReception env r.PvzID db).1 with
  | ok a =>
    rw [createReception_of_ok env r db a hq]
    simp
  | error e =>
    rw [createReception_of_error env r db e hq, repoCreate_eq]
    cases env.createErr with
    | some msg => simp
    | none => simp

/-! ## Lemmas on `ReceptionService.CloseLastReception` -/

theorem closeLast_of_error (env : Env) (p : String) (db : DB) (e : Error)
    (h : (ReceptionRepository.GetActiveReception env p db).1 = Except.error e) :
    ReceptionService.CloseLastReception env p db =
      ((none, some Error.ErrNoActiveReception), db.log (Call.GetActiveReception p)) := by
  have h2 := getActive_snd env p db
  unfold ReceptionService.CloseLastReception
  rcases hq : ReceptionRepository.GetActiveReception env p db with ⟨res, db1⟩
  rw [hq] at h h2
  simp only at h h2
  subst h h2
  rfl

theorem closeLast_of_ok (env : Env) (p : String) (db : DB) (R : Reception)
    (h : (ReceptionRepository.GetActiveReception env p db).1 = Except.ok R) :
    ReceptionService.CloseLastReception env p db =
      (match (ReceptionRepository.CloseReception env R.ID
                (db.log (Call.GetActiveReception p))).1 with
        | some e => (none, some e)
        | none => (some { R with Status := "close" }, none),
       (ReceptionRepository.CloseReception env R.ID (db.log (Call.GetActiveReception p))).2) := by
  have h2 := getActive_snd env p db
  unfold ReceptionService.CloseLastReception
  rcases hq : ReceptionRepository.GetActiveReception env p db with ⟨res, db1⟩
  rw [hq] at h h2
  simp only at h h2
  subst h h2
  simp only
  rcases ReceptionRepository.CloseReception env R.ID (db.log (Call.GetActiveReception p))
    with ⟨err, db2⟩
  cases err <;> rfl

theorem repoClose_products (env : Env) (id : String) (db : DB) :
    (ReceptionRepository.CloseReception env id db).2.products = db.products := by
  unfold ReceptionRepository.CloseReception
  simp only
  split
  · rfl
  · split
    · rfl
    · split <;> rfl

theorem repoClose_receptions (env : Env) (id : String) (db : DB) :
    (ReceptionRepository.CloseReception env id db).2.receptions = db.receptions ∨
    (ReceptionRepository.CloseReception env id db).2.receptions = closeRows id db.receptions := by
  unfold ReceptionRepository.CloseReception
  simp only
  split
  · exact Or.inl rfl
  · split
    · exact Or.inr rfl
    · split <;> exact Or.inr rfl

theorem repoClose_calls (env : Env) (id : String) (db : DB) :
    (ReceptionRepository.CloseReception env id db).2.calls =
      db.calls ++ [Call.CloseReception id] := by
  unfold ReceptionRepository.CloseReception
  simp only
  split
  · rfl
  · split
    · rfl
    · split <;> rfl

/-- When the repository's close reports no error, the update was executed and
touched at least one row. -/
theorem repoClose_success (env : Env) (id : String) (db : DB)
    (h : (ReceptionRepository.CloseReception env id db).1 = none) :
    (ReceptionRepository.CloseReception env id db).2.receptions = closeRows id db.receptions ∧
    env.closeErr = none ∧ env.closeRowsErr = none ∧
    (db.receptions.filter (fun r => decide (r.ID = id))).length ≠ 0 := by
  unfold ReceptionRepository.CloseReception at h ⊢
  simp only at h ⊢
  split at h
  · simp at h
  · rename_i h1
    split at h
    · simp at h
    · rename_i h2
      split at h
      · simp at h
      · rename_i h3
        simp only [DB.log_receptions] at h3
        refine ⟨?_, h1, h2, h3⟩
        simp only [h1, h2, DB.log_receptions, if_neg h3]

/-- The repository's close reports no error when both driver calls succeed and
a row has the identifier. -/
theorem repoClose_of_quiet (env : Env) (id : String) (db : DB) (R : Reception)
    (h1 : env.closeErr = none) (h2 : env.closeRowsErr = none)
    (hR : R ∈ db.receptions) (hid : R.ID = id) :
    (ReceptionRepository.CloseReception env id db).1 = none := by
  have hmem : R ∈ db.receptions.filter (fun r => decide (r.ID = id)) := by
    simp [List.mem_filter, hR, hid]
  have hpos := List.length_pos_of_mem hmem
  unfold ReceptionRepository.CloseReception
  simp only [h1, h2, DB.log_receptions]
  split
  · omega
  · rfl

/-- Every case of `CloseLastReception`: `products` is untouched, and
`receptions` is untouched or the rows with the identifier of an in-progress
reception of the pickup point are set to `close`. -/
theorem closeLast_cases (env : Env) (p : String) (db : DB) :
    (ReceptionService.CloseLastReception env p db).2.products = db.products ∧
    ((ReceptionService.CloseLastReception env p db).2.receptions = db.receptions ∨
      ∃ R ∈ activeRows p db,
        (ReceptionService.CloseLastReception env p db).2.receptions =
          closeRows R.ID db.receptions) := by
  cases hq : (ReceptionRepository.GetActiveReception env p db).1 with
  | error e =>
    rw [closeLast_of_error env p db e hq]
    simp
  | ok R =>
    rw [closeLast_of_ok env p db R hq]
    refine ⟨by simp [repoClose_products], ?_⟩
    rcases repoClose_receptions env R.ID (db.log (Call.GetActiveReception p)) with h | h
    · exact Or.inl (by simpa using h)
    · exact Or.inr ⟨R, (getActive_ok env p db R hq).2, by simpa using h⟩

/-! ## Lemmas on `ProductService` -/

theorem addProduct_of_error (env : Env) (req : CreateProductRequest) (db : DB) (e : Error)
    (h : (ReceptionRepository.GetActiveReception env req.PvzID db).1 = Except.error e) :
    ProductService.AddProduct env req db =
      ((none, some e), db.log (Call.GetActiveReception req.PvzID)) := by
  have h2 := getActive_snd env req.PvzID db
  unfold ProductService.AddProduct
  rcases hq : ReceptionRepository.GetActiveReception env req.PvzID db with ⟨res, db1⟩
  rw [hq] at h h2
  simp only at h h2
  subst h h2
  rfl

/-- Every case of `AddProduct`: `receptions` is untouched, and `products` is
untouched or gains one row owned by an in-progress reception of the pickup
point. -/
theorem addProduct_cases (env : Env) (req : CreateProductRequest) (db : DB) :
    (ProductService.AddProduct env req db).2.receptions = db.receptions ∧
    ((ProductService.AddProduct env req db).2.products = db.products ∨
      ∃ R ∈ activeRows req.PvzID db, ∃ product : Product,
        product.ReceptionID = R.ID ∧
        (ProductService.AddProduct env req db).2.products = db.products ++ [product]) := by
  have h2 := getActive_snd env req.PvzID db
  cases hq : (ReceptionRepository.GetActiveReception env req.PvzID db).1 with
  | error e =>
    rw [addProduct_of_error env req db e hq]
    simp
  | ok R =>
    have hR := (getActive_ok env req.PvzID db R hq).2
    unfold ProductService.AddProduct
    rcases hqq : ReceptionRepository.GetActiveReception env req.PvzID db with ⟨res, db1⟩
    rw [hqq] at hq h2
    simp only at hq h2
    subst hq h2
    simp only
    cases checkProductType req.Type_ with
    | some err => simp
    | none =>
      unfold ProductRepository.AddProduct
      simp only
      cases env.addErr with
      | some msg => simp
      | none =>
        simp only [DB.log_receptions, DB.log_products, true_and]
        refine Or.inr ⟨R, hR, _, ?_, rfl⟩
        by_cases h1 : env.uuid = "" <;> by_cases h3 : env.now = 0 <;> simp [h1, h3]

theorem deleteLast_of_error (env : Env) (p : String) (db : DB) (e : Error)
    (h : (ReceptionRepository.GetActiveReception env p db).1 = Except.error e) :
    ProductService.DeleteLastProduct env p db =
      (some e, db.log (Call.GetActiveReception p)) := by
  have h2 := getActive_snd env p db
  unfold ProductService.DeleteLastProduct
  rcases hq : ReceptionRepository.GetActiveReception env p db with ⟨res, db1⟩
  rw [hq] at h h2
  simp only at h h2
  subst h h2
  rfl

theorem getLast_snd (env : Env) (id : String) (db : DB) :
    (ProductRepository.GetLastProduct env id db).2 = db.log (Call.GetLastProduct id) := by
  unfold ProductRepository.GetLastProduct
  simp only
  split
  · rfl
  · split <;> rfl

theorem getLast_ok (env : Env) (id : String) (db : DB) (product : Product)
    (h : (ProductRepository.GetLastProduct env id db).1 = Except.ok product) :
    env.getLastErr = none ∧ product ∈ productRows id db := by
  unfold ProductRepository.GetLastProduct at h
  simp only at h
  split at h
  · simp at h
  · rename_i hf
    split at h
    · simp at h
    · rename_i x hx
      simp only [Except.ok.injEq] at h
      subst h
      exact ⟨hf, by simpa using orderByDescLimit1_mem _ _ _ _ hx⟩

theorem repoDelete_receptions (env : Env) (id : String) (db : DB) :
    (ProductRepository.DeleteProduct env id db).2.receptions = db.receptions := by
  unfold ProductRepository.DeleteProduct
  simp only
  split
  · rfl
  · split
    · rfl
    · split <;> rfl

theorem repoDelete_products (env : Env) (id : String) (db : DB) :
    (ProductRepository.DeleteProduct env id db).2.products = db.products ∨
    (ProductRepository.DeleteProduct env id db).2.products = deleteRows id db.products := by
  unfold ProductRepository.DeleteProduct
  simp only
  split
  · exact Or.inl rfl
  · split
    · exact Or.inr rfl
    · split <;> exact Or.inr rfl

/-- Every case of `DeleteLastProduct`: `receptions` is untouched, and `products`
is untouched or loses the rows with the identifier of a product of an
in-progress reception of the pickup point. -/
theorem deleteLast_cases (env : Env) (p : String) (db : DB) :
    (ProductService.DeleteLastProduct env p db).2.receptions = db.receptions ∧
    ((ProductService.DeleteLastProduct env p db).2.products = db.products ∨
      ∃ R ∈ activeRows p db, ∃ product ∈ productRows R.ID db,
        (ProductService.DeleteLastProduct env p db).2.products =
          deleteRows product.ID db.products) := by
  have h2 := getActive_snd env p db
  cases hq : (ReceptionRepository.GetActiveReception env p db).1 with
  | error e =>
    rw [deleteLast_of_error env p db e hq]
    simp
  | ok R =>
    have hR := (getActive_ok env p db R hq).2
    unfold ProductService.DeleteLastProduct
    rcases hqq : ReceptionRepository.GetActiveReception env p db with ⟨res, db1⟩
    rw [hqq] at hq h2
    simp only at hq h2
    subst hq h2
    simp only
    have h3 := getLast_snd env R.ID (db.log (Call.GetActiveReception p))
    cases hl : (ProductRepository.GetLastProduct env R.ID
        (db.log (Call.GetActiveReception p))).1 with
    | error e =>
      rcases hll : ProductRepository.GetLastProduct env R.ID
        (db.log (Call.GetActiveReception p)) with ⟨res2, db2⟩
      rw [hll] at hl h3
      simp only at hl h3
      subst hl h3
      simp
    | ok product =>
      have hp := (getLast_ok env R.ID _ product hl).2
      rcases hll : ProductRepository.GetLastProduct env R.ID
        (db.log (Call.GetActiveReception p)) with ⟨res2, db2⟩
      rw [hll] at hl h3
      simp only at hl h3
      subst hl h3
      simp only
      refine ⟨by simp [repoDelete_receptions], ?_⟩
      rcases repoDelete_products env product.ID
        ((db.log (Call.GetActiveReception p)).log (Call.GetLastProduct R.ID)) with h | h
      · exact Or.inl (by simpa using h)
      · exact Or.inr ⟨R, hR, product, by simpa using hp, by simpa using h⟩


/-! ## The one-open-reception invariant -/

theorem oneActive_congr (db db2 : DB) (h : db2.receptions = db.receptions)
    (hinv : OneActive db) : OneActive db2 := by
  intro p
  have := hinv p
  unfold activeRows at this ⊢
  rw [h]
  exact this

theorem filter_closeRows_length_le (id p : String) (rows : List Reception) :
    ((closeRows id rows).filter
        (fun r => decide (r.PvzID = p ∧ r.Status = "in_progress"))).length ≤
      (rows.filter (fun r => decide (r.PvzID = p ∧ r.Status = "in_progress"))).length := by
  induction rows with
  | nil => simp [closeRows]
  | cons a t ih =>
    unfold closeRows at ih ⊢
    simp only [List.map_cons, List.filter_cons]
    by_cases hid : a.ID = id
    · simp only [hid, if_true]
      have hne : ¬ ("close" = "in_progress") := by decide
      simp only [hne, and_false, decide_False, Bool.false_eq_true, if_false]
      split
      · simp only [List.length_cons]; omega
      · exact ih
    · simp only [hid, if_false]
      split
      · simp only [List.length_cons]; omega
      · exact ih

/-- One service call keeps the invariant, provided that, when the call is a
`CreateReception`, its reception lookup does not fail with a driver error. -/
theorem exec_oneActive (env : Env) (op : Op) (db : DB) (hinv : OneActive db)
    (hc : ∀ reception, op = Op.createReception reception → env.getActiveErr = none) :
    OneActive (op.exec env db) := by
  cases op with
  | createReception r =>
    have hf := hc r rfl
    simp only [Op.exec]
    rcases (createReception_cases env r db).2 with h | ⟨⟨e, he⟩, _, h⟩
    · exact oneActive_congr db _ h hinv
    · have hempty := getActive_error_of_complete env r.PvzID db e hf he
      intro p
      unfold activeRows at hempty ⊢
      rw [h, List.filter_append]
      by_cases hp : r.PvzID = p
      · subst hp
        rw [hempty]
        simp only [List.nil_append]
        exact le_trans (List.length_filter_le _ _) (by simp)
      · have := hinv p
        unfold activeRows at this
        simpa [handedReception, hp] using this
  | closeLastReception p =>
    simp only [Op.exec]
    rcases (closeLast_cases env p db).2 with h | ⟨R, _, h⟩
    · exact oneActive_congr db _ h hinv
    · intro q
      unfold activeRows
      rw [h]
      exact le_trans (filter_closeRows_length_le R.ID q db.receptions) (hinv q)
  | addProduct req =>
    exact oneActive_congr db _ (addProduct_cases env req db).1 hinv
  | deleteLastProduct p =>
    exact oneActive_congr db _ (deleteLast_cases env p db).1 hinv

/-- The invariant holds after every run in which no `CreateReception` has its
reception lookup fail with a driver error. -/
theorem run_oneActive (ops : List (Env × Op)) :
    ∀ db : DB, OneActive db → LookupsComplete ops → OneActive (run ops db) := by
  induction ops with
  | nil => intro db h _; exact h
  | cons eo rest ih =>
    intro db h hl
    obtain ⟨env, op⟩ := eo
    simp only [run]
    apply ih
    · exact exec_oneActive env op db h (fun r hr => hl (env, op) (by simp) r hr)
    · intro eo2 h2 r hr
      exact hl eo2 (List.mem_cons_of_mem _ h2) r hr

/-! ## Claims on `ReceptionService.CreateReception` -/

/-- C1 (defect): a `CreateReception` whose reception lookup fails with a driver
error discards that error and inserts, so on a store that already holds an
in-progress reception of the pickup point the call succeeds and leaves two
in-progress receptions: the invariant holds before the call and not after it. -/
theorem createReception_lookup_error_breaks_oneActive :
    OneActive Example.dbOpen ∧
    (ReceptionService.CreateReception Example.envLookupFails (handlerReception "pvz-1")
      Example.dbOpen).1 = none ∧
    ¬ OneActive (run [(Example.envLookupFails, Op.createReception (handlerReception "pvz-1"))]
      Example.dbOpen) := by
  refine ⟨?_, by decide, ?_⟩
  · intro p
    exact le_trans (List.length_filter_le _ _) (by decide)
  · intro h
    have := h "pvz-1"
    revert this
    decide

/-- C2: when the reception lookup for `reception.PvzID` returns a reception,
`CreateReception` returns `ErrActiveReceptionExists` and the reception as it was
passed; the only repository call made is the lookup (no `CreateReception` call),
and both tables are unchanged. -/
theorem createReception_active_exists (env : Env) (reception : Reception) (db : DB)
    (active : Reception)
    (h : (ReceptionRepository.GetActiveReception env reception.PvzID db).1 = Except.ok active) :
    (ReceptionService.CreateReception env reception db).1 = some Error.ErrActiveReceptionExists ∧
    (ReceptionService.CreateReception env reception db).2.1 = reception ∧
    (ReceptionService.CreateReception env reception db).2.2.calls =
      db.calls ++ [Call.GetActiveReception reception.PvzID] ∧
    (ReceptionService.CreateReception env reception db).2.2.receptions = db.receptions ∧
    (ReceptionService.CreateReception env reception db).2.2.products = db.products := by
  rw [createReception_of_ok env reception db active h]
  simp

/-- Witness of C2: a second open on the pickup point of `Example.dbOpen`. -/
theorem createReception_active_exists_witness :
    (ReceptionService.CreateReception (Env.quiet "uuid-2" 9) (handlerReception "pvz-1")
        Example.dbOpen).1 = some Error.ErrActiveReceptionExists ∧
    (ReceptionService.CreateReception (Env.quiet "uuid-2" 9) (handlerReception "pvz-1")
        Example.dbOpen).2.1 = handlerReception "pvz-1" ∧
    (ReceptionService.CreateReception (Env.quiet "uuid-2" 9) (handlerReception "pvz-1")
        Example.dbOpen).2.2.calls =
      Example.dbOpen.calls ++ [Call.GetActiveReception (handlerReception "pvz-1").PvzID] ∧
    (ReceptionService.CreateReception (Env.quiet "uuid-2" 9) (handlerReception "pvz-1")
        Example.dbOpen).2.2.receptions = Example.dbOpen.receptions ∧
    (ReceptionService.CreateReception (Env.quiet "uuid-2" 9) (handlerReception "pvz-1")
        Example.dbOpen).2.2.products = Example.dbOpen.products :=
  createReception_active_exists (Env.quiet "uuid-2" 9) (handlerReception "pvz-1")
    Example.dbOpen
    { ID := "rec-1", DateTime := 5, PvzID := "pvz-1", Status := "in_progress" } rfl


/-- A successful `CreateReception` made the lookup and one insert, of the
handed reception, which is also what the caller's reception now holds. -/
theorem createReception_success (env : Env) (r : Reception) (db : DB)
    (hok : (ReceptionService.CreateReception env r db).1 = none) :
    (ReceptionService.CreateReception env r db).2.1 = handedReception env r ∧
    (ReceptionService.CreateReception env r db).2.2.receptions =
      db.receptions ++ [handedReception env r] ∧
    (ReceptionService.CreateReception env r db).2.2.products = db.products ∧
    env.createErr = none := by
  cases hq : (ReceptionRepository.GetActiveReception env r.PvzID db).1 with
  | ok a =>
    rw [createReception_of_ok env r db a hq] at hok
    simp at hok
  | error e =>
    rw [createReception_of_error env r db e hq, repoCreate_eq] at hok ⊢
    cases hc : env.createErr with
    | some msg => rw [hc] at hok; simp at hok
    | none => simp

/-- Without usable lookup result, `CreateReception` succeeds when the insert is
executed. -/
theorem createReception_of_insert (env : Env) (r : Reception) (db : DB) (e : Error)
    (hq : (ReceptionRepository.GetActiveReception env r.PvzID db).1 = Except.error e)
    (hc : env.createErr = none) :
    (ReceptionService.CreateReception env r db).1 = none := by
  rw [createReception_of_error env r db e hq, repoCreate_eq, hc]

/-- C3 (counterexample): on an empty store, `CreateReception` of a reception
passed with `Status = "close"` succeeds and the reception persisted has status
`close`, not `in_progress`. -/
theorem createReception_status_counterexample :
    activeRows "pvz-1" Example.dbEmpty = [] ∧
    (ReceptionService.CreateReception (Env.quiet "uuid-1" 7)
      { ID := "", DateTime := 0, PvzID := "pvz-1", Status := "close" } Example.dbEmpty).1 = none ∧
    (ReceptionService.CreateReception (Env.quiet "uuid-1" 7)
      { ID := "", DateTime := 0, PvzID := "pvz-1", Status := "close" }
      Example.dbEmpty).2.2.receptions =
        [{ ID := "uuid-1", DateTime := 7, PvzID := "pvz-1", Status := "close" }] := by
  decide

/-- C3 (amended): when `CreateReception` succeeds, exactly one reception has
been persisted, its status is the `Status` field of the reception passed in (the
service never assigns `Status`), and no stored reception changed. -/
theorem createReception_persists_given_status (env : Env) (reception : Reception) (db : DB)
    (hok : (ReceptionService.CreateReception env reception db).1 = none) :
    ∃ persisted : Reception,
      (ReceptionService.CreateReception env reception db).2.2.receptions =
        db.receptions ++ [persisted] ∧
      persisted.Status = reception.Status ∧
      (ReceptionService.CreateReception env reception db).2.1 = persisted := by
  obtain ⟨h1, h2, _, _⟩ := createReception_success env reception db hok
  exact ⟨handedReception env reception, h2, rfl, h1⟩

/-- Witness of C3 (amended): the reception built by the handler is persisted
with status `in_progress`. -/
theorem createReception_persists_given_status_witness :
    ∃ persisted : Reception,
      (ReceptionService.CreateReception (Env.quiet "uuid-1" 7) (handlerReception "pvz-1")
        Example.dbEmpty).2.2.receptions = Example.dbEmpty.receptions ++ [persisted] ∧
      persisted.Status = (handlerReception "pvz-1").Status ∧
      (ReceptionService.CreateReception (Env.quiet "uuid-1" 7) (handlerReception "pvz-1")
        Example.dbEmpty).2.1 = persisted :=
  createReception_persists_given_status (Env.quiet "uuid-1" 7) (handlerReception "pvz-1")
    Example.dbEmpty (by decide)

/-- C4: on a pickup point with no in-progress reception, `CreateReception`
calls the repository's `CreateReception` once, with a reception whose ID is
non-empty and whose DateTime is non-zero (the generated UUID being non-empty
and the clock reading non-zero): a non-empty incoming ID and a non-zero incoming
DateTime are kept, an empty ID becomes the generated UUID, a zero DateTime the
current time, and PvzID is the incoming one; the caller's reception holds the
same values afterwards. -/
theorem createReception_defaults (env : Env) (reception : Reception) (db : DB)
    (hnone : activeRows reception.PvzID db = [])
    (huuid : env.uuid ≠ "") (hnow : env.now ≠ 0) :
    ∃ handed : Reception,
      (ReceptionService.CreateReception env reception db).2.2.calls =
        db.calls ++ [Call.GetActiveReception reception.PvzID, Call.CreateReception handed] ∧
      (ReceptionService.CreateReception env reception db).2.1 = handed ∧
      handed.ID ≠ "" ∧ handed.DateTime ≠ 0 ∧
      (reception.ID ≠ "" → handed.ID = reception.ID) ∧
      (reception.DateTime ≠ 0 → handed.DateTime = reception.DateTime) ∧
      (reception.ID = "" → handed.ID = env.uuid) ∧
      (reception.DateTime = 0 → handed.DateTime = env.now) ∧
      handed.PvzID = reception.PvzID := by
  have hq := getActive_empty env reception.PvzID db hnone
  rw [createReception_of_error env reception db _ hq, repoCreate_eq]
  refine ⟨handedReception env reception, ?_, rfl, ?_, ?_, ?_, ?_, ?_, ?_, rfl⟩
  · cases env.createErr <;> simp
  · unfold handedReception
    by_cases h : reception.ID = "" <;> simp [h, huuid]
  · unfold handedReception
    by_cases h : reception.DateTime = 0 <;> simp [h, hnow]
  · intro h; simp [handedReception, h]
  · intro h; simp [handedReception, h]
  · intro h; simp [handedReception, h]
  · intro h; simp [handedReception, h]

/-- Witness of C4: the handler's reception on an empty store. -/
theorem createReception_defaults_witness :
    ∃ handed : Reception,
      (ReceptionService.CreateReception (Env.quiet "uuid-1" 7) (handlerReception "pvz-1")
        Example.dbEmpty).2.2.calls =
        Example.dbEmpty.calls ++
          [Call.GetActiveReception (handlerReception "pvz-1").PvzID,
           Call.CreateReception handed] ∧
      (ReceptionService.CreateReception (Env.quiet "uuid-1" 7) (handlerReception "pvz-1")
        Example.dbEmpty).2.1 = handed ∧
      handed.ID ≠ "" ∧ handed.DateTime ≠ 0 ∧
      ((handlerReception "pvz-1").ID ≠ "" → handed.ID = (handlerReception "pvz-1").ID) ∧
      ((handlerReception "pvz-1").DateTime ≠ 0 →
        handed.DateTime = (handlerReception "pvz-1").DateTime) ∧
      ((handlerReception "pvz-1").ID = "" → handed.ID = (Env.quiet "uuid-1" 7).uuid) ∧
      ((handlerReception "pvz-1").DateTime = 0 → handed.DateTime = (Env.quiet "uuid-1" 7).now) ∧
      handed.PvzID = (handlerReception "pvz-1").PvzID :=
  createReception_defaults (Env.quiet "uuid-1" 7) (handlerReception "pvz-1") Example.dbEmpty
    (by decide) (by decide) (by decide)

/-! ## Claims on `ReceptionService.CloseLastReception` -/

/-- C5: for a pickup point without in-progress reception in the store,
`CloseLastReception` returns `(nil, ErrNoActiveReception)`, whatever the driver
does; the only repository call made is the lookup (no `CloseReception` call),
and both tables are unchanged. -/
theorem closeLastReception_no_active (env : Env) (pvzID : String) (db : DB)
    (hnone : activeRows pvzID db = []) :
    (ReceptionService.CloseLastReception env pvzID db).1 =
      (none, some Error.ErrNoActiveReception) ∧
    (ReceptionService.CloseLastReception env pvzID db).2.calls =
      db.calls ++ [Call.GetActiveReception pvzID] ∧
    (ReceptionService.CloseLastReception env pvzID db).2.receptions = db.receptions ∧
    (ReceptionService.CloseLastReception env pvzID db).2.products = db.products := by
  rw [closeLast_of_error env pvzID db _ (getActive_empty env pvzID db hnone)]
  simp

/-- Witness of C5: closing on an empty store. -/
theorem closeLastReception_no_active_witness :
    (ReceptionService.CloseLastReception (Env.quiet "uuid-1" 7) "pvz-1" Example.dbEmpty).1 =
      (none, some Error.ErrNoActiveReception) ∧
    (ReceptionService.CloseLastReception (Env.quiet "uuid-1" 7) "pvz-1" Example.dbEmpty).2.calls =
      Example.dbEmpty.calls ++ [Call.GetActiveReception "pvz-1"] ∧
    (ReceptionService.CloseLastReception (Env.quiet "uuid-1" 7) "pvz-1"
      Example.dbEmpty).2.receptions = Example.dbEmpty.receptions ∧
    (ReceptionService.CloseLastReception (Env.quiet "uuid-1" 7) "pvz-1"
      Example.dbEmpty).2.products = Example.dbEmpty.products :=
  closeLastReception_no_active (Env.quiet "uuid-1" 7) "pvz-1" Example.dbEmpty (by decide)


theorem closeRows_status (id : String) (rows : List Reception) (x : Reception)
    (hx : x ∈ closeRows id rows) (hid : x.ID = id) : x.Status = "close" := by
  unfold closeRows at hx
  obtain ⟨r, _, hr⟩ := List.mem_map.mp hx
  by_cases h : r.ID = id
  · rw [if_pos h] at hr
    rw [← hr]
  · rw [if_neg h] at hr
    rw [hr] at h
    exact absurd hid h

theorem closeRows_mem (id : String) (rows : List Reception) (r : Reception) (hr : r ∈ rows) :
    (if r.ID = id then { r with Status := "close" } else r) ∈ closeRows id rows := by
  unfold closeRows
  exact List.mem_map.mpr ⟨r, hr, rfl⟩

theorem closeRows_cases (id : String) (rows : List Reception) (x : Reception)
    (hx : x ∈ closeRows id rows) :
    (x ∈ rows ∧ x.ID ≠ id) ∨ (x.Status = "close" ∧ x.ID = id) := by
  unfold closeRows at hx
  obtain ⟨r, hr, hrx⟩ := List.mem_map.mp hx
  by_cases h : r.ID = id
  · rw [if_pos h] at hrx
    right
    rw [← hrx]
    exact ⟨rfl, h⟩
  · rw [if_neg h] at hrx
    left
    rw [← hrx]
    exact ⟨hr, h⟩

/-- A successful `CloseLastReception` on a pickup point whose only in-progress
reception is `R`: the lookup gave `R`, and the update was executed on its
identifier. -/
theorem closeLast_success (env : Env) (p : String) (db : DB) (R : Reception)
    (hR : activeRows p db = [R])
    (hok : (ReceptionService.CloseLastReception env p db).1.2 = none) :
    (ReceptionService.CloseLastReception env p db).1.1 = some { R with Status := "close" } ∧
    (ReceptionService.CloseLastReception env p db).2.receptions = closeRows R.ID db.receptions ∧
    (ReceptionService.CloseLastReception env p db).2.products = db.products := by
  cases hf : env.getActiveErr with
  | some msg =>
    have hq : (ReceptionRepository.GetActiveReception env p db).1 =
        Except.error (Error.other msg) := by
      unfold ReceptionRepository.GetActiveReception
      simp only [hf]
    rw [closeLast_of_error env p db _ hq] at hok
    simp at hok
  | none =>
    have hq := getActive_single env p db R hR hf
    rw [closeLast_of_ok env p db R hq] at hok ⊢
    cases hc : (ReceptionRepository.CloseReception env R.ID
        (db.log (Call.GetActiveReception p))).1 with
    | some e => rw [hc] at hok; simp at hok
    | none =>
      have hs := repoClose_success env R.ID _ hc
      refine ⟨rfl, by simpa using hs.1, by simp [repoClose_products]⟩

/-- With a driver that executes the lookup and the update, `CloseLastReception`
on a pickup point whose only in-progress reception is `R` reports no error. -/
theorem closeLast_of_quiet (env : Env) (p : String) (db : DB) (R : Reception)
    (hR : activeRows p db = [R])
    (h0 : env.getActiveErr = none) (h1 : env.closeErr = none) (h2 : env.closeRowsErr = none) :
    (ReceptionService.CloseLastReception env p db).1.2 = none := by
  have hq := getActive_single env p db R hR h0
  have hmem : R ∈ activeRows p db := by rw [hR]; simp
  have hRdb : R ∈ db.receptions := (List.mem_filter.mp hmem).1
  rw [closeLast_of_ok env p db R hq,
    repoClose_of_quiet env R.ID (db.log (Call.GetActiveReception p)) R h1 h2 (by simpa using hRdb)
      rfl]

/-- C6: for a pickup point whose in-progress reception is `R`, when
`CloseLastReception` succeeds (the store's close reported no error) the
reception returned has the ID, PvzID and DateTime of `R` and Status `"close"`;
it is a row of the store afterwards, and every stored row with the ID of `R`
has that same status `"close"`. -/
theorem closeLastReception_returns_closed (env : Env) (pvzID : String) (db : DB) (R : Reception)
    (hR : activeRows pvzID db = [R])
    (hok : (ReceptionService.CloseLastReception env pvzID db).1.2 = none) :
    ∃ returned : Reception,
      (ReceptionService.CloseLastReception env pvzID db).1.1 = some returned ∧
      returned.ID = R.ID ∧ returned.PvzID = R.PvzID ∧ returned.DateTime = R.DateTime ∧
      returned.Status = "close" ∧
      returned ∈ (ReceptionService.CloseLastReception env pvzID db).2.receptions ∧
      ∀ x ∈ (ReceptionService.CloseLastReception env pvzID db).2.receptions,
        x.ID = R.ID → x.Status = returned.Status := by
  obtain ⟨h1, h2, _⟩ := closeLast_success env pvzID db R hR hok
  have hmem : R ∈ activeRows pvzID db := by rw [hR]; simp
  have hRdb : R ∈ db.receptions := (List.mem_filter.mp hmem).1
  refine ⟨{ R with Status := "close" }, h1, rfl, rfl, rfl, rfl, ?_, ?_⟩
  · rw [h2]
    have := closeRows_mem R.ID db.receptions R hRdb
    simpa using this
  · intro x hx hid
    rw [h2] at hx
    exact closeRows_status R.ID db.receptions x hx hid

/-- Witness of C6: closing the open reception of `Example.dbOpen`. -/
theorem closeLastReception_returns_closed_witness :
    ∃ returned : Reception,
      (ReceptionService.CloseLastReception (Env.quiet "uuid-2" 9) "pvz-1"
        Example.dbOpen).1.1 = some returned ∧
      returned.ID = "rec-1" ∧ returned.PvzID = "pvz-1" ∧ returned.DateTime = 5 ∧
      returned.Status = "close" ∧
      returned ∈ (ReceptionService.CloseLastReception (Env.quiet "uuid-2" 9) "pvz-1"
        Example.dbOpen).2.receptions ∧
      ∀ x ∈ (ReceptionService.CloseLastReception (Env.quiet "uuid-2" 9) "pvz-1"
        Example.dbOpen).2.receptions, x.ID = "rec-1" → x.Status = returned.Status :=
  closeLastReception_returns_closed (Env.quiet "uuid-2" 9) "pvz-1" Example.dbOpen
    { ID := "rec-1", DateTime := 5, PvzID := "pvz-1", Status := "in_progress" }
    (by decide) (by decide)


/-! ## Status values -/

/-- One service call keeps every stored status within `in_progress` and
`close`, provided that a `CreateReception` is called with `Status =
"in_progress"`. -/
theorem exec_statusOK (env : Env) (op : Op) (db : DB)
    (h0 : ∀ r ∈ db.receptions, StatusOK r.Status)
    (hc : ∀ reception, op = Op.createReception reception → reception.Status = "in_progress") :
    ∀ r ∈ (op.exec env db).receptions, StatusOK r.Status := by
  cases op with
  | createReception r =>
    simp only [Op.exec]
    rcases (createReception_cases env r db).2 with h | ⟨_, _, h⟩
    · rw [h]; exact h0
    · rw [h]
      intro x hx
      rcases List.mem_append.mp hx with hx | hx
      · exact h0 x hx
      · simp only [List.mem_singleton] at hx
        subst hx
        exact Or.inl (hc r rfl)
  | closeLastReception p =>
    simp only [Op.exec]
    rcases (closeLast_cases env p db).2 with h | ⟨R, _, h⟩
    · rw [h]; exact h0
    · rw [h]
      intro x hx
      rcases closeRows_cases R.ID db.receptions x hx with ⟨hx, _⟩ | ⟨hs, _⟩
      · exact h0 x hx
      · exact Or.inr hs
  | addProduct req =>
    simp only [Op.exec]
    rw [(addProduct_cases env req db).1]; exact h0
  | deleteLastProduct p =>
    simp only [Op.exec]
    rw [(deleteLast_cases env p db).1]; exact h0

theorem run_statusOK (ops : List (Env × Op)) :
    ∀ db : DB, (∀ r ∈ db.receptions, StatusOK r.Status) → HandlerCalls ops →
      ∀ r ∈ (run ops db).receptions, StatusOK r.Status := by
  induction ops with
  | nil => intro db h _; exact h
  | cons eo rest ih =>
    intro db h hl
    obtain ⟨env, op⟩ := eo
    simp only [run]
    apply ih
    · exact exec_statusOK env op db h (fun r hr => hl (env, op) (by simp) r hr)
    · intro eo2 h2 r hr
      exact hl eo2 (List.mem_cons_of_mem _ h2) r hr

/-- Whatever `CloseLastReception` returns as a reception has status `close`. -/
theorem closeLast_returned_status (env : Env) (p : String) (db : DB) (returned : Reception)
    (h : (ReceptionService.CloseLastReception env p db).1.1 = some returned) :
    returned.Status = "close" := by
  cases hq : (ReceptionRepository.GetActiveReception env p db).1 with
  | error e =>
    rw [closeLast_of_error env p db e hq] at h
    simp at h
  | ok R =>
    rw [closeLast_of_ok env p db R hq] at h
    cases hc : (ReceptionRepository.CloseReception env R.ID
        (db.log (Call.GetActiveReception p))).1 with
    | some e => rw [hc] at h; simp at h
    | none =>
      rw [hc] at h
      simp only [Option.some.injEq] at h
      rw [← h]

/-- C7 (counterexample): a successful `CloseLastReception` returns and stores
the status `"close"`, which is neither `"in_progress"` nor `"closed"`. -/
theorem closeLastReception_status_counterexample :
    (ReceptionService.CloseLastReception (Env.quiet "uuid-2" 9) "pvz-1" Example.dbOpen).1 =
      (some { ID := "rec-1", DateTime := 5, PvzID := "pvz-1", Status := "close" }, none) ∧
    (ReceptionService.CloseLastReception (Env.quiet "uuid-2" 9) "pvz-1"
      Example.dbOpen).2.receptions =
      [{ ID := "rec-1", DateTime := 5, PvzID := "pvz-1", Status := "close" }] ∧
    "close" ≠ "in_progress" ∧ "close" ≠ "closed" := by
  decide

/-- C7 (amended): from a store whose statuses are `"in_progress"` or `"close"`,
after any run in which `CreateReception` is called with `Status =
"in_progress"` (as the handler calls it) every stored status is `"in_progress"`
or `"close"`; a reception returned by `CloseLastReception` has status `"close"`,
and the reception the create handler gets back has status `"in_progress"`. -/
theorem run_status_values (ops : List (Env × Op)) (db : DB)
    (h0 : ∀ r ∈ db.receptions, StatusOK r.Status) (hh : HandlerCalls ops) :
    (∀ r ∈ (run ops db).receptions, r.Status = "in_progress" ∨ r.Status = "close") ∧
    (∀ (env : Env) (pvzID : String) (returned : Reception),
      (ReceptionService.CloseLastReception env pvzID (run ops db)).1.1 = some returned →
        returned.Status = "close") ∧
    (∀ (env : Env) (pvzId : String),
      (ReceptionService.CreateReception env (handlerReception pvzId) (run ops db)).2.1.Status =
        "in_progress") := by
  refine ⟨run_statusOK ops db h0 hh, ?_, ?_⟩
  · intro env p returned h
    exact closeLast_returned_status env p (run ops db) returned h
  · intro env p
    cases hq : (ReceptionRepository.GetActiveReception env (handlerReception p).PvzID
        (run ops db)).1 with
    | ok a => rw [createReception_of_ok env _ _ a hq]; rfl
    | error e => rw [createReception_of_error env _ _ e hq]; rfl

/-- Witness of C7 (amended): the statuses after `Example.opsOpenAddClose`. -/
theorem run_status_values_witness :
    (run Example.opsOpenAddClose Example.dbEmpty).receptions =
      [{ ID := "uuid-1", DateTime := 7, PvzID := "pvz-1", Status := "close" },
       { ID := "uuid-4", DateTime := 10, PvzID := "pvz-1", Status := "in_progress" }] ∧
    ∀ r ∈ (run Example.opsOpenAddClose Example.dbEmpty).receptions,
      r.Status = "in_progress" ∨ r.Status = "close" :=
  ⟨by decide,
   (run_status_values Example.opsOpenAddClose Example.dbEmpty
      (by intro r hr; simp [Example.dbEmpty] at hr)
      (by
        intro eo heo r hr
        simp only [Example.opsOpenAddClose, List.mem_cons, List.mem_singleton,
          List.not_mem_nil, or_false] at heo
        rcases heo with h | h | h | h <;> subst h <;> simp at hr <;> subst hr <;> rfl)).1⟩


/-! ## Close, close again, open again -/

/-- Once the rows with the identifier of the pickup point's only in-progress
reception are closed, the pickup point has no in-progress reception. -/
theorem activeRows_after_close (p : String) (db db1 : DB) (R : Reception)
    (hR : activeRows p db = [R]) (h : db1.receptions = closeRows R.ID db.receptions) :
    activeRows p db1 = [] := by
  unfold activeRows
  rw [h, List.filter_eq_nil_iff]
  intro x hx hpred
  simp only [decide_eq_true_eq] at hpred
  rcases closeRows_cases R.ID db.receptions x hx with ⟨hx0, hne⟩ | ⟨hs, _⟩
  · have hmem : x ∈ activeRows p db := by
      unfold activeRows
      exact List.mem_filter.mpr ⟨hx0, by simpa using hpred⟩
    rw [hR] at hmem
    simp only [List.mem_singleton] at hmem
    exact hne (by rw [hmem])
  · rw [hs] at hpred
    exact absurd hpred.2 (by decide)

/-- C8: let `R` be the in-progress reception of pickup point `P`.  After a
successful `CloseLastReception(P)`, a second `CloseLastReception(P)` returns
`(nil, ErrNoActiveReception)`; a following `CreateReception` for `P` with an
empty ID and `Status = "in_progress"` whose insert the store executes succeeds,
the created reception has the generated identifier (different from `R`'s when
the generated UUID is), status `in_progress`, and is then the pickup point's
only in-progress reception, while the stored row of `R` still has status
`close`. -/
theorem close_then_reopen (env1 env2 env3 : Env) (pvzID : String) (db : DB)
    (R reception : Reception)
    (hR : activeRows pvzID db = [R])
    (hclose : (ReceptionService.CloseLastReception env1 pvzID db).1.2 = none)
    (hid : reception.ID = "") (hpvz : reception.PvzID = pvzID)
    (hst : reception.Status = "in_progress")
    (hins : env3.createErr = none) (hfresh : env3.uuid ≠ R.ID) :
    (ReceptionService.CloseLastReception env2 pvzID
      (ReceptionService.CloseLastReception env1 pvzID db).2).1 =
        (none, some Error.ErrNoActiveReception) ∧
    ∃ (created : Reception) (dbEnd : DB),
      ReceptionService.CreateReception env3 reception
        (ReceptionService.CloseLastReception env2 pvzID
          (ReceptionService.CloseLastReception env1 pvzID db).2).2 = (none, created, dbEnd) ∧
      created.ID = env3.uuid ∧ created.ID ≠ R.ID ∧
      created.Status = "in_progress" ∧ created.PvzID = pvzID ∧
      activeRows pvzID dbEnd = [created] ∧
      (∃ x ∈ dbEnd.receptions, x.ID = R.ID) ∧
      ∀ x ∈ dbEnd.receptions, x.ID = R.ID → x.Status = "close" := by
  obtain ⟨_, h1, _⟩ := closeLast_success env1 pvzID db R hR hclose
  have hmemR : R ∈ activeRows pvzID db := by rw [hR]; simp
  have hRdb : R ∈ db.receptions := (List.mem_filter.mp hmemR).1
  have he1 := activeRows_after_close pvzID db _ R hR h1
  have hq2 := getActive_empty env2 pvzID _ he1
  rw [closeLast_of_error env2 pvzID _ _ hq2]
  refine ⟨rfl, ?_⟩
  subst hpvz
  have he2 : activeRows reception.PvzID
      ((ReceptionService.CloseLastReception env1 reception.PvzID db).2.log
        (Call.GetActiveReception reception.PvzID)) = [] := by
    simpa using he1
  have hq3 := getActive_empty env3 reception.PvzID _ he2
  rw [createReception_of_error env3 reception _ _ hq3, repoCreate_eq, hins]
  refine ⟨_, _, rfl, ?_, ?_, hst, rfl, ?_, ?_, ?_⟩
  · simp [handedReception, hid]
  · simp [handedReception, hid, hfresh]
  · unfold activeRows at he1 ⊢
    simp only [DB.log_receptions, List.filter_append, he1, List.nil_append]
    simp [handedReception, hst]
  · refine ⟨{ R with Status := "close" }, ?_, rfl⟩
    have hm := closeRows_mem R.ID db.receptions R hRdb
    rw [if_pos rfl] at hm
    simp only [DB.log_receptions, h1]
    exact List.mem_append_left _ hm
  · intro x hx hxid
    simp only [DB.log_receptions, h1] at hx
    rcases List.mem_append.mp hx with hx | hx
    · exact closeRows_status R.ID db.receptions x hx hxid
    · simp only [List.mem_singleton] at hx
      rw [hx] at hxid
      simp [handedReception, hid] at hxid
      exact absurd hxid hfresh

/-- Witness of C8: the open reception of `Example.dbOpen` is closed, a second
close fails, and the handler's reception is then created. -/
theorem close_then_reopen_witness :
    (ReceptionService.CloseLastReception (Env.quiet "uuid-3" 10) "pvz-1"
      (ReceptionService.CloseLastReception (Env.quiet "uuid-2" 9) "pvz-1" Example.dbOpen).2).1 =
        (none, some Error.ErrNoActiveReception) ∧
    ∃ (created : Reception) (dbEnd : DB),
      ReceptionService.CreateReception (Env.quiet "uuid-4" 11) (handlerReception "pvz-1")
        (ReceptionService.CloseLastReception (Env.quiet "uuid-3" 10) "pvz-1"
          (ReceptionService.CloseLastReception (Env.quiet "uuid-2" 9) "pvz-1"
            Example.dbOpen).2).2 = (none, created, dbEnd) ∧
      created.ID = "uuid-4" ∧ created.ID ≠ "rec-1" ∧
      created.Status = "in_progress" ∧ created.PvzID = "pvz-1" ∧
      activeRows "pvz-1" dbEnd = [created] ∧
      (∃ x ∈ dbEnd.receptions, x.ID = "rec-1") ∧
      ∀ x ∈ dbEnd.receptions, x.ID = "rec-1" → x.Status = "close" :=
  close_then_reopen (Env.quiet "uuid-2" 9) (Env.quiet "uuid-3" 10) (Env.quiet "uuid-4" 11)
    "pvz-1" Example.dbOpen
    { ID := "rec-1", DateTime := 5, PvzID := "pvz-1", Status := "in_progress" }
    (handlerReception "pvz-1")
    (by decide) (by decide) (by decide) (by decide) (by decide) (by decide) (by decide)


/-! ## Closed receptions are frozen -/

theorem keysAlong_keys (ops : List (Env × Op)) (db : DB) (h : KeysAlong ops db) : Keys db := by
  cases ops with
  | nil => exact h
  | cons eo rest => exact h.1

theorem keysAlong_run (ops : List (Env × Op)) :
    ∀ db : DB, KeysAlong ops db → Keys (run ops db) := by
  induction ops with
  | nil => intro db h; exact h
  | cons eo rest ih =>
    intro db h
    obtain ⟨env, op⟩ := eo
    exact ih _ h.2

/-- An in-progress reception of a store with keys does not carry the identifier
of a reception that is not in progress. -/
theorem active_id_ne (db : DB) (hk : Keys db) (p : String) (A R : Reception)
    (hA : A ∈ activeRows p db) (hR : R ∈ db.receptions) (hc : R.Status ≠ "in_progress") :
    A.ID ≠ R.ID := by
  intro hid
  have hA2 := List.mem_filter.mp hA
  have hst : A.PvzID = p ∧ A.Status = "in_progress" := by simpa using hA2.2
  have := List.inj_on_of_nodup_map hk.1 hA2.1 hR hid
  rw [this] at hst
  exact hc hst.2

/-- One service call on a store with keys leaves a reception that is not in
progress not in progress, and the rows of `products` it owns as they are. -/
theorem exec_closed_frozen (env : Env) (op : Op) (db : DB) (R : Reception)
    (hk : Keys db) (hR : R ∈ db.receptions) (hc : R.Status ≠ "in_progress") :
    (∃ R2 ∈ (op.exec env db).receptions, R2.ID = R.ID ∧ R2.Status ≠ "in_progress") ∧
    productRows R.ID (op.exec env db) = productRows R.ID db := by
  cases op with
  | createReception r =>
    simp only [Op.exec]
    obtain ⟨hp, hr⟩ := createReception_cases env r db
    refine ⟨?_, by unfold productRows; rw [hp]⟩
    rcases hr with h | ⟨_, _, h⟩
    · exact ⟨R, by rw [h]; exact hR, rfl, hc⟩
    · exact ⟨R, by rw [h]; exact List.mem_append_left _ hR, rfl, hc⟩
  | closeLastReception p =>
    simp only [Op.exec]
    obtain ⟨hp, hr⟩ := closeLast_cases env p db
    refine ⟨?_, by unfold productRows; rw [hp]⟩
    rcases hr with h | ⟨A, _, h⟩
    · exact ⟨R, by rw [h]; exact hR, rfl, hc⟩
    · refine ⟨_, by rw [h]; exact closeRows_mem A.ID db.receptions R hR, ?_, ?_⟩
      · by_cases hid : R.ID = A.ID <;> simp [hid]
      · by_cases hid : R.ID = A.ID
        · simp only [hid, if_true]; decide
        · simp only [hid, if_false]; exact hc
  | addProduct req =>
    simp only [Op.exec]
    obtain ⟨hr, hp⟩ := addProduct_cases env req db
    refine ⟨⟨R, by rw [hr]; exact hR, rfl, hc⟩, ?_⟩
    rcases hp with h | ⟨A, hA, product, hown, h⟩
    · unfold productRows; rw [h]
    · have hne := active_id_ne db hk req.PvzID A R hA hR hc
      unfold productRows
      rw [h, List.filter_append]
      simp [hown, hne]
  | deleteLastProduct p =>
    simp only [Op.exec]
    obtain ⟨hr, hp⟩ := deleteLast_cases env p db
    refine ⟨⟨R, by rw [hr]; exact hR, rfl, hc⟩, ?_⟩
    rcases hp with h | ⟨A, hA, product, hprod, h⟩
    · unfold productRows; rw [h]
    · have hne := active_id_ne db hk p A R hA hR hc
      have hprod2 := List.mem_filter.mp hprod
      have hown : product.ReceptionID = A.ID := by simpa using hprod2.2
      unfold productRows
      rw [h]
      unfold deleteRows
      rw [List.filter_filter]
      apply List.filter_congr
      intro q hq
      by_cases hqr : q.ReceptionID = R.ID
      · have hqid : q.ID ≠ product.ID := by
          intro hid
          have := List.inj_on_of_nodup_map hk.2 hq hprod2.1 hid
          rw [this, hown] at hqr
          exact hne hqr
        simp [hqr, hqid]
      · simp [hqr]

theorem run_closed_frozen (ops : List (Env × Op)) :
    ∀ (db : DB) (R : Reception), KeysAlong ops db → R ∈ db.receptions →
      R.Status ≠ "in_progress" →
      (∃ R2 ∈ (run ops db).receptions, R2.ID = R.ID ∧ R2.Status ≠ "in_progress") ∧
      productRows R.ID (run ops db) = productRows R.ID db := by
  induction ops with
  | nil => intro db R _ hR hc; exact ⟨⟨R, hR, rfl, hc⟩, rfl⟩
  | cons eo rest ih =>
    intro db R hk hR hc
    obtain ⟨env, op⟩ := eo
    obtain ⟨⟨R1, hR1, hid1, hc1⟩, hp1⟩ := exec_closed_frozen env op db R hk.1 hR hc
    obtain ⟨⟨R2, hR2, hid2, hc2⟩, hp2⟩ := ih (op.exec env db) R1 hk.2 hR1 hc1
    simp only [run]
    refine ⟨⟨R2, hR2, by rw [hid2, hid1], hc2⟩, ?_⟩
    rw [← hid1, hp2, hid1, hp1]

/-- C9: in a store whose identifiers are keys, take a reception `R` whose
status is not `in_progress`.  After any sequence of `CreateReception`,
`CloseLastReception`, `AddProduct` and `DeleteLastProduct` calls through which
identifiers stay keys, the store still holds a reception with the ID of `R`,
no reception with that ID has status `in_progress`, and the products owned by
`R` are the same rows as before (none added, none removed). -/
theorem closed_is_terminal (ops : List (Env × Op)) (db : DB) (R : Reception)
    (hkeys : KeysAlong ops db) (hR : R ∈ db.receptions) (hclosed : R.Status ≠ "in_progress") :
    (∃ x ∈ (run ops db).receptions, x.ID = R.ID) ∧
    (∀ x ∈ (run ops db).receptions, x.ID = R.ID → x.Status ≠ "in_progress") ∧
    productRows R.ID (run ops db) = productRows R.ID db := by
  obtain ⟨⟨R2, hR2, hid2, hc2⟩, hp⟩ := run_closed_frozen ops db R hkeys hR hclosed
  refine ⟨⟨R2, hR2, hid2⟩, ?_, hp⟩
  intro x hx hxid
  have hk := keysAlong_run ops db hkeys
  have := List.inj_on_of_nodup_map hk.1 hx hR2 (by rw [hxid, hid2])
  rw [this]
  exact hc2


/-- Witness of C9: the closed reception of `Example.dbClosed` and its product
across `Example.opsAfterClose`. -/
theorem closed_is_terminal_witness :
    (run Example.opsAfterClose Example.dbClosed).products =
      [{ ID := "prod-1", DateTime := 6, Type_ := "обувь", ReceptionID := "rec-1" },
       { ID := "uuid-5", DateTime := 11, Type_ := "одежда", ReceptionID := "uuid-4" }] ∧
    ((∃ x ∈ (run Example.opsAfterClose Example.dbClosed).receptions, x.ID = "rec-1") ∧
     (∀ x ∈ (run Example.opsAfterClose Example.dbClosed).receptions,
        x.ID = "rec-1" → x.Status ≠ "in_progress") ∧
     productRows "rec-1" (run Example.opsAfterClose Example.dbClosed) =
       productRows "rec-1" Example.dbClosed) :=
  ⟨by decide,
   closed_is_terminal Example.opsAfterClose Example.dbClosed
     { ID := "rec-1", DateTime := 5, PvzID := "pvz-1", Status := "close" }
     (by decide) (by decide) (by decide)⟩

/-! ## Claims on `ProductService.AddProduct` -/

/-- C10 (counterexample): pickup point `pvz-2` has no in-progress reception,
the reception lookup fails with a driver error, and `AddProduct` returns that
error, which is not `ErrNoActiveReception`. -/
theorem addProduct_lookup_error_counterexample :
    activeRows "pvz-2" Example.dbOpen = [] ∧
    (ProductService.AddProduct Example.envLookupFails { Type_ := "обувь", PvzID := "pvz-2" }
      Example.dbOpen).1 = (none, some (Error.other "driver: bad connection")) ∧
    Error.other "driver: bad connection" ≠ Error.ErrNoActiveReception := by
  decide

/-- C10 (amended): for a request whose pickup point has no in-progress
reception, `AddProduct` returns a nil product and the error of the reception
lookup, which is `ErrNoActiveReception` when the lookup query is executed and
the driver's error when it is not; the only repository call made is the lookup
(no `AddProduct` call), and both tables are unchanged. -/
theorem addProduct_no_active (env : Env) (req : CreateProductRequest) (db : DB)
    (hnone : activeRows req.PvzID db = []) :
    (ProductService.AddProduct env req db).1 =
      (none, some (match env.getActiveErr with
        | some msg => Error.other msg
        | none => Error.ErrNoActiveReception)) ∧
    (ProductService.AddProduct env req db).2.calls =
      db.calls ++ [Call.GetActiveReception req.PvzID] ∧
    (ProductService.AddProduct env req db).2.products = db.products ∧
    (ProductService.AddProduct env req db).2.receptions = db.receptions := by
  rw [addProduct_of_error env req db _ (getActive_empty env req.PvzID db hnone)]
  simp

/-- Witness of C10 (amended): with a driver that executes the lookup, adding
to a pickup point whose reception is closed gives `ErrNoActiveReception`. -/
theorem addProduct_no_active_witness :
    (ProductService.AddProduct (Env.quiet "uuid-9" 15) { Type_ := "обувь", PvzID := "pvz-1" }
      Example.dbClosed).1 = (none, some Error.ErrNoActiveReception) ∧
    (ProductService.AddProduct (Env.quiet "uuid-9" 15) { Type_ := "обувь", PvzID := "pvz-1" }
      Example.dbClosed).2.calls = Example.dbClosed.calls ++ [Call.GetActiveReception "pvz-1"] ∧
    (ProductService.AddProduct (Env.quiet "uuid-9" 15) { Type_ := "обувь", PvzID := "pvz-1" }
      Example.dbClosed).2.products = Example.dbClosed.products ∧
    (ProductService.AddProduct (Env.quiet "uuid-9" 15) { Type_ := "обувь", PvzID := "pvz-1" }
      Example.dbClosed).2.receptions = Example.dbClosed.receptions :=
  addProduct_no_active (Env.quiet "uuid-9" 15) { Type_ := "обувь", PvzID := "pvz-1" }
    Example.dbClosed (by decide)


/-! ## Further lemmas on `ProductService.AddProduct` -/

theorem repoAdd_eq (env : Env) (product : Product) (db : DB) :
    ProductRepository.AddProduct env product db =
      match env.addErr with
      | some msg => (some (Error.other msg), filledProduct env product,
          db.log (Call.AddProduct product))
      | none => (none, filledProduct env product,
          { db.log (Call.AddProduct product) with
            products := db.products ++ [filledProduct env product] }) := by
  unfold ProductRepository.AddProduct filledProduct
  by_cases h1 : product.ID = "" <;> by_cases h2 : product.DateTime = 0 <;>
    cases env.addErr <;> simp [h1, h2]

theorem addProduct_of_ok (env : Env) (req : CreateProductRequest) (db : DB) (R : Reception)
    (h : (ReceptionRepository.GetActiveReception env req.PvzID db).1 = Except.ok R) :
    ProductService.AddProduct env req db =
      match checkProductType req.Type_ with
      | some err => ((none, some err), db.log (Call.GetActiveReception req.PvzID))
      | none =>
        (match (ProductRepository.AddProduct env (builtProduct env req R)
                  (db.log (Call.GetActiveReception req.PvzID))).1 with
          | some e => (none, some e)
          | none => (some (ProductRepository.AddProduct env (builtProduct env req R)
                  (db.log (Call.GetActiveReception req.PvzID))).2.1, none),
         (ProductRepository.AddProduct env (builtProduct env req R)
            (db.log (Call.GetActiveReception req.PvzID))).2.2) := by
  have h2 := getActive_snd env req.PvzID db
  unfold ProductService.AddProduct builtProduct
  rcases hq : ReceptionRepository.GetActiveReception env req.PvzID db with ⟨res, db1⟩
  rw [hq] at h h2
  simp only at h h2
  subst h h2
  simp only
  cases checkProductType req.Type_ with
  | some err => rfl
  | none =>
    simp only
    rcases ProductRepository.AddProduct env
      { ID := env.uuid, DateTime := env.now, Type_ := req.Type_, ReceptionID := R.ID }
      (db.log (Call.GetActiveReception req.PvzID)) with ⟨err, product, db2⟩
    cases err <;> rfl

/-- C11 (counterexample): on a store without reception, `AddProduct` with a
type outside the allow-list returns `ErrNoActiveReception`, not
`ErrInvalidProductType`: the reception lookup comes before the type check. -/
theorem addProduct_bad_type_counterexample :
    checkProductType Example.reqBadType.Type_ = some Error.ErrInvalidProductType ∧
    activeRows Example.reqBadType.PvzID Example.dbEmpty = [] ∧
    (ProductService.AddProduct (Env.quiet "uuid-2" 9) Example.reqBadType Example.dbEmpty).1 =
      (none, some Error.ErrNoActiveReception) := by
  decide

/-- C11 (amended): for a request whose type is not allow-listed, `AddProduct`
never calls the product repository and leaves both tables unchanged; it returns
`(nil, ErrInvalidProductType)` when the reception lookup returns a reception,
and the lookup's error when it returns none. -/
theorem addProduct_bad_type (env : Env) (req : CreateProductRequest) (db : DB)
    (hbad : ¬ (req.Type_ = "электроника" ∨ req.Type_ = "одежда" ∨ req.Type_ = "обувь")) :
    (∀ R, (ReceptionRepository.GetActiveReception env req.PvzID db).1 = Except.ok R →
      (ProductService.AddProduct env req db).1 = (none, some Error.ErrInvalidProductType)) ∧
    (∀ e, (ReceptionRepository.GetActiveReception env req.PvzID db).1 = Except.error e →
      (ProductService.AddProduct env req db).1 = (none, some e)) ∧
    (ProductService.AddProduct env req db).2.calls =
      db.calls ++ [Call.GetActiveReception req.PvzID] ∧
    (ProductService.AddProduct env req db).2.products = db.products ∧
    (ProductService.AddProduct env req db).2.receptions = db.receptions := by
  have hc : checkProductType req.Type_ = some Error.ErrInvalidProductType := by
    unfold checkProductType
    rw [if_neg hbad]
  cases hq : (ReceptionRepository.GetActiveReception env req.PvzID db).1 with
  | error e =>
    rw [addProduct_of_error env req db e hq]
    simp
  | ok R =>
    rw [addProduct_of_ok env req db R hq, hc]
    simp

/-- Witness of C11 (amended): a type outside the allow-list on the open
reception of `Example.dbOpen`. -/
theorem addProduct_bad_type_witness :
    (ProductService.AddProduct (Env.quiet "uuid-2" 9) Example.reqBadType Example.dbOpen).1 =
      (none, some Error.ErrInvalidProductType) :=
  (addProduct_bad_type (Env.quiet "uuid-2" 9) Example.reqBadType Example.dbOpen
    (by decide)).1 { ID := "rec-1", DateTime := 5, PvzID := "pvz-1", Status := "in_progress" } rfl

/-- With an allow-listed type and `R` the in-progress reception of the pickup
point, `AddProduct` returns no error exactly when the database executes both
the lookup and the insert. -/
theorem addProduct_ok_iff (env : Env) (req : CreateProductRequest) (db : DB) (R : Reception)
    (hR : activeRows req.PvzID db = [R])
    (htype : req.Type_ = "электроника" ∨ req.Type_ = "одежда" ∨ req.Type_ = "обувь") :
    (ProductService.AddProduct env req db).1.2 = none ↔
      env.getActiveErr = none ∧ env.addErr = none := by
  have hc : checkProductType req.Type_ = none := by
    unfold checkProductType
    rw [if_pos htype]
  cases hf : env.getActiveErr with
  | some msg =>
    have hq : (ReceptionRepository.GetActiveReception env req.PvzID db).1 =
        Except.error (Error.other msg) := by
      unfold ReceptionRepository.GetActiveReception
      simp only [hf]
    rw [addProduct_of_error env req db _ hq]
    simp
  | none =>
    have hq := getActive_single env req.PvzID db R hR hf
    rw [addProduct_of_ok env req db R hq, hc]
    simp only
    rw [repoAdd_eq]
    cases ha : env.addErr with
    | some msg => simp
    | none => simp

/-- C12: for a request with an allow-listed type on a pickup point whose
in-progress reception is `R`, when the database executes the lookup and the
store's insert succeeds, `AddProduct` returns no error and a product that has
the generated ID, which is non-empty, the requested type, `ReceptionID = R.ID`
and the clock reading, which is non-zero, as its timestamp; `products` is the
former table followed by exactly that product, and `receptions` is
unchanged. -/
theorem addProduct_success (env : Env) (req : CreateProductRequest) (db : DB) (R : Reception)
    (hR : activeRows req.PvzID db = [R])
    (htype : req.Type_ = "электроника" ∨ req.Type_ = "одежда" ∨ req.Type_ = "обувь")
    (huuid : env.uuid ≠ "") (hnow : env.now ≠ 0)
    (hget : env.getActiveErr = none) (hadd : env.addErr = none) :
    ∃ product : Product,
      (ProductService.AddProduct env req db).1 = (some product, none) ∧
      product.ID = env.uuid ∧ product.ID ≠ "" ∧
      product.Type_ = req.Type_ ∧ product.ReceptionID = R.ID ∧
      product.DateTime = env.now ∧ product.DateTime ≠ 0 ∧
      (ProductService.AddProduct env req db).2.products = db.products ++ [product] ∧
      (ProductService.AddProduct env req db).2.receptions = db.receptions := by
  have hc : checkProductType req.Type_ = none := by
    unfold checkProductType
    rw [if_pos htype]
  have hfill : filledProduct env (builtProduct env req R) = builtProduct env req R := by
    simp [filledProduct, builtProduct, huuid, hnow]
  have hq := getActive_single env req.PvzID db R hR hget
  rw [addProduct_of_ok env req db R hq, hc]
  simp only
  rw [repoAdd_eq, hfill, hadd]
  refine ⟨builtProduct env req R, rfl, rfl, huuid, rfl, rfl, rfl, hnow, ?_, ?_⟩ <;> simp

/-- Witness of C12: footwear added to the open reception of `Example.dbOpen`. -/
theorem addProduct_success_witness :
    ∃ product : Product,
      (ProductService.AddProduct (Env.quiet "uuid-2" 9) Example.reqShoes Example.dbOpen).1 =
        (some product, none) ∧
      product.ID = "uuid-2" ∧ product.ID ≠ "" ∧
      product.Type_ = "обувь" ∧ product.ReceptionID = "rec-1" ∧
      product.DateTime = 9 ∧ product.DateTime ≠ 0 ∧
      (ProductService.AddProduct (Env.quiet "uuid-2" 9) Example.reqShoes
        Example.dbOpen).2.products = Example.dbOpen.products ++ [product] ∧
      (ProductService.AddProduct (Env.quiet "uuid-2" 9) Example.reqShoes
        Example.dbOpen).2.receptions = Example.dbOpen.receptions :=
  addProduct_success (Env.quiet "uuid-2" 9) Example.reqShoes Example.dbOpen
    { ID := "rec-1", DateTime := 5, PvzID := "pvz-1", Status := "in_progress" }
    (by decide) (by decide) (by decide) (by decide) rfl rfl

/-- C13: when the product repository's `AddProduct` returns an error,
`ProductService.AddProduct` returns a nil product and that same error, and
`products` is unchanged; in no case at all does the service return a product
together with an error. -/
theorem addProduct_store_error (env : Env) (req : CreateProductRequest) (db : DB)
    (R : Reception) (e : Error)
    (hq : (ReceptionRepository.GetActiveReception env req.PvzID db).1 = Except.ok R)
    (htype : checkProductType req.Type_ = none)
    (he : (ProductRepository.AddProduct env (builtProduct env req R)
            (db.log (Call.GetActiveReception req.PvzID))).1 = some e) :
    (ProductService.AddProduct env req db).1 = (none, some e) ∧
    (ProductService.AddProduct env req db).2.products = db.products ∧
    (∀ (env2 : Env) (req2 : CreateProductRequest) (db2 : DB) (product : Product),
      (ProductService.AddProduct env2 req2 db2).1.1 = some product →
        (ProductService.AddProduct env2 req2 db2).1.2 = none) := by
  refine ⟨?_, ?_, ?_⟩
  · rw [addProduct_of_ok env req db R hq, htype]
    simp only [he]
  · rw [addProduct_of_ok env req db R hq, htype]
    simp only
    rw [repoAdd_eq] at he ⊢
    cases ha : env.addErr with
    | some msg => simp
    | none => rw [ha] at he; simp at he
  · intro env2 req2 db2 product hp
    cases hq2 : (ReceptionRepository.GetActiveReception env2 req2.PvzID db2).1 with
    | error e2 =>
      rw [addProduct_of_error env2 req2 db2 e2 hq2] at hp
      simp at hp
    | ok R2 =>
      rw [addProduct_of_ok env2 req2 db2 R2 hq2] at hp ⊢
      cases hc : checkProductType req2.Type_ with
      | some err => rw [hc] at hp; simp at hp
      | none =>
        rw [hc] at hp
        simp only at hp ⊢
        cases hr : (ProductRepository.AddProduct env2 (builtProduct env2 req2 R2)
            (db2.log (Call.GetActiveReception req2.PvzID))).1 with
        | some e3 => rw [hr] at hp; simp at hp
        | none => rfl

/-- Witness of C13: the insert fails on the open reception of
`Example.dbOpen`. -/
theorem addProduct_store_error_witness :
    (ProductService.AddProduct Example.envAddFails Example.reqShoes Example.dbOpen).1 =
      (none, some (Error.other "driver: bad connection")) ∧
    (ProductService.AddProduct Example.envAddFails Example.reqShoes
      Example.dbOpen).2.products = Example.dbOpen.products :=
  ⟨(addProduct_store_error Example.envAddFails Example.reqShoes Example.dbOpen
      { ID := "rec-1", DateTime := 5, PvzID := "pvz-1", Status := "in_progress" }
      (Error.other "driver: bad connection") rfl (by decide) (by decide)).1,
   (addProduct_store_error Example.envAddFails Example.reqShoes Example.dbOpen
      { ID := "rec-1", DateTime := 5, PvzID := "pvz-1", Status := "in_progress" }
      (Error.other "driver: bad connection") rfl (by decide) (by decide)).2.1⟩

/-! ## Further lemmas on `ProductService.DeleteLastProduct` -/

theorem deleteLast_of_ok (env : Env) (p : String) (db : DB) (R : Reception)
    (h : (ReceptionRepository.GetActiveReception env p db).1 = Except.ok R) :
    ProductService.DeleteLastProduct env p db =
      match (ProductRepository.GetLastProduct env R.ID
              (db.log (Call.GetActiveReception p))).1 with
      | Except.error e =>
        (some e, (db.log (Call.GetActiveReception p)).log (Call.GetLastProduct R.ID))
      | Except.ok product =>
        ProductRepository.DeleteProduct env product.ID
          ((db.log (Call.GetActiveReception p)).log (Call.GetLastProduct R.ID)) := by
  have h2 := getActive_snd env p db
  unfold ProductService.DeleteLastProduct
  rcases hq : ReceptionRepository.GetActiveReception env p db with ⟨res, db1⟩
  rw [hq] at h h2
  simp only at h h2
  subst h h2
  simp only
  have h3 := getLast_snd env R.ID (db.log (Call.GetActiveReception p))
  rcases hl : ProductRepository.GetLastProduct env R.ID
    (db.log (Call.GetActiveReception p)) with ⟨res2, db2⟩
  rw [hl] at h3
  simp only at h3
  subst h3
  cases res2 <;> rfl

theorem repoDelete_eq (env : Env) (id : String) (db : DB) :
    ProductRepository.DeleteProduct env id db =
      match env.deleteErr with
      | some msg => (some (Error.other msg), db.log (Call.DeleteProduct id))
      | none =>
        match env.deleteRowsErr with
        | some msg => (some (Error.other msg),
            { db.log (Call.DeleteProduct id) with products := deleteRows id db.products })
        | none =>
          if (db.products.filter (fun q => decide (q.ID = id))).length = 0 then
            (some (Error.other "no product deleted"),
              { db.log (Call.DeleteProduct id) with products := deleteRows id db.products })
          else
            (none, { db.log (Call.DeleteProduct id) with
                      products := deleteRows id db.products }) := by
  unfold ProductRepository.DeleteProduct
  cases env.deleteErr with
  | some msg => rfl
  | none =>
    cases env.deleteRowsErr with
    | some msg => rfl
    | none => rfl

theorem deleteRows_of_absent (id : String) (rows : List Product)
    (h : ∀ q ∈ rows, q.ID ≠ id) : deleteRows id rows = rows := by
  unfold deleteRows
  rw [List.filter_eq_self]
  intro q hq
  simpa using h q hq

/-- C15 (counterexample): pickup point `pvz-2` has no in-progress reception,
the reception lookup fails with a driver error, and `DeleteLastProduct` returns
that error, which is not `ErrNoActiveReception`. -/
theorem deleteLastProduct_lookup_error_counterexample :
    activeRows "pvz-2" Example.dbThree = [] ∧
    (ProductService.DeleteLastProduct Example.envLookupFails "pvz-2" Example.dbThree).1 =
      some (Error.other "driver: bad connection") ∧
    Error.other "driver: bad connection" ≠ Error.ErrNoActiveReception := by
  decide

/-- C15 (amended): for a pickup point without in-progress reception,
`DeleteLastProduct` returns the error of the reception lookup, which is
`ErrNoActiveReception` when the lookup query is executed and the driver's error
when it is not; the only repository call made is the lookup (neither
`GetLastProduct` nor `DeleteProduct`), and both tables are unchanged. -/
theorem deleteLastProduct_no_active (env : Env) (pvzId : String) (db : DB)
    (hnone : activeRows pvzId db = []) :
    (ProductService.DeleteLastProduct env pvzId db).1 =
      some (match env.getActiveErr with
        | some msg => Error.other msg
        | none => Error.ErrNoActiveReception) ∧
    (ProductService.DeleteLastProduct env pvzId db).2.calls =
      db.calls ++ [Call.GetActiveReception pvzId] ∧
    (ProductService.DeleteLastProduct env pvzId db).2.products = db.products ∧
    (ProductService.DeleteLastProduct env pvzId db).2.receptions = db.receptions := by
  rw [deleteLast_of_error env pvzId db _ (getActive_empty env pvzId db hnone)]
  simp

/-- Witness of C15 (amended): with a driver that executes the lookup, deleting
on a pickup point whose reception is closed gives `ErrNoActiveReception`. -/
theorem deleteLastProduct_no_active_witness :
    (ProductService.DeleteLastProduct (Env.quiet "uuid-9" 15) "pvz-1" Example.dbClosed).1 =
      some Error.ErrNoActiveReception ∧
    (ProductService.DeleteLastProduct (Env.quiet "uuid-9" 15) "pvz-1" Example.dbClosed).2.calls =
      Example.dbClosed.calls ++ [Call.GetActiveReception "pvz-1"] ∧
    (ProductService.DeleteLastProduct (Env.quiet "uuid-9" 15) "pvz-1"
      Example.dbClosed).2.products = Example.dbClosed.products ∧
    (ProductService.DeleteLastProduct (Env.quiet "uuid-9" 15) "pvz-1"
      Example.dbClosed).2.receptions = Example.dbClosed.receptions :=
  deleteLastProduct_no_active (Env.quiet "uuid-9" 15) "pvz-1" Example.dbClosed (by decide)

/-- C19 (counterexample): the reception lookup of `CloseLastReception` fails
with a driver error, and the operation returns `ErrNoActiveReception` instead
of that error. -/
theorem closeLastReception_rewrites_error_counterexample :
    (ReceptionRepository.GetActiveReception Example.envLookupFails "pvz-1" Example.dbOpen).1 =
      Except.error (Error.other "driver: bad connection") ∧
    (ReceptionService.CloseLastReception Example.envLookupFails "pvz-1" Example.dbOpen).1 =
      (none, some Error.ErrNoActiveReception) ∧
    Error.ErrNoActiveReception ≠ Error.other "driver: bad connection" :=
  ⟨rfl, by decide, by decide⟩

/-- C19 (amended): `AddProduct` and `DeleteLastProduct` return the error of
any repository call they make unchanged and make no further repository call;
`CreateReception` returns the error of the repository's `CreateReception`
unchanged; `CloseLastReception` returns the error of the repository's
`CloseReception` unchanged with a nil reception, and reports any error of its
reception lookup as `ErrNoActiveReception`, without calling `CloseReception`. -/
theorem store_errors_propagate (env : Env) (db : DB) :
    (∀ (req : CreateProductRequest) (e : Error),
      (ReceptionRepository.GetActiveReception env req.PvzID db).1 = Except.error e →
        (ProductService.AddProduct env req db).1 = (none, some e) ∧
        (ProductService.AddProduct env req db).2.calls =
          db.calls ++ [Call.GetActiveReception req.PvzID]) ∧
    (∀ (req : CreateProductRequest) (R : Reception) (e : Error),
      (ReceptionRepository.GetActiveReception env req.PvzID db).1 = Except.ok R →
      checkProductType req.Type_ = none →
      (ProductRepository.AddProduct env (builtProduct env req R)
        (db.log (Call.GetActiveReception req.PvzID))).1 = some e →
        (ProductService.AddProduct env req db).1 = (none, some e)) ∧
    (∀ (pvzId : String) (e : Error),
      (ReceptionRepository.GetActiveReception env pvzId db).1 = Except.error e →
        (ProductService.DeleteLastProduct env pvzId db).1 = some e ∧
        (ProductService.DeleteLastProduct env pvzId db).2.calls =
          db.calls ++ [Call.GetActiveReception pvzId]) ∧
    (∀ (pvzId : String) (R : Reception) (e : Error),
      (ReceptionRepository.GetActiveReception env pvzId db).1 = Except.ok R →
      (ProductRepository.GetLastProduct env R.ID
        (db.log (Call.GetActiveReception pvzId))).1 = Except.error e →
        (ProductService.DeleteLastProduct env pvzId db).1 = some e ∧
        (ProductService.DeleteLastProduct env pvzId db).2.calls =
          db.calls ++ [Call.GetActiveReception pvzId, Call.GetLastProduct R.ID]) ∧
    (∀ (pvzId : String) (R : Reception) (product : Product),
      (ReceptionRepository.GetActiveReception env pvzId db).1 = Except.ok R →
      (ProductRepository.GetLastProduct env R.ID
        (db.log (Call.GetActiveReception pvzId))).1 = Except.ok product →
        (ProductService.DeleteLastProduct env pvzId db).1 =
          (ProductRepository.DeleteProduct env product.ID
            ((db.log (Call.GetActiveReception pvzId)).log (Call.GetLastProduct R.ID))).1) ∧
    (∀ (reception : Reception) (e0 : Error),
      (ReceptionRepository.GetActiveReception env reception.PvzID db).1 = Except.error e0 →
        (ReceptionService.CreateReception env reception db).1 =
          (ReceptionRepository.CreateReception env (handedReception env reception)
            (db.log (Call.GetActiveReception reception.PvzID))).1) ∧
    (∀ (pvzID : String) (R : Reception) (e : Error),
      (ReceptionRepository.GetActiveReception env pvzID db).1 = Except.ok R →
      (ReceptionRepository.CloseReception env R.ID
        (db.log (Call.GetActiveReception pvzID))).1 = some e →
        (ReceptionService.CloseLastReception env pvzID db).1 = (none, some e)) ∧
    (∀ (pvzID : String) (e : Error),
      (ReceptionRepository.GetActiveReception env pvzID db).1 = Except.error e →
        (ReceptionService.CloseLastReception env pvzID db).1 =
          (none, some Error.ErrNoActiveReception) ∧
        (ReceptionService.CloseLastReception env pvzID db).2.calls =
          db.calls ++ [Call.GetActiveReception pvzID]) := by
  refine ⟨?_, ?_, ?_, ?_, ?_, ?_, ?_, ?_⟩
  · intro req e hq
    rw [addProduct_of_error env req db e hq]
    simp
  · intro req R e hq hc he
    rw [addProduct_of_ok env req db R hq, hc]
    simp only [he]
  · intro p e hq
    rw [deleteLast_of_error env p db e hq]
    simp
  · intro p R e hq hl
    rw [deleteLast_of_ok env p db R hq, hl]
    simp
  · intro p R product hq hl
    rw [deleteLast_of_ok env p db R hq, hl]
  · intro r e0 hq
    rw [createReception_of_error env r db e0 hq]
  · intro p R e hq hc
    rw [closeLast_of_ok env p db R hq, hc]
  · intro p e hq
    rw [closeLast_of_error env p db e hq]
    simp

/-- Witness of C19 (amended): the lookup of `AddProduct` fails with a driver
error, which is returned as it is. -/
theorem store_errors_propagate_witness :
    (ProductService.AddProduct Example.envLookupFails Example.reqShoes Example.dbOpen).1 =
      (none, some (Error.other "driver: bad connection")) ∧
    (ProductService.AddProduct Example.envLookupFails Example.reqShoes Example.dbOpen).2.calls =
      Example.dbOpen.calls ++ [Call.GetActiveReception Example.reqShoes.PvzID] :=
  (store_errors_propagate Example.envLookupFails Example.dbOpen).1 Example.reqShoes
    (Error.other "driver: bad connection") rfl

/-- C20: `CloseLastReception` returns `(nil, ErrNoActiveReception)` whenever
the reception lookup returns an error, whichever error it is; when the lookup
returns a reception and the repository's `CloseReception` returns an error, it
returns a nil reception and that same error. -/
theorem closeLastReception_errors (env : Env) (pvzID : String) (db : DB) :
    (∀ e : Error,
      (ReceptionRepository.GetActiveReception env pvzID db).1 = Except.error e →
        (ReceptionService.CloseLastReception env pvzID db).1 =
          (none, some Error.ErrNoActiveReception)) ∧
    (∀ (R : Reception) (e : Error),
      (ReceptionRepository.GetActiveReception env pvzID db).1 = Except.ok R →
      (ReceptionRepository.CloseReception env R.ID
        (db.log (Call.GetActiveReception pvzID))).1 = some e →
        (ReceptionService.CloseLastReception env pvzID db).1 = (none, some e)) := by
  constructor
  · intro e hq
    rw [closeLast_of_error env pvzID db e hq]
  · intro R e hq hc
    rw [closeLast_of_ok env pvzID db R hq, hc]

/-- Witness of C20: a database error on the lookup gives
`ErrNoActiveReception`, a database error on the update is returned as it is. -/
theorem closeLastReception_errors_witness :
    (ReceptionService.CloseLastReception Example.envLookupFails "pvz-1" Example.dbOpen).1 =
      (none, some Error.ErrNoActiveReception) ∧
    (ReceptionService.CloseLastReception Example.envCloseFails "pvz-1" Example.dbOpen).1 =
      (none, some (Error.other "driver: bad connection")) :=
  ⟨(closeLastReception_errors Example.envLookupFails "pvz-1" Example.dbOpen).1
      (Error.other "driver: bad connection") rfl,
   (closeLastReception_errors Example.envCloseFails "pvz-1" Example.dbOpen).2
      { ID := "rec-1", DateTime := 5, PvzID := "pvz-1", Status := "in_progress" }
      (Error.other "driver: bad connection") rfl rfl⟩

/-! ## The last product -/

/-- A row whose key is strictly greater than the key of every other row is the
one `ORDER BY dateTime DESC LIMIT 1` returns, whatever the tie choice. -/
theorem orderByDescLimit1_eq_of_strict_max {α : Type} (key : α → Int) (tie : Nat)
    (rows : List α) (x : α) (hx : x ∈ rows)
    (hmax : ∀ q ∈ rows, q ≠ x → key q < key x) :
    orderByDescLimit1 key tie rows = some x := by
  cases h : orderByDescLimit1 key tie rows with
  | none =>
    rw [orderByDescLimit1_eq_none_iff] at h
    rw [h] at hx
    simp at hx
  | some r =>
    have hr := orderByDescLimit1_mem key tie rows r h
    have hle := orderByDescLimit1_max key tie rows r h x hx
    by_cases hrx : r = x
    · rw [hrx]
    · have := hmax r hr hrx
      omega

theorem getLast_of_strict_max (env : Env) (id : String) (db : DB) (x : Product)
    (hf : env.getLastErr = none) (hx : x ∈ productRows id db)
    (hmax : ∀ q ∈ productRows id db, q ≠ x → q.DateTime < x.DateTime) :
    (ProductRepository.GetLastProduct env id db).1 = Except.ok x := by
  unfold ProductRepository.GetLastProduct
  simp only [hf, productRows_log,
    orderByDescLimit1_eq_of_strict_max Product.DateTime env.tieProduct _ x hx hmax]

theorem getLast_of_empty (env : Env) (id : String) (db : DB)
    (hf : env.getLastErr = none) (h : productRows id db = []) :
    (ProductRepository.GetLastProduct env id db).1 = Except.error Error.ErrProductNotFound := by
  unfold ProductRepository.GetLastProduct
  simp only [hf, productRows_log, h]
  simp [orderByDescLimit1]

/-- In a table whose identifiers are keys, deleting by the identifier of a row
removes that row and no other. -/
theorem deleteRows_eq_erase (rows : List Product) (x : Product)
    (hk : (rows.map Product.ID).Nodup) (hx : x ∈ rows) :
    deleteRows x.ID rows = rows.erase x := by
  rw [List.Nodup.erase_eq_filter (List.Nodup.of_map _ hk)]
  unfold deleteRows
  apply List.filter_congr
  intro q hq
  by_cases hqx : q = x
  · simp [hqx]
  · have hid : q.ID ≠ x.ID := fun h => hqx (List.inj_on_of_nodup_map hk hq hx h)
    simp [hqx, hid]

/-- What a successful `DeleteLastProduct` did: the product looked up belongs to
an in-progress reception of the pickup point, and the rows with its identifier
are gone. -/
theorem deleteLast_success (env : Env) (p : String) (db : DB)
    (hok : (ProductService.DeleteLastProduct env p db).1 = none) :
    ∃ R ∈ activeRows p db, ∃ x ∈ productRows R.ID db,
      (ProductService.DeleteLastProduct env p db).2.products = deleteRows x.ID db.products ∧
      (ProductService.DeleteLastProduct env p db).2.receptions = db.receptions := by
  cases hq : (ReceptionRepository.GetActiveReception env p db).1 with
  | error e =>
    rw [deleteLast_of_error env p db e hq] at hok
    simp at hok
  | ok R =>
    have hR := (getActive_ok env p db R hq).2
    rw [deleteLast_of_ok env p db R hq] at hok ⊢
    cases hl : (ProductRepository.GetLastProduct env R.ID
        (db.log (Call.GetActiveReception p))).1 with
    | error e => rw [hl] at hok; simp at hok
    | ok x =>
      have hx := (getLast_ok env R.ID _ x hl).2
      rw [hl] at hok
      simp only at hok ⊢
      rw [repoDelete_eq] at hok ⊢
      refine ⟨R, hR, x, by simpa using hx, ?_⟩
      cases h1 : env.deleteErr with
      | some msg => rw [h1] at hok; simp at hok
      | none =>
        rw [h1] at hok
        cases h2 : env.deleteRowsErr with
        | some msg => rw [h2] at hok; simp at hok
        | none =>
          rw [h2] at hok
          simp only at hok ⊢
          split
          · rename_i h3
            rw [if_pos h3] at hok
            simp at hok
          · simp

/-- A `DeleteLastProduct` that returns an error has left both tables as they
were, unless the error is that of `RowsAffected` after an executed `DELETE`. -/
theorem deleteLast_failure (env : Env) (p : String) (db : DB)
    (hrows : env.deleteRowsErr = none)
    (herr : (ProductService.DeleteLastProduct env p db).1 ≠ none) :
    (ProductService.DeleteLastProduct env p db).2.products = db.products ∧
    (ProductService.DeleteLastProduct env p db).2.receptions = db.receptions := by
  refine ⟨?_, (deleteLast_cases env p db).1⟩
  cases hq : (ReceptionRepository.GetActiveReception env p db).1 with
  | error e =>
    rw [deleteLast_of_error env p db e hq]
    simp
  | ok R =>
    rw [deleteLast_of_ok env p db R hq] at herr ⊢
    cases hl : (ProductRepository.GetLastProduct env R.ID
        (db.log (Call.GetActiveReception p))).1 with
    | error e => simp
    | ok x =>
      rw [hl] at herr
      simp only at herr ⊢
      rw [repoDelete_eq, hrows] at herr ⊢
      cases h1 : env.deleteErr with
      | some msg => simp
      | none =>
        rw [h1] at herr
        simp only at herr ⊢
        split
        · rename_i h3
          simp only [DB.log_products] at h3 ⊢
          rw [List.length_eq_zero, List.filter_eq_nil_iff] at h3
          exact deleteRows_of_absent x.ID _ (fun q hq => by simpa using h3 q hq)
        · rename_i h3
          rw [if_neg h3] at herr
          simp at herr

/-- C17: in a store whose product identifiers are keys, a successful
`DeleteLastProduct(P)` removes exactly one row of `products`, a product of an
in-progress reception of `P`; every other product and every reception is
unchanged.  A call that returns an error leaves both tables unchanged (the
driver's `RowsAffected` reporting no error). -/
theorem deleteLastProduct_frame (env : Env) (pvzId : String) (db : DB)
    (hkeys : (db.products.map Product.ID).Nodup) (hrows : env.deleteRowsErr = none) :
    ((ProductService.DeleteLastProduct env pvzId db).1 = none →
      ∃ R ∈ activeRows pvzId db, ∃ x ∈ db.products,
        x.ReceptionID = R.ID ∧
        (ProductService.DeleteLastProduct env pvzId db).2.products = db.products.erase x ∧
        (ProductService.DeleteLastProduct env pvzId db).2.products.length + 1 =
          db.products.length ∧
        (∀ q ∈ db.products, q ≠ x →
          q ∈ (ProductService.DeleteLastProduct env pvzId db).2.products) ∧
        (ProductService.DeleteLastProduct env pvzId db).2.receptions = db.receptions) ∧
    ((ProductService.DeleteLastProduct env pvzId db).1 ≠ none →
      (ProductService.DeleteLastProduct env pvzId db).2.products = db.products ∧
      (ProductService.DeleteLastProduct env pvzId db).2.receptions = db.receptions) := by
  refine ⟨?_, deleteLast_failure env pvzId db hrows⟩
  intro hok
  obtain ⟨R, hR, x, hx, hp, hr⟩ := deleteLast_success env pvzId db hok
  have hx2 := List.mem_filter.mp hx
  have hown : x.ReceptionID = R.ID := by simpa using hx2.2
  have he := deleteRows_eq_erase db.products x hkeys hx2.1
  refine ⟨R, hR, x, hx2.1, hown, by rw [hp, he], ?_, ?_, hr⟩
  · rw [hp, he, List.length_erase_of_mem hx2.1]
    have := List.length_pos_of_mem hx2.1
    omega
  · intro q hq hqx
    rw [hp, he]
    exact (List.mem_erase_of_ne hqx).mpr hq

/-- Witness of C17: the last of the three products of `Example.dbThree` is
removed and the other two stay. -/
theorem deleteLastProduct_frame_witness :
    (ProductService.DeleteLastProduct (Env.quiet "uuid-9" 15) "pvz-1" Example.dbThree).2.products =
      [{ ID := "prod-1", DateTime := 6, Type_ := "электроника", ReceptionID := "rec-1" },
       { ID := "prod-2", DateTime := 7, Type_ := "одежда", ReceptionID := "rec-1" }] ∧
    ∃ R ∈ activeRows "pvz-1" Example.dbThree, ∃ x ∈ Example.dbThree.products,
      x.ReceptionID = R.ID ∧
      (ProductService.DeleteLastProduct (Env.quiet "uuid-9" 15) "pvz-1"
        Example.dbThree).2.products = Example.dbThree.products.erase x ∧
      (ProductService.DeleteLastProduct (Env.quiet "uuid-9" 15) "pvz-1"
        Example.dbThree).2.products.length + 1 = Example.dbThree.products.length ∧
      (∀ q ∈ Example.dbThree.products, q ≠ x →
        q ∈ (ProductService.DeleteLastProduct (Env.quiet "uuid-9" 15) "pvz-1"
          Example.dbThree).2.products) ∧
      (ProductService.DeleteLastProduct (Env.quiet "uuid-9" 15) "pvz-1"
        Example.dbThree).2.receptions = Example.dbThree.receptions :=
  ⟨by decide,
   (deleteLastProduct_frame (Env.quiet "uuid-9" 15) "pvz-1" Example.dbThree
      (by decide) rfl).1 (by decide)⟩

/-! ## Add, then look up the last product -/

theorem addProduct_success_shape (env : Env) (req : CreateProductRequest) (db : DB)
    (R : Reception) (product : Product)
    (hR : activeRows req.PvzID db = [R])
    (hadd : (ProductService.AddProduct env req db).1 = (some product, none)) :
    product.ReceptionID = R.ID ∧
    (ProductService.AddProduct env req db).2.products = db.products ++ [product] ∧
    (ProductService.AddProduct env req db).2.receptions = db.receptions := by
  cases hf : env.getActiveErr with
  | some msg =>
    have hq : (ReceptionRepository.GetActiveReception env req.PvzID db).1 =
        Except.error (Error.other msg) := by
      unfold ReceptionRepository.GetActiveReception
      simp only [hf]
    rw [addProduct_of_error env req db _ hq] at hadd
    simp at hadd
  | none =>
    have hq := getActive_single env req.PvzID db R hR hf
    rw [addProduct_of_ok env req db R hq] at hadd ⊢
    cases hc : checkProductType req.Type_ with
    | some err => rw [hc] at hadd; simp at hadd
    | none =>
      rw [hc] at hadd
      simp only at hadd ⊢
      rw [repoAdd_eq] at hadd ⊢
      cases ha : env.addErr with
      | some msg => rw [ha] at hadd; simp at hadd
      | none =>
        rw [ha] at hadd
        simp only [Prod.mk.injEq, Option.some.injEq, and_true] at hadd
        subst hadd
        refine ⟨rfl, ?_, ?_⟩ <;> simp

/-- C18 (counterexample): the open reception holds a product stamped 20; an
`AddProduct` at clock reading 9 succeeds and returns a product with ID
`uuid-2`, yet the `GetLastProduct` that follows returns the older row `prod-1`,
and `DeleteLastProduct` removes `prod-1` and leaves the product just added. -/
theorem addProduct_then_last_counterexample :
    (ProductService.AddProduct (Env.quiet "uuid-2" 9) Example.reqShoes Example.dbLate).1 =
      (some { ID := "uuid-2", DateTime := 9, Type_ := "обувь", ReceptionID := "rec-1" }, none) ∧
    (ProductRepository.GetLastProduct (Env.quiet "uuid-3" 10) "rec-1"
      (ProductService.AddProduct (Env.quiet "uuid-2" 9) Example.reqShoes Example.dbLate).2).1 =
      Except.ok { ID := "prod-1", DateTime := 20, Type_ := "одежда", ReceptionID := "rec-1" } ∧
    (ProductService.DeleteLastProduct (Env.quiet "uuid-3" 10) "pvz-1"
      (ProductService.AddProduct (Env.quiet "uuid-2" 9) Example.reqShoes Example.dbLate).2).1 =
      none ∧
    (ProductService.DeleteLastProduct (Env.quiet "uuid-3" 10) "pvz-1"
      (ProductService.AddProduct (Env.quiet "uuid-2" 9) Example.reqShoes
        Example.dbLate).2).2.products =
      [{ ID := "uuid-2", DateTime := 9, Type_ := "обувь", ReceptionID := "rec-1" }] :=
  ⟨by decide, rfl, by decide, by decide⟩

/-- C18 (amended): let `R` be the in-progress reception of pickup point `P`
and let `AddProduct` on `P` succeed and return `product`, whose timestamp is
strictly later than that of every product `R` already holds and whose ID no
stored product has.  Then a `GetLastProduct` on `R` executed right afterwards
returns `product`, and a `DeleteLastProduct(P)` executed right afterwards
succeeds and leaves `products` and `receptions` exactly as they were before the
add. -/
theorem addProduct_then_last (env env2 env3 : Env) (req : CreateProductRequest) (db : DB)
    (R : Reception) (product : Product)
    (hR : activeRows req.PvzID db = [R])
    (hadd : (ProductService.AddProduct env req db).1 = (some product, none))
    (hlater : ∀ q ∈ productRows R.ID db, q.DateTime < product.DateTime)
    (hfresh : ∀ q ∈ db.products, q.ID ≠ product.ID)
    (hlast : env2.getLastErr = none) (hdel : env3.ExecutesDelete) :
    (ProductRepository.GetLastProduct env2 R.ID (ProductService.AddProduct env req db).2).1 =
      Except.ok product ∧
    (ProductService.DeleteLastProduct env3 req.PvzID
      (ProductService.AddProduct env req db).2).1 = none ∧
    (ProductService.DeleteLastProduct env3 req.PvzID
      (ProductService.AddProduct env req db).2).2.products = db.products ∧
    (ProductService.DeleteLastProduct env3 req.PvzID
      (ProductService.AddProduct env req db).2).2.receptions = db.receptions := by
  obtain ⟨hown, hprod, hrec⟩ := addProduct_success_shape env req db R product hR hadd
  obtain ⟨h0, h1, h2, h3⟩ := hdel
  have hrows : productRows R.ID (ProductService.AddProduct env req db).2 =
      productRows R.ID db ++ [product] := by
    unfold productRows
    rw [hprod, List.filter_append]
    simp [hown]
  have hmem : product ∈ productRows R.ID (ProductService.AddProduct env req db).2 := by
    rw [hrows]; simp
  have hmax : ∀ q ∈ productRows R.ID (ProductService.AddProduct env req db).2,
      q ≠ product → q.DateTime < product.DateTime := by
    intro q hq hne
    rw [hrows] at hq
    rcases List.mem_append.mp hq with hq | hq
    · exact hlater q hq
    · simp only [List.mem_singleton] at hq
      exact absurd hq hne
  have hact : activeRows req.PvzID (ProductService.AddProduct env req db).2 = [R] := by
    unfold activeRows at hR ⊢
    rw [hrec]
    exact hR
  have hq := getActive_single env3 req.PvzID _ R hact h0
  have hl := getLast_of_strict_max env3 R.ID
    ((ProductService.AddProduct env req db).2.log (Call.GetActiveReception req.PvzID)) product h1
    (by simpa using hmem) (by simpa using hmax)
  have hlen : ((db.products ++ [product]).filter
      (fun q => decide (q.ID = product.ID))).length ≠ 0 := by
    rw [List.filter_append]
    simp
  have hdelrows : deleteRows product.ID (db.products ++ [product]) = db.products := by
    unfold deleteRows
    rw [List.filter_append, List.filter_eq_self.mpr (fun q hq => by simpa using hfresh q hq)]
    simp
  refine ⟨getLast_of_strict_max env2 R.ID _ product hlast hmem hmax, ?_, ?_, ?_⟩
  · rw [deleteLast_of_ok env3 req.PvzID _ R hq, hl]
    simp only
    rw [repoDelete_eq, h2, h3]
    simp only [DB.log_products, hprod, if_neg hlen]
  · rw [deleteLast_of_ok env3 req.PvzID _ R hq, hl]
    simp only
    rw [repoDelete_eq, h2, h3]
    simp only [DB.log_products, hprod, if_neg hlen, hdelrows]
  · rw [(deleteLast_cases env3 req.PvzID _).1, hrec]

/-- Witness of C18 (amended): footwear added at time 9 to the three products
of `Example.dbThree`, stamped 6, 7 and 8, is the last product, and deleting it
restores the table. -/
theorem addProduct_then_last_witness :
    (ProductRepository.GetLastProduct (Env.quiet "uuid-3" 10) "rec-1"
      (ProductService.AddProduct (Env.quiet "uuid-2" 9) Example.reqShoes Example.dbThree).2).1 =
      Except.ok { ID := "uuid-2", DateTime := 9, Type_ := "обувь", ReceptionID := "rec-1" } ∧
    (ProductService.DeleteLastProduct (Env.quiet "uuid-3" 10) Example.reqShoes.PvzID
      (ProductService.AddProduct (Env.quiet "uuid-2" 9) Example.reqShoes Example.dbThree).2).1 =
      none ∧
    (ProductService.DeleteLastProduct (Env.quiet "uuid-3" 10) Example.reqShoes.PvzID
      (ProductService.AddProduct (Env.quiet "uuid-2" 9) Example.reqShoes
        Example.dbThree).2).2.products = Example.dbThree.products ∧
    (ProductService.DeleteLastProduct (Env.quiet "uuid-3" 10) Example.reqShoes.PvzID
      (ProductService.AddProduct (Env.quiet "uuid-2" 9) Example.reqShoes
        Example.dbThree).2).2.receptions = Example.dbThree.receptions :=
  addProduct_then_last (Env.quiet "uuid-2" 9) (Env.quiet "uuid-3" 10) (Env.quiet "uuid-3" 10)
    Example.reqShoes Example.dbThree
    { ID := "rec-1", DateTime := 5, PvzID := "pvz-1", Status := "in_progress" }
    { ID := "uuid-2", DateTime := 9, Type_ := "обувь", ReceptionID := "rec-1" }
    (by decide) (by decide) (by decide) (by decide) rfl (by decide)

/-! ## Removal in reverse order of the timestamps -/

theorem lastFirst_perm (rows : List Product) : (lastFirst rows).Perm rows := by
  unfold lastFirst
  exact List.perm_insertionSort _ rows

theorem lastFirst_strict (rows : List Product)
    (h : (rows.map Product.DateTime).Nodup) :
    (lastFirst rows).Pairwise (fun a b => b.DateTime < a.DateTime) := by
  have hs : (lastFirst rows).Pairwise (fun a b : Product => b.DateTime ≤ a.DateTime) := by
    unfold lastFirst
    haveI : IsTotal Product (fun a b => b.DateTime ≤ a.DateTime) :=
      ⟨fun a b => le_total b.DateTime a.DateTime⟩
    haveI : IsTrans Product (fun a b => b.DateTime ≤ a.DateTime) :=
      ⟨fun a b c hab hbc => le_trans hbc hab⟩
    exact List.sorted_insertionSort (fun a b : Product => b.DateTime ≤ a.DateTime) rows
  have hn : ((lastFirst rows).map Product.DateTime).Nodup :=
    ((lastFirst_perm rows).map Product.DateTime).nodup_iff.mpr h
  have hne : (lastFirst rows).Pairwise (fun a b : Product => a.DateTime ≠ b.DateTime) := by
    unfold List.Nodup at hn
    rw [List.pairwise_map] at hn
    exact hn
  exact (hs.and hne).imp (fun hab => lt_of_le_of_ne hab.1 (Ne.symm hab.2))

/-- One `DeleteLastProduct` when the products of the open reception `R` listed
latest first are `gone ++ x :: rest` and exactly the rows of `gone` have been
removed: the call succeeds and removes `x`. -/
theorem deleteLast_step (env : Env) (p : String) (db dbc : DB) (R : Reception)
    (gone rest : List Product) (x : Product)
    (hR : activeRows p db = [R])
    (hk : (db.products.map Product.ID).Nodup)
    (hperm : (gone ++ x :: rest).Perm (productRows R.ID db))
    (hstrict : (gone ++ x :: rest).Pairwise (fun a b => b.DateTime < a.DateTime))
    (hrec : dbc.receptions = db.receptions)
    (hprod : dbc.products = db.products.filter (fun q => decide (q ∉ gone)))
    (hexec : env.ExecutesDelete) :
    (ProductService.DeleteLastProduct env p dbc).1 = none ∧
    (ProductService.DeleteLastProduct env p dbc).2.receptions = db.receptions ∧
    (ProductService.DeleteLastProduct env p dbc).2.products =
      db.products.filter (fun q => decide (q ∉ gone ++ [x])) := by
  obtain ⟨h0, h1, h2, h3⟩ := hexec
  have hx_rows : x ∈ productRows R.ID db := hperm.subset (by simp)
  have hx_db : x ∈ db.products := (List.mem_filter.mp hx_rows).1
  have hx_own : x.ReceptionID = R.ID := by simpa using (List.mem_filter.mp hx_rows).2
  have hsplit := List.pairwise_append.mp hstrict
  have hx_gone : x ∉ gone := by
    intro hg
    have := hsplit.2.2 x hg x (by simp)
    omega
  have hx_dbc : x ∈ dbc.products := by
    rw [hprod]
    exact List.mem_filter.mpr ⟨hx_db, by simpa using hx_gone⟩
  have hx_cur : x ∈ productRows R.ID dbc := by
    unfold productRows
    exact List.mem_filter.mpr ⟨hx_dbc, by simpa using hx_own⟩
  have hmax : ∀ q ∈ productRows R.ID dbc, q ≠ x → q.DateTime < x.DateTime := by
    intro q hq hne
    have hq1 := List.mem_filter.mp hq
    rw [hprod] at hq1
    have hq2 := List.mem_filter.mp hq1.1
    have hq_rows : q ∈ productRows R.ID db := List.mem_filter.mpr ⟨hq2.1, hq1.2⟩
    have hq_gone : q ∉ gone := by simpa using hq2.2
    have hq_order : q ∈ gone ++ x :: rest := hperm.symm.subset hq_rows
    rcases List.mem_append.mp hq_order with hg | hg
    · exact absurd hg hq_gone
    · rcases List.mem_cons.mp hg with hg | hg
      · exact absurd hg hne
      · exact (List.pairwise_cons.mp hsplit.2.1).1 q hg
  have hact : activeRows p dbc = [R] := by
    unfold activeRows at hR ⊢
    rw [hrec]
    exact hR
  have hq := getActive_single env p dbc R hact h0
  have hl := getLast_of_strict_max env R.ID (dbc.log (Call.GetActiveReception p)) x h1
    (by simpa using hx_cur) (by simpa using hmax)
  have hlen : (dbc.products.filter (fun q => decide (q.ID = x.ID))).length ≠ 0 := by
    have : x ∈ dbc.products.filter (fun q => decide (q.ID = x.ID)) :=
      List.mem_filter.mpr ⟨hx_dbc, by simp⟩
    have := List.length_pos_of_mem this
    omega
  have hdel : deleteRows x.ID dbc.products =
      db.products.filter (fun q => decide (q ∉ gone ++ [x])) := by
    unfold deleteRows
    rw [hprod, List.filter_filter]
    apply List.filter_congr
    intro q hqm
    by_cases hqx : q = x
    · simp [hqx]
    · have hid : q.ID ≠ x.ID := fun h => hqx (List.inj_on_of_nodup_map hk hqm hx_db h)
      simp [hqx, hid]
  refine ⟨?_, ?_, ?_⟩
  · rw [deleteLast_of_ok env p dbc R hq, hl]
    simp only
    rw [repoDelete_eq, h2, h3]
    simp only [DB.log_products, if_neg hlen]
  · rw [(deleteLast_cases env p dbc).1, hrec]
  · rw [deleteLast_of_ok env p dbc R hq, hl]
    simp only
    rw [repoDelete_eq, h2, h3]
    simp only [DB.log_products, if_neg hlen, hdel]

/-- Consecutive `DeleteLastProduct` calls, as many as there are environments,
starting when exactly the rows of `gone` have been removed: every call
succeeds, and afterwards `gone` and the first rows of `rest` are removed. -/
theorem deleteCalls_lifo (p : String) (db : DB) (R : Reception)
    (hR : activeRows p db = [R]) (hk : (db.products.map Product.ID).Nodup) :
    ∀ (envs : List Env) (gone rest : List Product) (dbc : DB),
      (gone ++ rest).Perm (productRows R.ID db) →
      (gone ++ rest).Pairwise (fun a b => b.DateTime < a.DateTime) →
      dbc.receptions = db.receptions →
      dbc.products = db.products.filter (fun q => decide (q ∉ gone)) →
      envs.length ≤ rest.length →
      (∀ env ∈ envs, env.ExecutesDelete) →
      runErrors (deleteCalls envs p) dbc = List.replicate envs.length none ∧
      (run (deleteCalls envs p) dbc).receptions = db.receptions ∧
      (run (deleteCalls envs p) dbc).products =
        db.products.filter (fun q => decide (q ∉ gone ++ rest.take envs.length)) := by
  intro envs
  induction envs with
  | nil =>
    intro gone rest dbc _ _ hrec hprod _ _
    simp [deleteCalls, runErrors, run, hrec, hprod]
  | cons env envs ih =>
    intro gone rest dbc hperm hstrict hrec hprod hlen hexec
    cases rest with
    | nil => simp at hlen
    | cons x rest =>
      obtain ⟨s1, s2, s3⟩ := deleteLast_step env p db dbc R gone rest x hR hk hperm hstrict
        hrec hprod (hexec env (by simp))
      have hassoc : (gone ++ [x]) ++ rest = gone ++ x :: rest := by simp
      obtain ⟨t1, t2, t3⟩ := ih (gone ++ [x]) rest
        (ProductService.DeleteLastProduct env p dbc).2
        (by rw [hassoc]; exact hperm) (by rw [hassoc]; exact hstrict) s2 s3
        (by simpa using hlen) (fun e he => hexec e (List.mem_cons_of_mem _ he))
      have hcalls : deleteCalls (env :: envs) p =
          (env, Op.deleteLastProduct p) :: deleteCalls envs p := by
        simp [deleteCalls]
      rw [hcalls]
      simp only [runErrors, run, Op.error, Op.exec, List.length_cons, List.replicate_succ,
        List.take_succ_cons]
      refine ⟨by rw [s1, t1], t2, ?_⟩
      rw [t3]
      simp

theorem filter_not_mem_take_eq_drop (l : List Product) (k : Nat) (h : l.Nodup) :
    l.filter (fun q => decide (q ∉ l.take k)) = l.drop k := by
  have hsplit : l.take k ++ l.drop k = l := List.take_append_drop k l
  have hn : (l.take k ++ l.drop k).Nodup := by rw [hsplit]; exact h
  have hdisj := (List.nodup_append.mp hn).2.2
  have h1 : (l.take k).filter (fun q => decide (q ∉ l.take k)) = [] := by
    rw [List.filter_eq_nil_iff]
    intro q hq
    simpa using hq
  have h2 : (l.drop k).filter (fun q => decide (q ∉ l.take k)) = l.drop k := by
    rw [List.filter_eq_self]
    intro q hq
    have : q ∉ l.take k := fun ht => hdisj ht hq
    simpa using this
  have happ : l.filter (fun q => decide (q ∉ l.take k)) =
      (l.take k).filter (fun q => decide (q ∉ l.take k)) ++
        (l.drop k).filter (fun q => decide (q ∉ l.take k)) := by
    rw [← List.filter_append, hsplit]
  rw [happ, h1, h2]
  simp

/-- C14: let `R` be the in-progress reception of pickup point `P`, in a store
whose product identifiers are keys, and let the timestamps of the `n` products
of `R` be pairwise distinct; list these products latest first.  With a driver
that executes the statements, `k ≤ n` consecutive `DeleteLastProduct(P)` calls
all succeed; after the first `i` of them exactly the first `i` products of the
list are gone, so the products are removed in decreasing order of timestamp and
the `n - k` oldest remain, every other product and every reception being
unchanged.  When all `n` are removed, one more call returns
`ErrProductNotFound` and removes nothing. -/
theorem deleteLastProduct_lifo (envs : List Env) (pvzId : String) (db : DB) (R : Reception)
    (hR : activeRows pvzId db = [R])
    (hkeys : (db.products.map Product.ID).Nodup)
    (htimes : ((productRows R.ID db).map Product.DateTime).Nodup)
    (hexec : ∀ env ∈ envs, env.ExecutesDelete)
    (hk : envs.length ≤ (productRows R.ID db).length) :
    (lastFirst (productRows R.ID db)).Perm (productRows R.ID db) ∧
    (lastFirst (productRows R.ID db)).Pairwise (fun a b => b.DateTime < a.DateTime) ∧
    runErrors (deleteCalls envs pvzId) db = List.replicate envs.length none ∧
    (∀ i ≤ envs.length,
      (run (deleteCalls (envs.take i) pvzId) db).products =
        db.products.filter
          (fun q => decide (q ∉ (lastFirst (productRows R.ID db)).take i))) ∧
    (productRows R.ID (run (deleteCalls envs pvzId) db)).Perm
      ((lastFirst (productRows R.ID db)).drop envs.length) ∧
    (run (deleteCalls envs pvzId) db).receptions = db.receptions ∧
    (envs.length = (productRows R.ID db).length →
      ∀ env : Env, env.ExecutesDelete →
        (ProductService.DeleteLastProduct env pvzId (run (deleteCalls envs pvzId) db)).1 =
          some Error.ErrProductNotFound ∧
        (ProductService.DeleteLastProduct env pvzId
          (run (deleteCalls envs pvzId) db)).2.products =
          (run (deleteCalls envs pvzId) db).products) := by
  have hperm := lastFirst_perm (productRows R.ID db)
  have hstrict := lastFirst_strict (productRows R.ID db) htimes
  have hlen : (lastFirst (productRows R.ID db)).length = (productRows R.ID db).length :=
    hperm.length_eq
  have hnodup : (lastFirst (productRows R.ID db)).Nodup :=
    hstrict.imp (fun hab heq => by rw [heq] at hab; omega)
  have hstart : db.products =
      db.products.filter (fun q => decide (q ∉ ([] : List Product))) := by
    simp
  have hall := deleteCalls_lifo pvzId db R hR hkeys envs [] (lastFirst (productRows R.ID db)) db
    (by simpa using hperm) (by simpa using hstrict) rfl hstart (by omega) hexec
  obtain ⟨a1, a2, a3⟩ := hall
  simp only [List.nil_append] at a3
  have hrowsEnd : productRows R.ID (run (deleteCalls envs pvzId) db) =
      (productRows R.ID db).filter
        (fun q => decide (q ∉ (lastFirst (productRows R.ID db)).take envs.length)) := by
    unfold productRows
    rw [a3, List.filter_filter, List.filter_filter]
    apply List.filter_congr
    intro q _
    exact Bool.and_comm _ _
  refine ⟨hperm, hstrict, a1, ?_, ?_, a2, ?_⟩
  · intro i hi
    have hti : (envs.take i).length = i := by
      rw [List.length_take]; omega
    have hpre := deleteCalls_lifo pvzId db R hR hkeys (envs.take i) []
      (lastFirst (productRows R.ID db)) db
      (by simpa using hperm) (by simpa using hstrict) rfl hstart (by omega)
      (fun e he => hexec e (List.mem_of_mem_take he))
    have := hpre.2.2
    simpa [hti] using this
  · rw [hrowsEnd]
    have h1 := hperm.symm.filter
      (fun q => decide (q ∉ (lastFirst (productRows R.ID db)).take envs.length))
    rw [filter_not_mem_take_eq_drop _ _ hnodup] at h1
    exact h1
  · intro hfull env henv
    obtain ⟨h0, h1, _, _⟩ := henv
    have hempty : productRows R.ID (run (deleteCalls envs pvzId) db) = [] := by
      rw [hrowsEnd, List.filter_eq_nil_iff]
      intro q hq
      have hq2 : q ∈ lastFirst (productRows R.ID db) := hperm.symm.subset hq
      have htake : (lastFirst (productRows R.ID db)).take envs.length =
          lastFirst (productRows R.ID db) := by
        rw [List.take_of_length_le]
        omega
      rw [htake]
      simpa using hq2
    have hact : activeRows pvzId (run (deleteCalls envs pvzId) db) = [R] := by
      unfold activeRows at hR ⊢
      rw [a2]
      exact hR
    have hq := getActive_single env pvzId _ R hact h0
    have hl := getLast_of_empty env R.ID
      ((run (deleteCalls envs pvzId) db).log (Call.GetActiveReception pvzId)) h1
      (by simpa using hempty)
    rw [deleteLast_of_ok env pvzId _ R hq, hl]
    simp

/-- Witness of C14: the products of `Example.dbThree`, stamped 6, 7 and 8, are
removed as `prod-3`, `prod-2`, `prod-1`, and the fourth call fails with
`ErrProductNotFound`. -/
theorem deleteLastProduct_lifo_witness :
    lastFirst (productRows "rec-1" Example.dbThree) =
      [{ ID := "prod-3", DateTime := 8, Type_ := "обувь", ReceptionID := "rec-1" },
       { ID := "prod-2", DateTime := 7, Type_ := "одежда", ReceptionID := "rec-1" },
       { ID := "prod-1", DateTime := 6, Type_ := "электроника", ReceptionID := "rec-1" }] ∧
    (run (deleteCalls (Example.envsThree.take 1) "pvz-1") Example.dbThree).products =
      [{ ID := "prod-1", DateTime := 6, Type_ := "электроника", ReceptionID := "rec-1" },
       { ID := "prod-2", DateTime := 7, Type_ := "одежда", ReceptionID := "rec-1" }] ∧
    (run (deleteCalls (Example.envsThree.take 2) "pvz-1") Example.dbThree).products =
      [{ ID := "prod-1", DateTime := 6, Type_ := "электроника", ReceptionID := "rec-1" }] ∧
    (run (deleteCalls Example.envsThree "pvz-1") Example.dbThree).products = [] ∧
    runErrors (deleteCalls Example.envsThree "pvz-1") Example.dbThree =
      List.replicate Example.envsThree.length none ∧
    (ProductService.DeleteLastProduct (Env.quiet "uuid-8" 14) "pvz-1"
      (run (deleteCalls Example.envsThree "pvz-1") Example.dbThree)).1 =
      some Error.ErrProductNotFound :=
  ⟨by decide, by decide, by decide, by decide,
   (deleteLastProduct_lifo Example.envsThree "pvz-1" Example.dbThree
      { ID := "rec-1", DateTime := 5, PvzID := "pvz-1", Status := "in_progress" }
      (by decide) (by decide) (by decide) (by decide) (by decide)).2.2.1,
   ((deleteLastProduct_lifo Example.envsThree "pvz-1" Example.dbThree
      { ID := "rec-1", DateTime := 5, PvzID := "pvz-1", Status := "in_progress" }
      (by decide) (by decide) (by decide) (by decide) (by decide)).2.2.2.2.2.2
      (by decide) (Env.quiet "uuid-8" 14) (by decide)).1⟩



/-! ## Pickup points -/

@[simp] theorem PvzDB.log_pvzs (db : PvzDB) (c : PvzCall) : (db.log c).pvzs = db.pvzs := rfl

@[simp] theorem PvzDB.log_pvzCalls (db : PvzDB) (c : PvzCall) :
    (db.log c).calls = db.calls ++ [c] := rfl

theorem repoCreatePVZ_eq (env : PvzEnv) (pvz : PVZ) (db : PvzDB) :
    PVZRepository.CreatePVZ env pvz db =
      match env.createPvzErr with
      | some msg => (some (Error.other msg), db.log (PvzCall.CreatePVZ pvz))
      | none => (none, { db.log (PvzCall.CreatePVZ pvz) with pvzs := db.pvzs ++ [pvz] }) := by
  unfold PVZRepository.CreatePVZ
  cases env.createPvzErr <;> rfl

theorem createPVZ_of_bad_city (env : PvzEnv) (pvz : PVZ) (db : PvzDB)
    (h : ¬ (pvz.City = "Москва" ∨ pvz.City = "Санкт-Петербург" ∨ pvz.City = "Казань")) :
    PVZService.CreatePVZ env pvz db = (some Error.ErrInvalidCity, pvz, db) := by
  unfold PVZService.CreatePVZ checkCity
  rw [if_neg h]

theorem createPVZ_of_good_city (env : PvzEnv) (pvz : PVZ) (db : PvzDB)
    (h : pvz.City = "Москва" ∨ pvz.City = "Санкт-Петербург" ∨ pvz.City = "Казань") :
    PVZService.CreatePVZ env pvz db =
      ((PVZRepository.CreatePVZ env
          { ID := if pvz.ID = "" then env.uuid else pvz.ID,
            RegistrationDate :=
              if pvz.RegistrationDate = 0 then env.now else pvz.RegistrationDate,
            City := pvz.City } db).1,
       { ID := if pvz.ID = "" then env.uuid else pvz.ID,
         RegistrationDate := if pvz.RegistrationDate = 0 then env.now else pvz.RegistrationDate,
         City := pvz.City },
       (PVZRepository.CreatePVZ env
          { ID := if pvz.ID = "" then env.uuid else pvz.ID,
            RegistrationDate :=
              if pvz.RegistrationDate = 0 then env.now else pvz.RegistrationDate,
            City := pvz.City } db).2) := by
  unfold PVZService.CreatePVZ checkCity
  rw [if_pos h]
  simp only
  by_cases h1 : pvz.ID = "" <;> by_cases h2 : pvz.RegistrationDate = 0 <;> simp [h1, h2]

/-- C21: `CreatePVZ` returns `ErrInvalidCity` exactly when the city is none of
the strings `"Москва"`, `"Санкт-Петербург"`, `"Казань"`; the comparison is
exact, so the empty string and `"москва"` are rejected.  On that failure the
repository is not called, the table is unchanged, and the pickup point is
returned as it was passed. -/
theorem createPVZ_invalid_city (env : PvzEnv) (pvz : PVZ) (db : PvzDB) :
    ((PVZService.CreatePVZ env pvz db).1 = some Error.ErrInvalidCity ↔
      ¬ (pvz.City = "Москва" ∨ pvz.City = "Санкт-Петербург" ∨ pvz.City = "Казань")) ∧
    ((PVZService.CreatePVZ env pvz db).1 = some Error.ErrInvalidCity →
      (PVZService.CreatePVZ env pvz db).2.1 = pvz ∧
      (PVZService.CreatePVZ env pvz db).2.2 = db) ∧
    checkCity "" = some Error.ErrInvalidCity ∧
    checkCity "москва" = some Error.ErrInvalidCity := by
  have hiff : (PVZService.CreatePVZ env pvz db).1 = some Error.ErrInvalidCity ↔
      ¬ (pvz.City = "Москва" ∨ pvz.City = "Санкт-Петербург" ∨ pvz.City = "Казань") := by
    constructor
    · intro h hgood
      rw [createPVZ_of_good_city env pvz db hgood, repoCreatePVZ_eq] at h
      cases hc : env.createPvzErr with
      | some msg => rw [hc] at h; simp at h
      | none => rw [hc] at h; simp at h
    · intro hbad
      rw [createPVZ_of_bad_city env pvz db hbad]
  refine ⟨hiff, ?_, by decide, by decide⟩
  intro h
  rw [createPVZ_of_bad_city env pvz db (hiff.mp h)]
  exact ⟨rfl, rfl⟩

/-- Witness of C21: a pickup point in a city outside the list. -/
theorem createPVZ_invalid_city_witness :
    (PVZService.CreatePVZ (PvzEnv.quiet "uuid-1" 7)
        { ID := "", RegistrationDate := 0, City := "Новосибирск" } Example.pvzEmpty).2.1 =
      { ID := "", RegistrationDate := 0, City := "Новосибирск" } ∧
    (PVZService.CreatePVZ (PvzEnv.quiet "uuid-1" 7)
        { ID := "", RegistrationDate := 0, City := "Новосибирск" } Example.pvzEmpty).2.2 =
      Example.pvzEmpty :=
  (createPVZ_invalid_city (PvzEnv.quiet "uuid-1" 7)
    { ID := "", RegistrationDate := 0, City := "Новосибирск" } Example.pvzEmpty).2.1
    (by decide)

/-- C22: for a pickup point with an allow-listed city, `CreatePVZ` calls the
repository's `CreatePVZ` once, with a pickup point whose ID is non-empty and
whose registration date is non-zero (the generated UUID being non-empty and
the clock reading non-zero): a non-empty incoming ID and a non-zero incoming
date are kept, an empty ID becomes the generated UUID, a zero date the current
time, and the city is the incoming one; the error returned and the store
afterwards are exactly those of the repository's call. -/
theorem createPVZ_defaults (env : PvzEnv) (pvz : PVZ) (db : PvzDB)
    (hcity : pvz.City = "Москва" ∨ pvz.City = "Санкт-Петербург" ∨ pvz.City = "Казань")
    (huuid : env.uuid ≠ "") (hnow : env.now ≠ 0) :
    ∃ handed : PVZ,
      (PVZService.CreatePVZ env pvz db).2.2.calls = db.calls ++ [PvzCall.CreatePVZ handed] ∧
      (PVZService.CreatePVZ env pvz db).2.1 = handed ∧
      handed.ID ≠ "" ∧ handed.RegistrationDate ≠ 0 ∧
      (pvz.ID ≠ "" → handed.ID = pvz.ID) ∧
      (pvz.RegistrationDate ≠ 0 → handed.RegistrationDate = pvz.RegistrationDate) ∧
      (pvz.ID = "" → handed.ID = env.uuid) ∧
      (pvz.RegistrationDate = 0 → handed.RegistrationDate = env.now) ∧
      handed.City = pvz.City ∧
      (PVZService.CreatePVZ env pvz db).1 = (PVZRepository.CreatePVZ env handed db).1 ∧
      (PVZService.CreatePVZ env pvz db).2.2 = (PVZRepository.CreatePVZ env handed db).2 := by
  rw [createPVZ_of_good_city env pvz db hcity]
  refine ⟨_, ?_, rfl, ?_, ?_, ?_, ?_, ?_, ?_, rfl, rfl, rfl⟩
  · rw [repoCreatePVZ_eq]
    cases env.createPvzErr <;> simp
  · by_cases h : pvz.ID = "" <;> simp [h, huuid]
  · by_cases h : pvz.RegistrationDate = 0 <;> simp [h, hnow]
  · intro h; simp [h]
  · intro h; simp [h]
  · intro h; simp [h]
  · intro h; simp [h]

/-- Witness of C22: a pickup point in Kazan without ID and date. -/
theorem createPVZ_defaults_witness :
    ∃ handed : PVZ,
      (PVZService.CreatePVZ (PvzEnv.quiet "uuid-1" 7)
        { ID := "", RegistrationDate := 0, City := "Казань" } Example.pvzEmpty).2.2.calls =
        Example.pvzEmpty.calls ++ [PvzCall.CreatePVZ handed] ∧
      (PVZService.CreatePVZ (PvzEnv.quiet "uuid-1" 7)
        { ID := "", RegistrationDate := 0, City := "Казань" } Example.pvzEmpty).2.1 = handed ∧
      handed.ID ≠ "" ∧ handed.RegistrationDate ≠ 0 :=
  let ⟨handed, h1, h2, h3, h4, _⟩ :=
    createPVZ_defaults (PvzEnv.quiet "uuid-1" 7)
      { ID := "", RegistrationDate := 0, City := "Казань" } Example.pvzEmpty
      (by decide) (by decide) (by decide)
  ⟨handed, h1, h2, h3, h4⟩

/-! ## Pagination of `ListPVZ` -/

theorem listPVZ_calls (env : PvzEnv) (limitStr pageStr startDateStr endDateStr : String)
    (db : PvzDB) :
    (PVZService.ListPVZ env limitStr pageStr startDateStr endDateStr db).2.calls =
      db.calls ++ [PvzCall.ListPVZ (ListPVZ.limit limitStr) (ListPVZ.offset limitStr pageStr)
        (if startDateStr ≠ "" then env.parseTime startDateStr else none)
        (if endDateStr ≠ "" then env.parseTime endDateStr else none)] := by
  unfold PVZService.ListPVZ PVZRepository.ListPVZ ListPVZ.limit ListPVZ.offset ListPVZ.page
    ListPVZ.limit
  simp only
  cases env.listErr <;> rfl

theorem wrapInt64_of_range (x : Int) (h0 : 0 ≤ x) (h1 : x ≤ 9223372036854775807) :
    wrapInt64 x = x := by
  unfold wrapInt64
  omega

theorem listPVZ_limit_range (limitStr : String) :
    1 ≤ ListPVZ.limit limitStr ∧ ListPVZ.limit limitStr ≤ 30 := by
  unfold ListPVZ.limit
  split <;> omega

theorem listPVZ_page_pos (pageStr : String) : 1 ≤ ListPVZ.page pageStr := by
  unfold ListPVZ.page
  split <;> omega

/-! ### `strconv.Atoi` against the number a string denotes -/

theorem decimalValueFrom_nil (n : Nat) : Spec.decimalValueFrom n [] = n := rfl

theorem decimalValueFrom_cons (n : Nat) (c : Char) (cs : List Char) :
    Spec.decimalValueFrom n (c :: cs) = Spec.decimalValueFrom (n * 10 + (c.toNat - 48)) cs := rfl

theorem parseUint_loop_nil (n : Nat) : strconv.ParseUint.loop n [] = NumResult.value n := rfl

theorem parseUint_loop_cons (n : Nat) (c : Char) (cs : List Char) :
    strconv.ParseUint.loop n (c :: cs) =
      if c.isDigit then
        if n ≥ maxUint64 / 10 + 1 then NumResult.rangeError
        else if n * 10 + (c.toNat - 48) > maxUint64 then NumResult.rangeError
        else strconv.ParseUint.loop (n * 10 + (c.toNat - 48)) cs
      else NumResult.syntaxError := rfl

theorem decimalValueFrom_ge (cs : List Char) : ∀ n : Nat, n ≤ Spec.decimalValueFrom n cs := by
  induction cs with
  | nil => intro n; exact le_refl n
  | cons c cs ih =>
    intro n
    have h := ih (n * 10 + (c.toNat - 48))
    rw [decimalValueFrom_cons]
    omega

/-- On a string of decimal digits the loop of `ParseUint` returns the number
denoted when it fits `uint64`, and a range error otherwise. -/
theorem parseUint_loop_digits (cs : List Char) :
    ∀ n : Nat, n ≤ maxUint64 → (∀ c ∈ cs, c.isDigit = true) →
      strconv.ParseUint.loop n cs =
        if Spec.decimalValueFrom n cs ≤ maxUint64 then
          NumResult.value (Spec.decimalValueFrom n cs)
        else NumResult.rangeError := by
  induction cs with
  | nil =>
    intro n hn _
    rw [parseUint_loop_nil, decimalValueFrom_nil, if_pos hn]
  | cons c cs ih =>
    intro n hn hd
    have hc : c.isDigit = true := hd c (List.mem_cons_self c cs)
    have hrest : ∀ x ∈ cs, x.isDigit = true := fun x hx => hd x (List.mem_cons_of_mem c hx)
    have hge := decimalValueFrom_ge cs (n * 10 + (c.toNat - 48))
    rw [parseUint_loop_cons, decimalValueFrom_cons, hc, if_pos rfl]
    simp only [maxUint64] at hn hge ⊢
    by_cases h1 : n ≥ 18446744073709551615 / 10 + 1
    · rw [if_pos h1, if_neg (by omega)]
    · rw [if_neg h1]
      by_cases h2 : n * 10 + (c.toNat - 48) > 18446744073709551615
      · rw [if_pos h2, if_neg (by omega)]
      · rw [if_neg h2]
        have := ih (n * 10 + (c.toNat - 48)) (by simp only [maxUint64]; omega) hrest
        simpa only [maxUint64] using this

theorem isDigit_ne_sign (c : Char) (h : c.isDigit = true) : c ≠ '+' ∧ c ≠ '-' := by
  constructor
  · rintro rfl
    exact absurd h (by decide)
  · rintro rfl
    exact absurd h (by decide)

/-- On a non-empty string of decimal digits `ParseInt` returns the number
denoted when it fits `int`, and the greatest `int` otherwise. -/
theorem parseInt_digits (cs : List Char) (hne : cs ≠ [])
    (hd : ∀ c ∈ cs, c.isDigit = true) :
    strconv.ParseInt cs =
      if (Spec.decimalValue cs : Int) ≤ maxInt64 then (Spec.decimalValue cs : Int)
      else maxInt64 := by
  cases cs with
  | nil => exact absurd rfl hne
  | cons c cs =>
    have hc := isDigit_ne_sign c (hd c (List.mem_cons_self c cs))
    have hloop := parseUint_loop_digits (c :: cs) 0 (by simp [maxUint64]) hd
    simp only [strconv.ParseInt, strconv.ParseUint, hc.1, hc.2, decide_False, or_self, if_false,
      hloop]
    change _ = if (Spec.decimalValueFrom 0 (c :: cs) : Int) ≤ maxInt64 then
      (Spec.decimalValueFrom 0 (c :: cs) : Int) else maxInt64
    generalize Spec.decimalValueFrom 0 (c :: cs) = v
    simp only [maxUint64, maxInt64]
    by_cases hv : v ≤ 18446744073709551615
    · rw [if_pos hv]
      simp only [Bool.false_eq_true, not_false_eq_true, true_and, false_and, if_false]
      by_cases hv2 : v ≥ 9223372036854775808
      · rw [if_pos hv2, if_neg (by omega)]
      · rw [if_neg hv2, if_pos (by omega)]
    · rw [if_neg hv]
      simp only [Bool.false_eq_true, if_false]
      rw [if_neg (by omega)]

/-- A string whose first character is neither a digit nor a sign is a syntax
error, for which `ParseInt` returns `0`. -/
theorem parseInt_of_not_digit (c : Char) (cs : List Char)
    (hc : c.isDigit = false) (hplus : c ≠ '+') (hminus : c ≠ '-') :
    strconv.ParseInt (c :: cs) = 0 := by
  simp only [strconv.ParseInt, strconv.ParseUint, strconv.ParseUint.loop, hplus, hminus, hc,
    or_self, if_false, Bool.false_eq_true]

theorem wrapInt64_eq_iff (x : Int) (h0 : 0 ≤ x) :
    wrapInt64 x = x ↔ x ≤ 9223372036854775807 := by
  unfold wrapInt64
  constructor
  · intro h
    omega
  · intro h
    omega

/-- C23 (counterexample): for `pageStr = "9223372036854775807"` and an empty
`limitStr` the page used is 9223372036854775807 and the limit 10, and the offset
passed to the repository is `-20`, not `(page - 1) * limit`; for
`pageStr = "99999999999999999999"`, which `ParseUint` refuses with a range
error, the page used is 9223372036854775807, neither `1` nor the number the
string denotes. -/
theorem listPVZ_pagination_counterexample :
    (PVZService.ListPVZ (PvzEnv.quiet "uuid-1" 7) "" "9223372036854775807" "" ""
      Example.pvzEmpty).2.calls = [PvzCall.ListPVZ 10 (-20) none none] ∧
    ListPVZ.page "9223372036854775807" = 9223372036854775807 ∧
    ListPVZ.limit "" = 10 ∧
    ListPVZ.offset "" "9223372036854775807" ≠
      (ListPVZ.page "9223372036854775807" - 1) * ListPVZ.limit "" ∧
    strconv.ParseUint "99999999999999999999".toList = NumResult.rangeError ∧
    Spec.decimalValue "99999999999999999999".toList = 99999999999999999999 ∧
    ListPVZ.page "99999999999999999999" = 9223372036854775807 ∧
    ListPVZ.page "99999999999999999999" ≠ 1 := by
  decide

/-- C23 (amended): `ListPVZ` calls the repository's `ListPVZ` once.  With `a`
the value `strconv.Atoi` returns for `limitStr` and `b` the one for `pageStr`
(their errors being discarded), the limit passed is `a` when `1 ≤ a ≤ 30` and
`10` otherwise, the page used is `b` when `1 ≤ b` and `1` otherwise, and the
offset passed is `(page - 1) * limit` in 64-bit `int` arithmetic: it is the
exact product exactly when the product is at most 9223372036854775807, which is
the case whenever `page - 1 ≤ 307445734561825860`.  The value `Atoi` returns is
the number denoted for a non-empty string of decimal digits denoting at most
9223372036854775807, is 9223372036854775807 for one denoting more, and is `0`
for the empty string and for a string whose first character is neither a digit
nor a sign. -/
theorem listPVZ_pagination (env : PvzEnv) (limitStr pageStr startDateStr endDateStr : String)
    (db : PvzDB) :
    (∃ (limit page offset : Int) (startDate endDate : Option Int),
      (PVZService.ListPVZ env limitStr pageStr startDateStr endDateStr db).2.calls =
        db.calls ++ [PvzCall.ListPVZ limit offset startDate endDate] ∧
      (1 ≤ strconv.Atoi limitStr ∧ strconv.Atoi limitStr ≤ 30 →
        limit = strconv.Atoi limitStr) ∧
      (¬ (1 ≤ strconv.Atoi limitStr ∧ strconv.Atoi limitStr ≤ 30) → limit = 10) ∧
      (1 ≤ strconv.Atoi pageStr → page = strconv.Atoi pageStr) ∧
      (¬ (1 ≤ strconv.Atoi pageStr) → page = 1) ∧
      offset = wrapInt64 ((page - 1) * limit) ∧
      (offset = (page - 1) * limit ↔ (page - 1) * limit ≤ 9223372036854775807) ∧
      (page - 1 ≤ 307445734561825860 → offset = (page - 1) * limit)) ∧
    (∀ s : String, s.toList ≠ [] → (∀ c ∈ s.toList, c.isDigit = true) →
      strconv.Atoi s =
        if (Spec.decimalValue s.toList : Int) ≤ 9223372036854775807 then
          (Spec.decimalValue s.toList : Int)
        else 9223372036854775807) ∧
    (∀ (s : String) (c : Char) (cs : List Char), s.toList = c :: cs →
      c.isDigit = false → c ≠ '+' → c ≠ '-' → strconv.Atoi s = 0) ∧
    strconv.Atoi "" = 0 ∧ strconv.Atoi "invalid" = 0 ∧
    strconv.Atoi "2" = 2 ∧ strconv.Atoi "10" = 10 ∧ strconv.Atoi "1" = 1 := by
  have hl := listPVZ_limit_range limitStr
  have hp := listPVZ_page_pos pageStr
  have hnn : 0 ≤ (ListPVZ.page pageStr - 1) * ListPVZ.limit limitStr :=
    mul_nonneg (by omega) (by omega)
  refine ⟨⟨ListPVZ.limit limitStr, ListPVZ.page pageStr, ListPVZ.offset limitStr pageStr, _, _,
    listPVZ_calls env limitStr pageStr startDateStr endDateStr db, ?_, ?_, ?_, ?_, rfl, ?_, ?_⟩,
    ?_, ?_, by decide, by decide, by decide, by decide, by decide⟩
  · intro h
    unfold ListPVZ.limit
    rw [if_neg (by omega)]
  · intro h
    unfold ListPVZ.limit
    rw [if_pos (by omega)]
  · intro h
    unfold ListPVZ.page
    rw [if_neg (by omega)]
  · intro h
    unfold ListPVZ.page
    rw [if_pos (by omega)]
  · unfold ListPVZ.offset
    exact wrapInt64_eq_iff _ hnn
  · intro h
    unfold ListPVZ.offset
    apply wrapInt64_of_range _ hnn
    calc (ListPVZ.page pageStr - 1) * ListPVZ.limit limitStr
        ≤ 307445734561825860 * 30 :=
          mul_le_mul h hl.2 (by omega) (by omega)
      _ ≤ 9223372036854775807 := by norm_num
  · intro s hne hd
    exact parseInt_digits s.toList hne hd
  · intro s c cs hs hc hplus hminus
    unfold strconv.Atoi
    rw [hs]
    exact parseInt_of_not_digit c cs hc hplus hminus

/-- Witness of C23 (amended): the calls made for the four pairs of the service
tests, and the value of `Atoi` on the digits `25` and on `abc`. -/
theorem listPVZ_pagination_witness :
    (PVZService.ListPVZ (PvzEnv.quiet "uuid-1" 7) "" "" "" "" Example.pvzEmpty).2.calls =
      [PvzCall.ListPVZ 10 0 none none] ∧
    (PVZService.ListPVZ (PvzEnv.quiet "uuid-1" 7) "2" "2" "" "" Example.pvzEmpty).2.calls =
      [PvzCall.ListPVZ 2 2 none none] ∧
    (PVZService.ListPVZ (PvzEnv.quiet "uuid-1" 7) "invalid" "1" "" "" Example.pvzEmpty).2.calls =
      [PvzCall.ListPVZ 10 0 none none] ∧
    (PVZService.ListPVZ (PvzEnv.quiet "uuid-1" 7) "10" "invalid" "" "" Example.pvzEmpty).2.calls =
      [PvzCall.ListPVZ 10 0 none none] ∧
    strconv.Atoi "25" =
      (if (Spec.decimalValue "25".toList : Int) ≤ 9223372036854775807 then
        (Spec.decimalValue "25".toList : Int)
      else 9223372036854775807) ∧
    strconv.Atoi "abc" = 0 :=
  ⟨by decide, by decide, by decide, by decide,
   (listPVZ_pagination (PvzEnv.quiet "uuid-1" 7) "" "" "" "" Example.pvzEmpty).2.1 "25"
      (by decide) (by decide),
   (listPVZ_pagination (PvzEnv.quiet "uuid-1" 7) "" "" "" "" Example.pvzEmpty).2.2.1 "abc"
      'a' ['b', 'c'] rfl (by decide) (by decide) (by decide)⟩

/-- C29 (defect): for `pageStr = "9223372036854775807"` and an empty
`limitStr`, `strconv.Atoi` returns the greatest `int`, the limit is 10, and the
offset `(page - 1) * limit` wraps to `-20`; `ListPVZ` passes this negative
offset to the repository, whose `uint64(offset)` is 18446744073709551596. -/
theorem listPVZ_offset_negative :
    strconv.Atoi "9223372036854775807" = 9223372036854775807 ∧
    (PVZService.ListPVZ (PvzEnv.quiet "uuid-1" 7) "" "9223372036854775807" "" ""
      Example.pvzEmpty).2.calls = [PvzCall.ListPVZ 10 (-20) none none] ∧
    ListPVZ.offset "" "9223372036854775807" < 0 ∧
    ListPVZ.offset "" "99999999999999999999" < 0 ∧
    toUint64 (-20) = 18446744073709551596 := by
  decide

/-! ## Users -/

@[simp] theorem UserDB.log_users (db : UserDB) (c : UserCall) : (db.log c).users = db.users := rfl

@[simp] theorem UserDB.log_userCalls (db : UserDB) (c : UserCall) :
    (db.log c).calls = db.calls ++ [c] := rfl

theorem getUser_snd (env : AuthEnv) (email : String) (db : UserDB) :
    (UserRepository.GetUserByEmail env email db).2 = db.log (UserCall.GetUserByEmail email) := by
  unfold UserRepository.GetUserByEmail
  simp only
  split
  · rfl
  · split <;> rfl

theorem getUser_ok (env : AuthEnv) (email : String) (db : UserDB) (u : User)
    (h : (UserRepository.GetUserByEmail env email db).1 = Except.ok u) :
    env.getUserErr = none ∧ u ∈ db.users ∧ u.Email = email := by
  unfold UserRepository.GetUserByEmail at h
  simp only at h
  split at h
  · simp at h
  · rename_i hf
    split at h
    · simp at h
    · rename_i x hx
      simp only [Except.ok.injEq] at h
      subst h
      have hm := List.mem_filter.mp (List.getElem?_mem hx)
      exact ⟨hf, by simpa using hm.1, by simpa using hm.2⟩

/-- What the lookup returns as an error: the driver's error, or
`ErrUserNotFound` when the query was executed and no row has the email. -/
theorem getUser_error (env : AuthEnv) (email : String) (db : UserDB) (e : Error)
    (h : (UserRepository.GetUserByEmail env email db).1 = Except.error e) :
    (∃ msg, env.getUserErr = some msg ∧ e = Error.other msg) ∨
    (env.getUserErr = none ∧ e = Error.ErrUserNotFound ∧ ∀ u ∈ db.users, u.Email ≠ email) := by
  unfold UserRepository.GetUserByEmail at h
  simp only at h
  split at h
  · rename_i msg hf
    simp only [Except.error.injEq] at h
    exact Or.inl ⟨msg, hf, h.symm⟩
  · rename_i hf
    split at h
    · rename_i hx
      simp only [Except.error.injEq] at h
      refine Or.inr ⟨hf, h.symm, ?_⟩
      intro u hu hue
      have hmem : u ∈ (db.log (UserCall.GetUserByEmail email)).users.filter
          (fun u => decide (u.Email = email)) :=
        List.mem_filter.mpr ⟨by simpa using hu, by simpa using hue⟩
      have hpos := List.length_pos_of_mem hmem
      have hlt := Nat.mod_lt env.tieUser hpos
      rw [List.getElem?_eq_none_iff] at hx
      omega
    · simp at h

/-- When a stored user has the email and the query is executed, the lookup
returns a user. -/
theorem getUser_of_mem (env : AuthEnv) (email : String) (db : UserDB)
    (hf : env.getUserErr = none) (hex : ∃ u ∈ db.users, u.Email = email) :
    ∃ u, (UserRepository.GetUserByEmail env email db).1 = Except.ok u := by
  cases hq : (UserRepository.GetUserByEmail env email db).1 with
  | ok u => exact ⟨u, rfl⟩
  | error e =>
    rcases getUser_error env email db e hq with ⟨msg, hm, _⟩ | ⟨_, _, hnone⟩
    · rw [hf] at hm; simp at hm
    · obtain ⟨u, hu, hue⟩ := hex
      exact absurd hue (hnone u hu)

theorem registerUser_of_ok (sha256Hex : String → String) (env : AuthEnv)
    (req : RegisterRequest) (db : UserDB) (u : User)
    (h : (UserRepository.GetUserByEmail env req.Email db).1 = Except.ok u) :
    AuthService.RegisterUser sha256Hex env req db =
      ((none, some Error.ErrEmailExists), db.log (UserCall.GetUserByEmail req.Email)) := by
  have h2 := getUser_snd env req.Email db
  unfold AuthService.RegisterUser
  rcases hq : UserRepository.GetUserByEmail env req.Email db with ⟨res, db1⟩
  rw [hq] at h h2
  simp only at h h2
  subst h h2
  rfl

theorem registerUser_of_error (sha256Hex : String → String) (env : AuthEnv)
    (req : RegisterRequest) (db : UserDB) (e : Error)
    (h : (UserRepository.GetUserByEmail env req.Email db).1 = Except.error e)
    (hne : e ≠ Error.ErrUserNotFound) :
    AuthService.RegisterUser sha256Hex env req db =
      ((none, some e), db.log (UserCall.GetUserByEmail req.Email)) := by
  have h2 := getUser_snd env req.Email db
  unfold AuthService.RegisterUser
  rcases hq : UserRepository.GetUserByEmail env req.Email db with ⟨res, db1⟩
  rw [hq] at h h2
  simp only at h h2
  subst h h2
  simp only [hne, ne_eq, not_false_eq_true, if_true]

theorem registerUser_of_not_found (sha256Hex : String → String) (env : AuthEnv)
    (req : RegisterRequest) (db : UserDB)
    (h : (UserRepository.GetUserByEmail env req.Email db).1 =
      Except.error Error.ErrUserNotFound) :
    AuthService.RegisterUser sha256Hex env req db =
      ((some { ID := env.uuid, Email := req.Email, Role := req.Role,
               Password := utils.HashPassword sha256Hex req.Password },
        (UserRepository.CreateUser env
          { ID := env.uuid, Email := req.Email, Role := req.Role,
            Password := utils.HashPassword sha256Hex req.Password }
          (db.log (UserCall.GetUserByEmail req.Email))).1),
       (UserRepository.CreateUser env
          { ID := env.uuid, Email := req.Email, Role := req.Role,
            Password := utils.HashPassword sha256Hex req.Password }
          (db.log (UserCall.GetUserByEmail req.Email))).2) := by
  have h2 := getUser_snd env req.Email db
  unfold AuthService.RegisterUser
  rcases hq : UserRepository.GetUserByEmail env req.Email db with ⟨res, db1⟩
  rw [hq] at h h2
  simp only at h h2
  subst h h2
  simp

theorem repoCreateUser_eq (env : AuthEnv) (user : User) (db : UserDB) :
    UserRepository.CreateUser env user db =
      match env.createUserErr with
      | some msg => (some (Error.other msg), db.log (UserCall.CreateUser user))
      | none => (none, { db.log (UserCall.CreateUser user) with users := db.users ++ [user] }) := by
  unfold UserRepository.CreateUser
  cases env.createUserErr <;> rfl

/-- Every case of `RegisterUser`: `users` is untouched, or gains one row whose
email no stored user had. -/
theorem registerUser_cases (sha256Hex : String → String) (env : AuthEnv)
    (req : RegisterRequest) (db : UserDB) :
    (AuthService.RegisterUser sha256Hex env req db).2.users = db.users ∨
    ((∀ u ∈ db.users, u.Email ≠ req.Email) ∧
      (AuthService.RegisterUser sha256Hex env req db).1 =
        (some { ID := env.uuid, Email := req.Email, Role := req.Role,
                Password := utils.HashPassword sha256Hex req.Password }, none) ∧
      (AuthService.RegisterUser sha256Hex env req db).2.users =
        db.users ++ [{ ID := env.uuid, Email := req.Email, Role := req.Role,
                       Password := utils.HashPassword sha256Hex req.Password }]) := by
  cases hq : (UserRepository.GetUserByEmail env req.Email db).1 with
  | ok u =>
    rw [registerUser_of_ok sha256Hex env req db u hq]
    exact Or.inl rfl
  | error e =>
    by_cases hne : e = Error.ErrUserNotFound
    · subst hne
      rw [registerUser_of_not_found sha256Hex env req db hq, repoCreateUser_eq]
      cases hc : env.createUserErr with
      | some msg => exact Or.inl rfl
      | none =>
        right
        rcases getUser_error env req.Email db _ hq with ⟨msg, _, hm⟩ | ⟨_, _, hnone⟩
        · simp at hm
        · exact ⟨hnone, rfl, rfl⟩
    · rw [registerUser_of_error sha256Hex env req db e hq hne]
      exact Or.inl rfl

theorem registerRun_emails (sha256Hex : String → String)
    (steps : List (AuthEnv × RegisterRequest)) :
    ∀ db : UserDB, (db.users.map User.Email).Nodup →
      ((registerRun sha256Hex steps db).users.map User.Email).Nodup := by
  induction steps with
  | nil => intro db h; exact h
  | cons step rest ih =>
    intro db h
    obtain ⟨env, req⟩ := step
    simp only [registerRun]
    apply ih
    rcases registerUser_cases sha256Hex env req db with hu | ⟨hnone, _, hu⟩
    · rw [hu]; exact h
    · rw [hu, List.map_append, List.nodup_append]
      refine ⟨h, by simp, ?_⟩
      intro a ha hb
      simp only [List.map_cons, List.map_nil, List.mem_singleton] at hb
      obtain ⟨u, hu1, hu2⟩ := List.mem_map.mp ha
      exact hnone u hu1 (by rw [hu2, hb])

/-- C24: for a registration request whose email belongs to a stored user,
`RegisterUser` returns `(nil, ErrEmailExists)` when the lookup is executed, and
in any case calls only `GetUserByEmail` and leaves `users` unchanged; from a
store with pairwise distinct emails every sequence of `RegisterUser` calls
leads to a store with pairwise distinct emails; and when the lookup returns an
error other than `ErrUserNotFound`, `RegisterUser` returns `(nil, that error)`,
calls only `GetUserByEmail` and leaves `users` unchanged. -/
theorem registerUser_email_unique (sha256Hex : String → String) :
    (∀ (env : AuthEnv) (req : RegisterRequest) (db : UserDB),
      (∃ u ∈ db.users, u.Email = req.Email) →
        (env.getUserErr = none →
          (AuthService.RegisterUser sha256Hex env req db).1 =
            (none, some Error.ErrEmailExists)) ∧
        (AuthService.RegisterUser sha256Hex env req db).2.calls =
          db.calls ++ [UserCall.GetUserByEmail req.Email] ∧
        (AuthService.RegisterUser sha256Hex env req db).2.users = db.users) ∧
    (∀ (steps : List (AuthEnv × RegisterRequest)) (db : UserDB),
      (db.users.map User.Email).Nodup →
        ((registerRun sha256Hex steps db).users.map User.Email).Nodup) ∧
    (∀ (env : AuthEnv) (req : RegisterRequest) (db : UserDB) (e : Error),
      (UserRepository.GetUserByEmail env req.Email db).1 = Except.error e →
      e ≠ Error.ErrUserNotFound →
        (AuthService.RegisterUser sha256Hex env req db).1 = (none, some e) ∧
        (AuthService.RegisterUser sha256Hex env req db).2.calls =
          db.calls ++ [UserCall.GetUserByEmail req.Email] ∧
        (AuthService.RegisterUser sha256Hex env req db).2.users = db.users) := by
  refine ⟨?_, registerRun_emails sha256Hex, ?_⟩
  · intro env req db hex
    cases hq : (UserRepository.GetUserByEmail env req.Email db).1 with
    | ok u =>
      rw [registerUser_of_ok sha256Hex env req db u hq]
      simp
    | error e =>
      rcases getUser_error env req.Email db e hq with ⟨msg, hm, he⟩ | ⟨_, _, hnone⟩
      · have hne : e ≠ Error.ErrUserNotFound := by rw [he]; simp
        rw [registerUser_of_error sha256Hex env req db e hq hne]
        refine ⟨?_, by simp, by simp⟩
        intro hf
        rw [hf] at hm
        simp at hm
      · obtain ⟨u, hu, hue⟩ := hex
        exact absurd hue (hnone u hu)
  · intro env req db e hq hne
    rw [registerUser_of_error sha256Hex env req db e hq hne]
    simp

/-- Witness of C24: registering the email of the stored moderator again. -/
theorem registerUser_email_unique_witness :
    (AuthService.RegisterUser Example.digest (AuthEnv.quiet "uuid-2")
      { Email := "mod@test.com", Password := "other", Role := "employee" }
      Example.usersOne).1 = (none, some Error.ErrEmailExists) :=
  ((registerUser_email_unique Example.digest).1 (AuthEnv.quiet "uuid-2")
    { Email := "mod@test.com", Password := "other", Role := "employee" } Example.usersOne
    ⟨{ ID := "user-1", Email := "mod@test.com", Role := "moderator",
       Password := "digest(secret)" }, by decide, rfl⟩).1 rfl

/-- C30 (defect): on a store without users, a `RegisterUser` whose `CreateUser`
fails returns the user it built together with the store's error, not a nil
user. -/
theorem registerUser_returns_user_with_error :
    (AuthService.RegisterUser Example.digest Example.envCreateUserFails Example.reqRegister
      Example.usersEmpty).1 =
      (some { ID := "uuid-1", Email := "emp@test.com", Role := "employee",
              Password := "digest(password)" },
       some (Error.other "driver: bad connection")) ∧
    (AuthService.RegisterUser Example.digest Example.envCreateUserFails Example.reqRegister
      Example.usersEmpty).2.users = [] := by
  decide

/-! ## Authentication -/

theorem validate_of_error (sha256Hex : String → String) (env : AuthEnv)
    (email password : String) (db : UserDB) (e : Error)
    (h : (UserRepository.GetUserByEmail env email db).1 = Except.error e) :
    AuthService.validateCredentials sha256Hex env email password db =
      (Except.error Error.ErrInvalidCredentials, db.log (UserCall.GetUserByEmail email)) := by
  have h2 := getUser_snd env email db
  unfold AuthService.validateCredentials
  rcases hq : UserRepository.GetUserByEmail env email db with ⟨res, db1⟩
  rw [hq] at h h2
  simp only at h h2
  subst h h2
  rfl

theorem validate_of_ok (sha256Hex : String → String) (env : AuthEnv)
    (email password : String) (db : UserDB) (u : User)
    (h : (UserRepository.GetUserByEmail env email db).1 = Except.ok u) :
    AuthService.validateCredentials sha256Hex env email password db =
      (if u.Password ≠ utils.HashPassword sha256Hex password then
        Except.error Error.ErrInvalidCredentials else Except.ok u,
       db.log (UserCall.GetUserByEmail email)) := by
  have h2 := getUser_snd env email db
  unfold AuthService.validateCredentials
  rcases hq : UserRepository.GetUserByEmail env email db with ⟨res, db1⟩
  rw [hq] at h h2
  simp only at h h2
  subst h h2
  simp only
  split <;> rfl

theorem authenticate_of_invalid (sha256Hex : String → String) (env : AuthEnv)
    (req : LoginRequest) (db : UserDB) (db1 : UserDB)
    (h : AuthService.validateCredentials sha256Hex env req.Email req.Password db =
      (Except.error Error.ErrInvalidCredentials, db1)) :
    AuthService.AuthenticateUser sha256Hex env req db =
      (("", some Error.ErrInvalidCredentials), db1) := by
  unfold AuthService.AuthenticateUser
  rw [h]

theorem authenticate_of_valid (sha256Hex : String → String) (env : AuthEnv)
    (req : LoginRequest) (db : UserDB) (db1 : UserDB) (u : User)
    (h : AuthService.validateCredentials sha256Hex env req.Email req.Password db =
      (Except.ok u, db1)) :
    AuthService.AuthenticateUser sha256Hex env req db =
      (env.generateJWT u.ID u.Role, db1.log (UserCall.GenerateJWT u.ID u.Role)) := by
  unfold AuthService.AuthenticateUser
  rw [h]

/-- The lookup on a store whose only user with the email is its last row. -/
theorem getUser_of_appended (env : AuthEnv) (db : UserDB) (users : List User) (u : User)
    (hf : env.getUserErr = none) (hnone : ∀ v ∈ users, v.Email ≠ u.Email)
    (hu : db.users = users ++ [u]) :
    (UserRepository.GetUserByEmail env u.Email db).1 = Except.ok u := by
  have hrows : db.users.filter (fun v => decide (v.Email = u.Email)) = [u] := by
    rw [hu, List.filter_append,
      List.filter_eq_nil_iff.mpr (fun v hv => by simpa using hnone v hv)]
    simp
  unfold UserRepository.GetUserByEmail
  simp only [hf, UserDB.log_users, hrows, List.length_singleton, Nat.mod_one,
    List.getElem?_cons_zero]

/-- C25: `AuthenticateUser` returns an empty token and `ErrInvalidCredentials`,
without generating a token, when the user lookup returns an error (no user
under the email, or any store error) and when the stored password differs from
`HashPassword` of the request password; when the lookup returns a user whose
stored password equals that hash it returns the result of `GenerateJWT` for
that user.  After a successful `RegisterUser`, authenticating with the same
email and password reaches `GenerateJWT` for the registered user. -/
theorem authenticateUser_credentials (sha256Hex : String → String) (env : AuthEnv)
    (req : LoginRequest) (db : UserDB) :
    (∀ e : Error, (UserRepository.GetUserByEmail env req.Email db).1 = Except.error e →
      (AuthService.AuthenticateUser sha256Hex env req db).1 =
        ("", some Error.ErrInvalidCredentials) ∧
      (AuthService.AuthenticateUser sha256Hex env req db).2.calls =
        db.calls ++ [UserCall.GetUserByEmail req.Email]) ∧
    ((∀ u ∈ db.users, u.Email ≠ req.Email) →
      (AuthService.AuthenticateUser sha256Hex env req db).1 =
        ("", some Error.ErrInvalidCredentials)) ∧
    (∀ u : User, (UserRepository.GetUserByEmail env req.Email db).1 = Except.ok u →
      u.Password ≠ utils.HashPassword sha256Hex req.Password →
      (AuthService.AuthenticateUser sha256Hex env req db).1 =
        ("", some Error.ErrInvalidCredentials) ∧
      (AuthService.AuthenticateUser sha256Hex env req db).2.calls =
        db.calls ++ [UserCall.GetUserByEmail req.Email]) ∧
    (∀ u : User, (UserRepository.GetUserByEmail env req.Email db).1 = Except.ok u →
      u.Password = utils.HashPassword sha256Hex req.Password →
      (AuthService.AuthenticateUser sha256Hex env req db).1 = env.generateJWT u.ID u.Role ∧
      (AuthService.AuthenticateUser sha256Hex env req db).2.calls =
        db.calls ++ [UserCall.GetUserByEmail req.Email, UserCall.GenerateJWT u.ID u.Role]) ∧
    (∀ (envR : AuthEnv) (reqR : RegisterRequest) (dbR : UserDB) (user : User),
      (AuthService.RegisterUser sha256Hex envR reqR dbR).1 = (some user, none) →
      reqR.Email = req.Email → reqR.Password = req.Password → env.getUserErr = none →
      (AuthService.AuthenticateUser sha256Hex env req
        (AuthService.RegisterUser sha256Hex envR reqR dbR).2).1 =
        env.generateJWT user.ID user.Role) := by
  have hErr : ∀ e : Error, (UserRepository.GetUserByEmail env req.Email db).1 = Except.error e →
      (AuthService.AuthenticateUser sha256Hex env req db).1 =
        ("", some Error.ErrInvalidCredentials) ∧
      (AuthService.AuthenticateUser sha256Hex env req db).2.calls =
        db.calls ++ [UserCall.GetUserByEmail req.Email] := by
    intro e hq
    rw [authenticate_of_invalid sha256Hex env req db _
      (validate_of_error sha256Hex env req.Email req.Password db e hq)]
    simp
  refine ⟨hErr, ?_, ?_, ?_, ?_⟩
  · intro hnone
    cases hq : (UserRepository.GetUserByEmail env req.Email db).1 with
    | error e => exact (hErr e hq).1
    | ok u =>
      obtain ⟨_, hu, hue⟩ := getUser_ok env req.Email db u hq
      exact absurd hue (hnone u hu)
  · intro u hq hne
    have hv := validate_of_ok sha256Hex env req.Email req.Password db u hq
    rw [if_pos hne] at hv
    rw [authenticate_of_invalid sha256Hex env req db _ hv]
    simp
  · intro u hq heq
    have hv := validate_of_ok sha256Hex env req.Email req.Password db u hq
    rw [if_neg (by simpa using heq)] at hv
    rw [authenticate_of_valid sha256Hex env req db _ u hv]
    simp
  · intro envR reqR dbR user hreg hemail hpw hf
    rcases registerUser_cases sha256Hex envR reqR dbR with hu | ⟨hnone, hres, hu⟩
    · -- no row was inserted: the call did not return a user without error
      exfalso
      cases hq : (UserRepository.GetUserByEmail envR reqR.Email dbR).1 with
      | ok u =>
        rw [registerUser_of_ok sha256Hex envR reqR dbR u hq] at hreg
        simp at hreg
      | error e =>
        by_cases hne : e = Error.ErrUserNotFound
        · subst hne
          rw [registerUser_of_not_found sha256Hex envR reqR dbR hq, repoCreateUser_eq] at hreg hu
          cases hc : envR.createUserErr with
          | some msg => rw [hc] at hreg; simp at hreg
          | none =>
            rw [hc] at hu
            simp at hu
        · rw [registerUser_of_error sha256Hex envR reqR dbR e hq hne] at hreg
          simp at hreg
    · rw [hres] at hreg
      simp only [Prod.mk.injEq, Option.some.injEq, and_true] at hreg
      subst hreg
      have hq := getUser_of_appended env (AuthService.RegisterUser sha256Hex envR reqR dbR).2
        dbR.users _ hf hnone hu
      simp only at hq
      rw [hemail] at hq
      have hv := validate_of_ok sha256Hex env req.Email req.Password _ _ hq
      rw [if_neg (by simp [hpw])] at hv
      rw [authenticate_of_valid sha256Hex env req _ _ _ hv]

/-- Witness of C25: the stored moderator logs in with the right password, and
is refused with a wrong one. -/
theorem authenticateUser_credentials_witness :
    (AuthService.AuthenticateUser Example.digest (AuthEnv.quiet "uuid-2")
      { Email := "mod@test.com", Password := "secret" } Example.usersOne).1 =
      ("token:user-1:moderator", none) ∧
    (AuthService.AuthenticateUser Example.digest (AuthEnv.quiet "uuid-2")
      { Email := "mod@test.com", Password := "wrong" } Example.usersOne).1 =
      ("", some Error.ErrInvalidCredentials) :=
  ⟨((authenticateUser_credentials Example.digest (AuthEnv.quiet "uuid-2")
      { Email := "mod@test.com", Password := "secret" } Example.usersOne).2.2.2.1
      { ID := "user-1", Email := "mod@test.com", Role := "moderator",
        Password := "digest(secret)" } rfl (by decide)).1,
   ((authenticateUser_credentials Example.digest (AuthEnv.quiet "uuid-2")
      { Email := "mod@test.com", Password := "wrong" } Example.usersOne).2.2.1
      { ID := "user-1", Email := "mod@test.com", Role := "moderator",
        Password := "digest(secret)" } rfl (by decide)).1⟩

/-! ## The role gate -/

theorem requireRole_iff (ctx : Option User) (required : String) :
    middleware.RequireRole ctx required = none ↔ ∃ u, ctx = some u ∧ u.Role = required := by
  unfold middleware.RequireRole middleware.GetUserFromContext
  cases ctx with
  | none => simp
  | some u =>
    by_cases h : u.Role = required <;> simp [h]

theorem requireRole_denied (ctx : Option User) (required : String)
    (h : ¬ ∃ u, ctx = some u ∧ u.Role = required) :
    ∃ e, middleware.RequireRole ctx required = some e := by
  cases hr : middleware.RequireRole ctx required with
  | none => exact absurd ((requireRole_iff ctx required).mp hr) h
  | some e => exact ⟨e, rfl⟩

/-- C26: `RequireRole(ctx, r)` returns nil exactly when the context carries a
user whose role is `r`.  For every caller without the role `employee` the
open-reception, close-reception, add-product and delete-last-product handlers
answer 403 `"Access denied"` and leave the database, its log of repository
calls included, as it was; the create-pickup-point handler does the same for
every caller without the role `moderator`. -/
theorem role_gate (ctx : Option User) :
    (∀ required : String,
      middleware.RequireRole ctx required = none ↔
        ∃ u, ctx = some u ∧ u.Role = required) ∧
    ((¬ ∃ u, ctx = some u ∧ u.Role = "employee") →
      (∀ (env : Env) (req : Option CreateReceptionRequest) (db : DB),
        createReception.ServeHTTP ctx env req db =
          ({ status := 403, message := some "Access denied" }, db)) ∧
      (∀ (env : Env) (pvzId : String) (db : DB),
        closeReception.ServeHTTP ctx env pvzId db =
          ({ status := 403, message := some "Access denied" }, db)) ∧
      (∀ (env : Env) (req : Option CreateProductRequest) (db : DB),
        createProduct.ServeHTTP ctx env req db =
          ({ status := 403, message := some "Access denied" }, db)) ∧
      (∀ (env : Env) (pvzId : String) (db : DB),
        deleteLastProduct.ServeHTTP ctx env pvzId db =
          ({ status := 403, message := some "Access denied" }, db))) ∧
    ((¬ ∃ u, ctx = some u ∧ u.Role = "moderator") →
      ∀ (env : PvzEnv) (req : Option PVZ) (db : PvzDB),
        createPvz.ServeHTTP ctx env req db =
          ({ status := 403, message := some "Access denied" }, db)) := by
  refine ⟨requireRole_iff ctx, ?_, ?_⟩
  · intro h
    obtain ⟨e, he⟩ := requireRole_denied ctx "employee" h
    refine ⟨?_, ?_, ?_, ?_⟩
    · intro env req db
      unfold createReception.ServeHTTP
      rw [he]
    · intro env pvzId db
      unfold closeReception.ServeHTTP
      rw [he]
    · intro env req db
      unfold createProduct.ServeHTTP
      rw [he]
    · intro env pvzId db
      unfold deleteLastProduct.ServeHTTP
      rw [he]
  · intro h env req db
    obtain ⟨e, he⟩ := requireRole_denied ctx "moderator" h
    unfold createPvz.ServeHTTP
    rw [he]

/-- Witness of C26: a moderator is refused by the open-reception handler, an
employee by the create-pickup-point handler. -/
theorem role_gate_witness :
    createReception.ServeHTTP Example.ctxModerator (Env.quiet "uuid-1" 7)
        (some { PVzID := "pvz-1" }) Example.dbEmpty =
      ({ status := 403, message := some "Access denied" }, Example.dbEmpty) ∧
    createPvz.ServeHTTP Example.ctxEmployee (PvzEnv.quiet "uuid-1" 7)
        (some { ID := "", RegistrationDate := 0, City := "Казань" }) Example.pvzEmpty =
      ({ status := 403, message := some "Access denied" }, Example.pvzEmpty) :=
  ⟨((role_gate Example.ctxModerator).2.1 (by decide)).1 (Env.quiet "uuid-1" 7)
      (some { PVzID := "pvz-1" }) Example.dbEmpty,
   (role_gate Example.ctxEmployee).2.2 (by decide) (PvzEnv.quiet "uuid-1" 7)
      (some { ID := "", RegistrationDate := 0, City := "Казань" }) Example.pvzEmpty⟩

/-! ## Concurrent opens -/

/-- The service call is its lookup followed by `afterLookup`. -/
theorem createReception_eq_afterLookup (env : Env) (r : Reception) (db : DB) :
    ReceptionService.CreateReception env r db =
      ReceptionService.CreateReception.afterLookup env r
        (ReceptionRepository.GetActiveReception env r.PvzID db).1
        (ReceptionRepository.GetActiveReception env r.PvzID db).2 := by
  unfold ReceptionService.CreateReception ReceptionService.CreateReception.afterLookup
  rcases ReceptionRepository.GetActiveReception env r.PvzID db with ⟨res, db1⟩
  cases res <;> rfl

theorem afterLookup_of_error (env : Env) (r : Reception) (e : Error) (db : DB) :
    (ReceptionService.CreateReception.afterLookup env r (Except.error e) db).1 =
      (match env.createErr with
        | some msg => some (Error.other msg)
        | none => none) := by
  unfold ReceptionService.CreateReception.afterLookup ReceptionRepository.CreateReception
  cases env.createErr <;> rfl

/-- While a pickup point has exactly one in-progress reception, every
`CreateReception` on it whose lookup is executed returns
`ErrActiveReceptionExists` and leaves `receptions` unchanged. -/
theorem openCalls_rejected (p : String) (R : Reception) :
    ∀ (envs : List Env) (db : DB), activeRows p db = [R] →
      (∀ env ∈ envs, env.getActiveErr = none) →
      runErrors (openCalls envs p) db =
        List.replicate envs.length (some Error.ErrActiveReceptionExists) ∧
      (run (openCalls envs p) db).receptions = db.receptions := by
  intro envs
  induction envs with
  | nil => intro db _ _; simp [openCalls, runErrors, run]
  | cons env envs ih =>
    intro db hR hexec
    have hq := getActive_single env (handlerReception p).PvzID db R hR (hexec env (by simp))
    have hstep := createReception_of_ok env (handlerReception p) db R hq
    have hrec : (ReceptionService.CreateReception env (handlerReception p) db).2.2.receptions =
        db.receptions := by rw [hstep]; rfl
    have hR2 : activeRows p (ReceptionService.CreateReception env (handlerReception p) db).2.2 =
        [R] := by
      unfold activeRows at hR ⊢
      rw [hrec]; exact hR
    obtain ⟨t1, t2⟩ := ih _ hR2 (fun e he => hexec e (List.mem_cons_of_mem _ he))
    have hcalls : openCalls (env :: envs) p =
        (env, Op.createReception (handlerReception p)) :: openCalls envs p := by
      simp [openCalls]
    rw [hcalls]
    simp only [runErrors, run, Op.error, Op.exec, List.length_cons, List.replicate_succ]
    refine ⟨?_, by rw [t2, hrec]⟩
    rw [t1, hstep]

/-- C27 (counterexample): two `CreateReception` calls on a pickup point without
open reception whose lookups are both executed before either insert both
succeed, and the pickup point has two in-progress receptions afterwards; and
when the database rejects the second insert, the second call fails with the
driver's error, not with `ErrActiveReceptionExists`. -/
theorem raceCreateReception_counterexample :
    activeRows "pvz-1" Example.dbEmpty = [] ∧
    (raceCreateReception (Env.quiet "uuid-1" 7) (Env.quiet "uuid-2" 8)
      (handlerReception "pvz-1") (handlerReception "pvz-1") Example.dbEmpty).1 = (none, none) ∧
    (activeRows "pvz-1" (raceCreateReception (Env.quiet "uuid-1" 7) (Env.quiet "uuid-2" 8)
      (handlerReception "pvz-1") (handlerReception "pvz-1") Example.dbEmpty).2).length = 2 ∧
    (raceCreateReception (Env.quiet "uuid-1" 7) Example.envInsertRejected
      (handlerReception "pvz-1") (handlerReception "pvz-1") Example.dbEmpty).1 =
      (none, some (Error.other "pq: duplicate key value")) := by
  decide

/-- C27 (amended): on a pickup point without open reception, with a store that
executes the statements, `N ≥ 1` `CreateReception` attempts executed one after
another yield one success followed by `N - 1` failures with
`ErrActiveReceptionExists`, and the pickup point has exactly one in-progress
reception afterwards.  When two attempts both look up before either inserts,
neither returns `ErrActiveReceptionExists`, whatever the driver does. -/
theorem serial_opens (envs : List Env) (pvzId : String) (db : DB)
    (hnone : activeRows pvzId db = [])
    (hexec : ∀ env ∈ envs, env.getActiveErr = none ∧ env.createErr = none)
    (hne : envs ≠ []) :
    runErrors (openCalls envs pvzId) db =
      none :: List.replicate (envs.length - 1) (some Error.ErrActiveReceptionExists) ∧
    (activeRows pvzId (run (openCalls envs pvzId) db)).length = 1 ∧
    (∀ env1 env2 : Env,
      (raceCreateReception env1 env2 (handlerReception pvzId) (handlerReception pvzId) db).1.1 ≠
        some Error.ErrActiveReceptionExists ∧
      (raceCreateReception env1 env2 (handlerReception pvzId) (handlerReception pvzId) db).1.2 ≠
        some Error.ErrActiveReceptionExists) := by
  cases envs with
  | nil => exact absurd rfl hne
  | cons env envs =>
    have hq := getActive_empty env (handlerReception pvzId).PvzID db hnone
    have hcalls : openCalls (env :: envs) pvzId =
        (env, Op.createReception (handlerReception pvzId)) :: openCalls envs pvzId := by
      simp [openCalls]
    have hstep := createReception_of_error env (handlerReception pvzId) db _ hq
    rw [repoCreate_eq, (hexec env (by simp)).2] at hstep
    simp only at hstep
    have hR : activeRows pvzId
        (ReceptionService.CreateReception env (handlerReception pvzId) db).2.2 =
        [handedReception env (handlerReception pvzId)] := by
      rw [hstep]
      unfold activeRows at hnone ⊢
      simp only [DB.log_receptions, List.filter_append, hnone, List.nil_append]
      simp [handedReception, handlerReception]
    obtain ⟨t1, t2⟩ := openCalls_rejected pvzId _ envs _ hR
      (fun e he => (hexec e (List.mem_cons_of_mem _ he)).1)
    refine ⟨?_, ?_, ?_⟩
    · rw [hcalls]
      simp only [runErrors, Op.error, Op.exec, List.length_cons, Nat.add_sub_cancel]
      rw [t1, hstep]
    · rw [hcalls]
      simp only [run, Op.exec]
      have hend : activeRows pvzId (run (openCalls envs pvzId)
          (ReceptionService.CreateReception env (handlerReception pvzId) db).2.2) =
          [handedReception env (handlerReception pvzId)] := by
        unfold activeRows at hR ⊢
        rw [t2]; exact hR
      rw [hend]; rfl
    · intro env1 env2
      have h1 := getActive_empty env1 (handlerReception pvzId).PvzID db hnone
      have s1 := getActive_snd env1 (handlerReception pvzId).PvzID db
      have h2 := getActive_empty env2 (handlerReception pvzId).PvzID
        (db.log (Call.GetActiveReception (handlerReception pvzId).PvzID))
        (by simpa using hnone)
      have s2 := getActive_snd env2 (handlerReception pvzId).PvzID
        (db.log (Call.GetActiveReception (handlerReception pvzId).PvzID))
      unfold raceCreateReception
      rcases hA : ReceptionRepository.GetActiveReception env1 (handlerReception pvzId).PvzID db
        with ⟨a1, d1⟩
      rw [hA] at h1 s1
      simp only at h1 s1
      subst h1 s1
      simp only
      rcases hB : ReceptionRepository.GetActiveReception env2 (handlerReception pvzId).PvzID
        (db.log (Call.GetActiveReception (handlerReception pvzId).PvzID)) with ⟨a2, d2⟩
      rw [hB] at h2 s2
      simp only at h2 s2
      subst h2 s2
      simp only
      have e1 := afterLookup_of_error env1 (handlerReception pvzId)
      have e2 := afterLookup_of_error env2 (handlerReception pvzId)
      constructor
      · rw [e1]
        cases env1.createErr <;> simp
      · rw [e2]
        cases env2.createErr <;> simp

/-- Witness of C27 (amended): three opens in a row on an empty store. -/
theorem serial_opens_witness :
    runErrors (openCalls Example.envsThree "pvz-1") Example.dbEmpty =
      [none, some Error.ErrActiveReceptionExists, some Error.ErrActiveReceptionExists] ∧
    (activeRows "pvz-1" (run (openCalls Example.envsThree "pvz-1") Example.dbEmpty)).length = 1 :=
  ⟨(serial_opens Example.envsThree "pvz-1" Example.dbEmpty (by decide) (by decide)
      (by simp [Example.envsThree])).1,
   (serial_opens Example.envsThree "pvz-1" Example.dbEmpty (by decide) (by decide)
      (by simp [Example.envsThree])).2.1⟩

/-! ## Ties on the timestamp -/

theorem getLast_max (env : Env) (id : String) (db : DB) (x : Product)
    (h : (ProductRepository.GetLastProduct env id db).1 = Except.ok x) :
    ∀ q ∈ productRows id db, q.DateTime ≤ x.DateTime := by
  unfold ProductRepository.GetLastProduct at h
  simp only at h
  split at h
  · simp at h
  · split at h
    · simp at h
    · rename_i y hy
      simp only [Except.ok.injEq] at h
      subst h
      simpa using orderByDescLimit1_max Product.DateTime env.tieProduct _ _ hy

/-- C28 (counterexample): in a reception holding two products with the same
timestamp, `GetLastProduct` on the same store contents returns `prod-a` when
the database lists it first and `prod-b` when it lists that one first, and
`DeleteLastProduct` removes the one or the other accordingly. -/
theorem getLastProduct_tie_counterexample :
    (ProductRepository.GetLastProduct (Env.quiet "uuid-1" 7) "rec-1" Example.dbTie).1 =
      Except.ok { ID := "prod-a", DateTime := 6, Type_ := "электроника",
                  ReceptionID := "rec-1" } ∧
    (ProductRepository.GetLastProduct Example.envSecond "rec-1" Example.dbTie).1 =
      Except.ok { ID := "prod-b", DateTime := 6, Type_ := "одежда", ReceptionID := "rec-1" } ∧
    (ProductService.DeleteLastProduct (Env.quiet "uuid-1" 7) "pvz-1" Example.dbTie).2.products =
      [{ ID := "prod-b", DateTime := 6, Type_ := "одежда", ReceptionID := "rec-1" }] ∧
    (ProductService.DeleteLastProduct Example.envSecond "pvz-1" Example.dbTie).2.products =
      [{ ID := "prod-a", DateTime := 6, Type_ := "электроника", ReceptionID := "rec-1" }] :=
  ⟨rfl, rfl, by decide, by decide⟩

/-- C28 (amended): the product `GetLastProduct` returns is a product of the
reception whose timestamp is the greatest of the reception; any two executions
on the same store contents return products with the same timestamp, and the
same product when no other product of the reception shares that timestamp.
Among products sharing the greatest timestamp the query has no secondary key,
and the choice is the database's. -/
theorem getLastProduct_selection (env : Env) (receptionID : String) (db : DB) (x : Product)
    (h : (ProductRepository.GetLastProduct env receptionID db).1 = Except.ok x) :
    x ∈ productRows receptionID db ∧
    (∀ q ∈ productRows receptionID db, q.DateTime ≤ x.DateTime) ∧
    (∀ (env2 : Env) (y : Product),
      (ProductRepository.GetLastProduct env2 receptionID db).1 = Except.ok y →
        y.DateTime = x.DateTime) ∧
    ((∀ q ∈ productRows receptionID db, q ≠ x → q.DateTime ≠ x.DateTime) →
      ∀ (env2 : Env) (y : Product),
        (ProductRepository.GetLastProduct env2 receptionID db).1 = Except.ok y → y = x) := by
  have hx := (getLast_ok env receptionID db x h).2
  have hmax := getLast_max env receptionID db x h
  have hsame : ∀ (env2 : Env) (y : Product),
      (ProductRepository.GetLastProduct env2 receptionID db).1 = Except.ok y →
        y.DateTime = x.DateTime := by
    intro env2 y hy
    have hy1 := (getLast_ok env2 receptionID db y hy).2
    have hy2 := getLast_max env2 receptionID db y hy
    exact le_antisymm (hmax y hy1) (hy2 x hx)
  refine ⟨hx, hmax, hsame, ?_⟩
  intro huniq env2 y hy
  by_contra hne
  exact huniq y (getLast_ok env2 receptionID db y hy).2 hne (hsame env2 y hy)

/-- Witness of C28 (amended): in `Example.dbThree` the timestamps differ, and
the product stamped 8 is returned whichever row the database lists first. -/
theorem getLastProduct_selection_witness :
    (ProductRepository.GetLastProduct (Env.quiet "uuid-1" 7) "rec-1" Example.dbThree).1 =
      Except.ok { ID := "prod-3", DateTime := 8, Type_ := "обувь", ReceptionID := "rec-1" } ∧
    (∀ q ∈ productRows "rec-1" Example.dbThree, q.DateTime ≤ 8) ∧
    (∀ y : Product,
      (ProductRepository.GetLastProduct Example.envSecond "rec-1" Example.dbThree).1 =
        Except.ok y →
      y = { ID := "prod-3", DateTime := 8, Type_ := "обувь", ReceptionID := "rec-1" }) :=
  ⟨rfl,
   (getLastProduct_selection (Env.quiet "uuid-1" 7) "rec-1" Example.dbThree
      { ID := "prod-3", DateTime := 8, Type_ := "обувь", ReceptionID := "rec-1" } rfl).2.1,
   (getLastProduct_selection (Env.quiet "uuid-1" 7) "rec-1" Example.dbThree
      { ID := "prod-3", DateTime := 8, Type_ := "обувь", ReceptionID := "rec-1" } rfl).2.2.2
      (by decide) Example.envSecond⟩

end PVZ
